import Mathlib

/-!
Verification development for the dnd_db derivation-and-consistency engine.

This file gives a shallow embedding, in Lean 4, of the core components of the
repository: the canonical-JSON content hash and raw-entity upsert
(`src/dnd_db/db/upsert.py`), the choice / grant / prerequisite / relationship
loaders (`src/dnd_db/ingest/load_*.py`), the snapshot differ
(`src/dnd_db/snapshots.py`) and the character-progression prerequisite
evaluator (`src/dnd_db/character_progression.py`).  Python values flowing
through these functions are modelled by an explicit `Json` tree; Python's
truthiness, `or`-chains, `int(...)` coercion and `str(...)` rendering are
modelled explicitly where the source relies on them.  Database sessions are
modelled by explicit state records (lists of rows plus an id counter), and
each loader becomes a pure state transformer returning the new state together
with the summary dictionary the Python function returns.
-/

namespace DndDb

/-! ## Python-value model -/

/-- JSON tree.  Numbers are modelled as integers: every payload the engine
manipulates in the repository (levels, counts, scores) is integral. -/
inductive Json where
  | null : Json
  | bool : Bool → Json
  | num : Int → Json
  | str : String → Json
  | arr : List Json → Json
  | obj : List (String × Json) → Json

/-- `dict.get(key)`: first binding wins (parsed JSON objects have unique keys). -/
def Json.get : Json → String → Option Json
  | .obj kvs, k => (kvs.find? (fun p => p.1 == k)).map (fun p => p.2)
  | _, _ => none

/-- `s == ""`, via the character list (kernel-computable, proof-friendly). -/
def strIsEmpty (s : String) : Bool := s.data.isEmpty

/-- Python truthiness of a JSON value (`None`, `False`, `0`, `""`, `[]`, `{}`
are falsy). -/
def Json.truthy : Json → Bool
  | .null => false
  | .bool b => b
  | .num n => n != 0
  | .str s => !strIsEmpty s
  | .arr xs => !xs.isEmpty
  | .obj kvs => !kvs.isEmpty

/-- `a or b` on optional ints, with Python falsiness (`None` and `0` are falsy). -/
def pyOrInt (a b : Option Int) : Option Int :=
  match a with
  | some v => if v != 0 then some v else b
  | none => b

/-- `a or b` on optional JSON values (a missing key yields `None`). -/
def pyOrJson (a b : Option Json) : Option Json :=
  match a with
  | some j => if j.truthy then some j else b
  | none => b

/-- Python `repr` of a JSON value (used by `str(...)` on lists/dicts).  String
escaping is simplified to backslash-escaping quotes and backslashes; the
heuristics in the source only ever do case-folded substring tests on the
result. -/
def pyReprStr (s : String) : String :=
  "'" ++ String.join (s.data.map (fun c =>
      if c = '\'' then "\\'" else if c = '\\' then "\\\\" else String.mk [c])) ++ "'"

mutual

def pyRepr : Json → String
  | .null => "None"
  | .bool true => "True"
  | .bool false => "False"
  | .num n => toString n
  | .str s => pyReprStr s
  | .arr xs => "[" ++ String.intercalate ", " (pyReprList xs) ++ "]"
  | .obj kvs => "\x7b" ++ String.intercalate ", " (pyReprPairs kvs) ++ "\x7d"

def pyReprList : List Json → List String
  | [] => []
  | j :: t => pyRepr j :: pyReprList t

def pyReprPairs : List (String × Json) → List String
  | [] => []
  | (k, v) :: t => (pyReprStr k ++ ": " ++ pyRepr v) :: pyReprPairs t

end

/-- Python `str(...)` of a JSON value. -/
def pyStr : Json → String
  | .str s => s
  | j => pyRepr j

/-- `str.lower()` (character-wise, kernel-computable). -/
def toLowerStr (s : String) : String := String.mk (s.data.map Char.toLower)

/-- `str.strip()` (character-wise, kernel-computable). -/
def trimStr (s : String) : String :=
  String.mk (((s.data.dropWhile Char.isWhitespace).reverse.dropWhile Char.isWhitespace).reverse)

def digitsToNat (cs : List Char) : Option Nat :=
  if cs.isEmpty then none
  else if cs.all Char.isDigit then
    some (cs.foldl (fun a c => a * 10 + (c.toNat - 48)) 0)
  else none

/-- Python `int(str)` (base 10, optional sign, surrounding whitespace). -/
def pyParseInt (s : String) : Option Int :=
  match (trimStr s).data with
  | '+' :: rest => (digitsToNat rest).map Int.ofNat
  | '-' :: rest => (digitsToNat rest).map (fun n => -(Int.ofNat n))
  | cs => (digitsToNat cs).map Int.ofNat

/-- `_coerce_int` (shared by the loaders): `int(value)` under
`try/except (TypeError, ValueError)`; `int(True) = 1`. -/
def _coerce_int (v : Option Json) : Option Int :=
  match v with
  | some (.num n) => some n
  | some (.bool b) => some (if b then 1 else 0)
  | some (.str s) => pyParseInt s
  | _ => none

/-- `needle` occurs as a contiguous sublist of `hay`. -/
def infixCheck (needle : List Char) : List Char → Bool
  | [] => needle.isEmpty
  | l@(_ :: t) => needle.isPrefixOf l || infixCheck needle t

/-- `needle in hay` on Python strings: substring test. -/
def strContains (hay needle : String) : Bool :=
  infixCheck needle.data hay.data

/-- One dash per run: collapse consecutive dashes (the `+` of the regex). -/
def collapseDashes : List Char → List Char
  | [] => []
  | '-' :: '-' :: rest => collapseDashes ('-' :: rest)
  | c :: rest => c :: collapseDashes rest

/-- Strip leading and trailing dashes (`slug.strip("-")`). -/
def stripDashes (l : List Char) : List Char :=
  ((l.dropWhile (fun c => c == '-')).reverse.dropWhile (fun c => c == '-')).reverse

/-- `_slugify` (identical in load_choices / load_grants / load_prereqs):
`re.sub(r"[^a-zA-Z0-9]+", "-", value.strip().lower()).strip("-")`, falling
back to `value.strip().lower()` when the slug is empty. -/
def _slugify (value : String) : String :=
  let lowered := toLowerStr (trimStr value)
  let replaced := collapseDashes (lowered.data.map (fun c => if c.isAlphanum then c else '-'))
  let slug := String.mk (stripDashes replaced)
  if strIsEmpty slug then lowered else slug

/-- Association lookup with Python-dict semantics for dictionaries built by
comprehension: a later binding overrides an earlier one. -/
def dlookup {κ β : Type} [DecidableEq κ] : List (κ × β) → κ → Option β
  | [], _ => none
  | (k', v) :: t, k =>
    match dlookup t k with
    | some v' => some v'
    | none => if k = k' then some v else none

/-! ## SHA-256 (hashlib.sha256, FIPS 180-4), over `Nat` with explicit mod 2^32 -/

def M32 : Nat := 4294967296

def rotr32 (n x : Nat) : Nat := ((x >>> n) ||| (x <<< (32 - n))) % M32

def shaCh (x y z : Nat) : Nat := (x &&& y) ^^^ ((x ^^^ 4294967295) &&& z)

def shaMaj (x y z : Nat) : Nat := (x &&& y) ^^^ (x &&& z) ^^^ (y &&& z)

def bigSigma0 (x : Nat) : Nat := rotr32 2 x ^^^ rotr32 13 x ^^^ rotr32 22 x

def bigSigma1 (x : Nat) : Nat := rotr32 6 x ^^^ rotr32 11 x ^^^ rotr32 25 x

def smallSigma0 (x : Nat) : Nat := rotr32 7 x ^^^ rotr32 18 x ^^^ (x >>> 3)

def smallSigma1 (x : Nat) : Nat := rotr32 17 x ^^^ rotr32 19 x ^^^ (x >>> 10)

def K256 : Array Nat := #[
  1116352408, 1899447441, 3049323471, 3921009573,
  961987163, 1508970993, 2453635748, 2870763221,
  3624381080, 310598401, 607225278, 1426881987,
  1925078388, 2162078206, 2614888103, 3248222580,
  3835390401, 4022224774, 264347078, 604807628,
  770255983, 1249150122, 1555081692, 1996064986,
  2554220882, 2821834349, 2952996808, 3210313671,
  3336571891, 3584528711, 113926993, 338241895,
  666307205, 773529912, 1294757372, 1396182291,
  1695183700, 1986661051, 2177026350, 2456956037,
  2730485921, 2820302411, 3259730800, 3345764771,
  3516065817, 3600352804, 4094571909, 275423344,
  430227734, 506948616, 659060556, 883997877,
  958139571, 1322822218, 1537002063, 1747873779,
  1955562222, 2024104815, 2227730452, 2361852424,
  2428436474, 2756734187, 3204031479, 3329325298]

def sha256init : List Nat := [
  1779033703, 3144134277, 1013904242, 2773480762,
  1359893119, 2600822924, 528734635, 1541459225]

/-- Split into chunks of `m + 1` elements (`m` counts the remaining slots of
the open chunk, whose elements are accumulated in reverse). -/
def chunkGo (m : Nat) : Nat → List Nat → List Nat → List (List Nat)
  | _, acc, [] => [acc.reverse]
  | 0, acc, x :: rest => acc.reverse :: chunkGo m m [x] rest
  | k + 1, acc, x :: rest => chunkGo m k (x :: acc) rest

def chunkList (m : Nat) (l : List Nat) : List (List Nat) :=
  match l with
  | [] => []
  | x :: rest => chunkGo m m [x] rest

def chunk64 (l : List Nat) : List (List Nat) := chunkList 63 l

def chunk4 (l : List Nat) : List (List Nat) := chunkList 3 l

def word4 : List Nat → Nat
  | [a, b, c, d] => a * 16777216 + b * 65536 + c * 256 + d
  | _ => 0

def lenBytes8 (n : Nat) : List Nat :=
  [(n >>> 56) % 256, (n >>> 48) % 256, (n >>> 40) % 256, (n >>> 32) % 256,
   (n >>> 24) % 256, (n >>> 16) % 256, (n >>> 8) % 256, n % 256]

def sha256pad (msg : List Nat) : List Nat :=
  let len := msg.length
  let padLen := (119 - len % 64) % 64
  msg ++ [128] ++ List.replicate padLen 0 ++ lenBytes8 (len * 8)

def extendSchedule (w : Array Nat) : Array Nat :=
  (List.range 48).foldl (fun w _ =>
    let t := w.size
    w.push ((smallSigma1 w[t-2]! + w[t-7]! + smallSigma0 w[t-15]! + w[t-16]!) % M32)) w

def sha256rounds (w : Array Nat) (h : List Nat) : List Nat :=
  let st := (List.range 64).foldl (fun st i =>
    match st with
    | (a, b, c, d, e, f, g, hh) =>
      let t1 := (hh + bigSigma1 e + shaCh e f g + K256[i]! + w[i]!) % M32
      let t2 := (bigSigma0 a + shaMaj a b c) % M32
      ((t1 + t2) % M32, a, b, c, (d + t1) % M32, e, f, g))
    (h[0]!, h[1]!, h[2]!, h[3]!, h[4]!, h[5]!, h[6]!, h[7]!)
  match st with
  | (a, b, c, d, e, f, g, hh) =>
    [(h[0]! + a) % M32, (h[1]! + b) % M32, (h[2]! + c) % M32, (h[3]! + d) % M32,
     (h[4]! + e) % M32, (h[5]! + f) % M32, (h[6]! + g) % M32, (h[7]! + hh) % M32]

def sha256words (msg : List Nat) : List Nat :=
  (chunk64 (sha256pad msg)).foldl
    (fun h block => sha256rounds (extendSchedule (Array.mk ((chunk4 block).map word4))) h)
    sha256init

def hexDigit (n : Nat) : Char := if n < 10 then Char.ofNat (48 + n) else Char.ofNat (87 + n)

def word8hex (n : Nat) : String :=
  String.mk ((List.range 8).reverse.map (fun i => hexDigit ((n >>> (4 * i)) % 16)))

/-- UTF-8 encoding of a string as a byte list. -/
def utf8Bytes (c : Char) : List Nat :=
  let n := c.toNat
  if n < 128 then [n]
  else if n < 2048 then [192 + n / 64, 128 + n % 64]
  else if n < 65536 then [224 + n / 4096, 128 + (n / 64) % 64, 128 + n % 64]
  else [240 + n / 262144, 128 + (n / 4096) % 64, 128 + (n / 64) % 64, 128 + n % 64]

def utf8Encode (s : String) : List Nat := s.data.flatMap utf8Bytes

/-- `hashlib.sha256(bytes).hexdigest()`. -/
def sha256hex (s : String) : String :=
  String.join ((sha256words (utf8Encode s)).map word8hex)

/-! ## Canonical JSON serialization
(`json.dumps(payload, sort_keys=True, separators=(",", ":"))`) -/

/-- Four lowercase hex digits, for `\uXXXX` escapes. -/
def hex4 (n : Nat) : String :=
  String.mk [hexDigit ((n >>> 12) % 16), hexDigit ((n >>> 8) % 16),
             hexDigit ((n >>> 4) % 16), hexDigit (n % 16)]

/-- Python json string escaping with `ensure_ascii=True` (the default). -/
def jsonEscapeChar (c : Char) : String :=
  if c = '"' then "\\\""
  else if c = '\\' then "\\\\"
  else if c = '\n' then "\\n"
  else if c = '\r' then "\\r"
  else if c = '\t' then "\\t"
  else if c.toNat = 8 then "\\b"
  else if c.toNat = 12 then "\\f"
  else if c.toNat < 32 then "\\u" ++ hex4 c.toNat
  else if c.toNat < 127 then String.mk [c]
  else if c.toNat < 65536 then "\\u" ++ hex4 c.toNat
  else
    let v := c.toNat - 65536
    "\\u" ++ hex4 (55296 + v / 1024) ++ "\\u" ++ hex4 (56320 + v % 1024)

def jsonEncodeString (s : String) : String :=
  "\"" ++ String.join (s.data.map jsonEscapeChar) ++ "\""

/-- Code-point lexicographic `≤` on character lists (Python string order). -/
def lexLeChars : List Char → List Char → Bool
  | [], _ => true
  | _ :: _, [] => false
  | a :: as, b :: bs =>
    if a < b then true
    else if b < a then false
    else lexLeChars as bs

def strLeKey (a b : String) : Bool := lexLeChars a.data b.data

/-- Key order used by `sort_keys=True`: Python string comparison, i.e.
code-point lexicographic order on the characters. -/
def keyLe {β : Type} (a b : String × β) : Prop := strLeKey a.1 b.1 = true

instance {β : Type} : DecidableRel (keyLe (β := β)) := fun a b =>
  inferInstanceAs (Decidable (strLeKey a.1 b.1 = true))

def sortByKey {β : Type} (l : List (String × β)) : List (String × β) :=
  List.insertionSort keyLe l

mutual

/-- `json.dumps(·, sort_keys=True, separators=(",", ":"))`: compact separators,
object keys emitted in sorted order (serializing a value and sorting the
key/value items commute, since the sort compares keys only). -/
def canonicalSerialize : Json → String
  | .null => "null"
  | .bool true => "true"
  | .bool false => "false"
  | .num n => toString n
  | .str s => jsonEncodeString s
  | .arr xs => "[" ++ String.intercalate "," (canonicalSerializeList xs) ++ "]"
  | .obj kvs =>
    "\x7b" ++ String.intercalate ","
      ((sortByKey (canonicalSerializeItems kvs)).map
        (fun q => jsonEncodeString q.1 ++ ":" ++ q.2)) ++ "\x7d"

def canonicalSerializeList : List Json → List String
  | [] => []
  | j :: t => canonicalSerialize j :: canonicalSerializeList t

def canonicalSerializeItems : List (String × Json) → List (String × String)
  | [] => []
  | (k, v) :: t => (k, canonicalSerialize v) :: canonicalSerializeItems t

end

/-- `canonical_json_hash` (db/upsert.py): sha256 hex digest of the canonical
serialization, a pure function of the payload. -/
def canonical_json_hash (payload : Json) : String :=
  sha256hex (canonicalSerialize payload)

/-! ## Key-order independence of the canonical hash (C2 machinery) -/

mutual

/-- Key-normal form of a JSON tree: object keys recursively sorted.  Claim-side
predicate: two payloads are "structurally equal up to object-key order" exactly
when their key-normal forms coincide. -/
def normalizeKeys : Json → Json
  | .null => .null
  | .bool b => .bool b
  | .num n => .num n
  | .str s => .str s
  | .arr xs => .arr (normalizeKeysList xs)
  | .obj kvs => .obj (sortByKey (normalizeKeysPairs kvs))

def normalizeKeysList : List Json → List Json
  | [] => []
  | j :: t => normalizeKeys j :: normalizeKeysList t

def normalizeKeysPairs : List (String × Json) → List (String × Json)
  | [] => []
  | (k, v) :: t => (k, normalizeKeys v) :: normalizeKeysPairs t

end

theorem lexLeChars_total : ∀ a b : List Char, lexLeChars a b = true ∨ lexLeChars b a = true
  | [], _ => Or.inl rfl
  | _ :: _, [] => Or.inr rfl
  | a :: as, b :: bs => by
    rcases lt_trichotomy a b with h | h | h
    · left; simp [lexLeChars, h]
    · subst h
      rcases lexLeChars_total as bs with ih | ih
      · left; simp [lexLeChars, ih]
      · right; simp [lexLeChars, ih]
    · right; simp [lexLeChars, h]

theorem lexLeChars_trans : ∀ a b c : List Char,
    lexLeChars a b = true → lexLeChars b c = true → lexLeChars a c = true
  | [], _, _ => by intro _ _; rfl
  | _ :: _, [], _ => by intro h _; simp [lexLeChars] at h
  | _ :: _, _ :: _, [] => by intro _ h; simp [lexLeChars] at h
  | a :: as, b :: bs, c :: cs => by
    intro h1 h2
    rcases lt_trichotomy a b with hab | hab | hab
    · rcases lt_trichotomy b c with hbc | hbc | hbc
      · simp [lexLeChars, lt_trans hab hbc]
      · subst hbc; simp [lexLeChars, hab]
      · simp [lexLeChars, hbc, not_lt_of_gt hbc] at h2
    · subst hab
      simp only [lexLeChars, lt_irrefl, if_false] at h1
      rcases lt_trichotomy a c with h | h | h
      · simp [lexLeChars, h]
      · subst h
        simp only [lexLeChars, lt_irrefl, if_false] at h2 ⊢
        exact lexLeChars_trans _ _ _ h1 h2
      · simp [lexLeChars, h, not_lt_of_gt h] at h2
    · simp [lexLeChars, hab, not_lt_of_gt hab] at h1

theorem lexLeChars_antisymm : ∀ a b : List Char,
    lexLeChars a b = true → lexLeChars b a = true → a = b
  | [], [] => by intro _ _; rfl
  | [], _ :: _ => by intro _ h; simp [lexLeChars] at h
  | _ :: _, [] => by intro h _; simp [lexLeChars] at h
  | a :: as, b :: bs => by
    intro h1 h2
    simp only [lexLeChars] at h1 h2
    rcases lt_trichotomy a b with hab | hab | hab
    · simp [hab, not_lt_of_gt hab] at h2
    · subst hab
      simp [lt_irrefl] at h1 h2
      rw [lexLeChars_antisymm as bs h1 h2]
    · simp [hab, not_lt_of_gt hab] at h1

theorem strLeKey_total (a b : String) : strLeKey a b = true ∨ strLeKey b a = true :=
  lexLeChars_total a.data b.data

theorem strLeKey_trans {a b c : String} (h1 : strLeKey a b = true) (h2 : strLeKey b c = true) :
    strLeKey a c = true :=
  lexLeChars_trans a.data b.data c.data h1 h2

theorem strLeKey_antisymm {a b : String} (h1 : strLeKey a b = true) (h2 : strLeKey b a = true) :
    a = b := by
  have := lexLeChars_antisymm a.data b.data h1 h2
  cases a; cases b; exact congrArg String.mk this

instance {β : Type} : IsTotal (String × β) keyLe :=
  ⟨fun a b => strLeKey_total a.1 b.1⟩

instance {β : Type} : IsTrans (String × β) keyLe :=
  ⟨fun _ _ _ h1 h2 => strLeKey_trans h1 h2⟩

theorem canonicalSerializeList_eq_map (xs : List Json) :
    canonicalSerializeList xs = xs.map canonicalSerialize := by
  induction xs with
  | nil => rfl
  | cons j t ih => simp [canonicalSerializeList, ih]

theorem canonicalSerializeItems_eq_map (kvs : List (String × Json)) :
    canonicalSerializeItems kvs = kvs.map (fun p => (p.1, canonicalSerialize p.2)) := by
  induction kvs with
  | nil => rfl
  | cons p t ih => cases p; simp [canonicalSerializeItems, ih]

theorem normalizeKeysList_eq_map (xs : List Json) :
    normalizeKeysList xs = xs.map normalizeKeys := by
  induction xs with
  | nil => rfl
  | cons j t ih => simp [normalizeKeysList, ih]

theorem normalizeKeysPairs_eq_map (kvs : List (String × Json)) :
    normalizeKeysPairs kvs = kvs.map (fun p => (p.1, normalizeKeys p.2)) := by
  induction kvs with
  | nil => rfl
  | cons p t ih => cases p; simp [normalizeKeysPairs, ih]

/-- Strong induction principle for the nested `Json` tree. -/
theorem Json.indStrong {motive : Json → Prop}
    (hnull : motive .null) (hbool : ∀ b, motive (.bool b))
    (hnum : ∀ n, motive (.num n)) (hstr : ∀ s, motive (.str s))
    (harr : ∀ xs, (∀ x ∈ xs, motive x) → motive (.arr xs))
    (hobj : ∀ kvs, (∀ p ∈ kvs, motive p.2) → motive (.obj kvs)) : ∀ j, motive j := by
  suffices H : ∀ n (j : Json), sizeOf j ≤ n → motive j from fun j => H (sizeOf j) j le_rfl
  intro n
  induction n with
  | zero =>
    intro j hj
    cases j <;> simp at hj
  | succ n ih =>
    intro j hj
    cases j with
    | null => exact hnull
    | bool b => exact hbool b
    | num m => exact hnum m
    | str s => exact hstr s
    | arr xs =>
      refine harr xs (fun x hx => ih x ?_)
      have := List.sizeOf_lt_of_mem hx
      simp at hj
      omega
    | obj kvs =>
      refine hobj kvs (fun p hp => ih p.2 ?_)
      have := List.sizeOf_lt_of_mem hp
      obtain ⟨k, v⟩ := p
      simp at hj this ⊢
      omega

theorem sortByKey_sorted {β : Type} (l : List (String × β)) :
    (sortByKey l).Sorted keyLe :=
  List.sorted_insertionSort keyLe l

theorem sortByKey_sortByKey {β : Type} (l : List (String × β)) :
    sortByKey (sortByKey l) = sortByKey l :=
  (sortByKey_sorted l).insertionSort_eq

theorem sortByKey_map_snd {β γ : Type} (g : β → γ) (l : List (String × β)) :
    (sortByKey l).map (fun p => (p.1, g p.2)) = sortByKey (l.map (fun p => (p.1, g p.2))) :=
  List.map_insertionSort keyLe keyLe (fun p => (p.1, g p.2)) l
    (fun _ _ _ _ => Iff.rfl)

/-- Serialization is invariant under key normalization: `canonicalSerialize`
already emits every object level in sorted key order. -/
theorem canonicalSerialize_normalizeKeys :
    ∀ j : Json, canonicalSerialize (normalizeKeys j) = canonicalSerialize j := by
  intro j
  induction j using Json.indStrong with
  | hnull => rfl
  | hbool b => rfl
  | hnum n => rfl
  | hstr s => rfl
  | harr xs ih =>
    simp only [normalizeKeys, canonicalSerialize, canonicalSerializeList_eq_map,
      normalizeKeysList_eq_map, List.map_map]
    have h : List.map (canonicalSerialize ∘ normalizeKeys) xs = List.map canonicalSerialize xs :=
      List.map_congr_left (fun x hx => ih x hx)
    rw [h]
  | hobj kvs ih =>
    simp only [normalizeKeys, canonicalSerialize, canonicalSerializeItems_eq_map,
      normalizeKeysPairs_eq_map]
    rw [sortByKey_map_snd canonicalSerialize, sortByKey_sortByKey, List.map_map]
    have h : kvs.map ((fun p => (p.1, canonicalSerialize p.2)) ∘
          (fun p => (p.1, normalizeKeys p.2)))
        = kvs.map (fun p => (p.1, canonicalSerialize p.2)) :=
      List.map_congr_left (fun p hp => by
        simp only [Function.comp]
        exact congrArg (fun s => (p.1, s)) (ih p hp))
    rw [h]

/-- Two key-sorted pair lists that are permutations of each other, with no
duplicate keys, are equal. -/
theorem eq_of_perm_sorted_nodupKeys {β : Type} :
    ∀ (l1 l2 : List (String × β)), l1.Perm l2 → (l1.map Prod.fst).Nodup →
      l1.Sorted keyLe → l2.Sorted keyLe → l1 = l2 := by
  intro l1
  induction l1 with
  | nil =>
    intro l2 hperm _ _ _
    exact hperm.nil_eq
  | cons p t1 ih =>
    intro l2 hperm hnodup hs1 hs2
    cases l2 with
    | nil =>
      have := hperm.length_eq
      simp at this
    | cons q t2 =>
      have hq : q = p ∨ q ∈ t1 := by
        have hmem := hperm.mem_iff.mpr (List.mem_cons_self q t2)
        simpa using hmem
      have hp : p = q ∨ p ∈ t2 := by
        have hmem := hperm.mem_iff.mp (List.mem_cons_self p t1)
        simpa using hmem
      have hpq : p = q := by
        rcases hp with hp | hp
        · exact hp
        · rcases hq with hq | hq
          · exact hq.symm
          · exfalso
            have h1 : keyLe p q := List.rel_of_sorted_cons hs1 q hq
            have h2 : keyLe q p := List.rel_of_sorted_cons hs2 p hp
            have hk : p.1 = q.1 := strLeKey_antisymm h1 h2
            have : p.1 ∉ t1.map Prod.fst := by
              simp only [List.map_cons, List.nodup_cons] at hnodup
              exact hnodup.1
            exact this (hk ▸ List.mem_map_of_mem Prod.fst hq)
      subst hpq
      have htail : t1 = t2 :=
        ih t2 hperm.cons_inv
          (by simp only [List.map_cons, List.nodup_cons] at hnodup; exact hnodup.2)
          hs1.of_cons hs2.of_cons
      rw [htail]

theorem sortByKey_perm_of_perm {β : Type} (l1 l2 : List (String × β))
    (h : l1.Perm l2) (hnodup : (l1.map Prod.fst).Nodup) : sortByKey l1 = sortByKey l2 := by
  apply eq_of_perm_sorted_nodupKeys
  · exact (List.perm_insertionSort keyLe l1).trans (h.trans (List.perm_insertionSort keyLe l2).symm)
  · have hp := (List.perm_insertionSort keyLe l1).map Prod.fst
    exact (hp.nodup_iff).mpr hnodup
  · exact sortByKey_sorted l1
  · exact sortByKey_sorted l2

/-- C2: Content-hash determinism.  `canonical_json_hash` is a pure function of
the payload's structure: (i) any two payloads with the same key-normal form
(i.e. structurally equal up to object-key order, at any depth) hash alike, and
(ii) permuting the fields of an object with distinct keys does not change the
hash.  The digest depends only on the canonical serialization, never on
host-language hashing. -/
theorem canonical_json_hash_key_order :
    (∀ p q : Json, normalizeKeys p = normalizeKeys q →
      canonical_json_hash p = canonical_json_hash q) ∧
    (∀ kvs kvs' : List (String × Json), kvs.Perm kvs' → (kvs.map Prod.fst).Nodup →
      canonical_json_hash (Json.obj kvs) = canonical_json_hash (Json.obj kvs')) := by
  constructor
  · intro p q h
    unfold canonical_json_hash
    rw [← canonicalSerialize_normalizeKeys p, ← canonicalSerialize_normalizeKeys q, h]
  · intro kvs kvs' hperm hnodup
    unfold canonical_json_hash
    have hser : canonicalSerialize (Json.obj kvs) = canonicalSerialize (Json.obj kvs') := by
      simp only [canonicalSerialize, canonicalSerializeItems_eq_map]
      have hp2 : (kvs.map (fun p => (p.1, canonicalSerialize p.2))).Perm
          (kvs'.map (fun p => (p.1, canonicalSerialize p.2))) :=
        hperm.map _
      have hn2 : ((kvs.map (fun p => (p.1, canonicalSerialize p.2))).map Prod.fst).Nodup := by
        rw [List.map_map]
        have hsame : kvs.map (Prod.fst ∘ fun p => (p.1, canonicalSerialize p.2))
            = kvs.map Prod.fst :=
          List.map_congr_left (fun p _ => rfl)
        rw [hsame]
        exact hnodup
      rw [sortByKey_perm_of_perm _ _ hp2 hn2]
    rw [hser]

theorem canonical_json_hash_key_order_witness :
    normalizeKeys (Json.obj [("b", Json.num 2),
        ("a", Json.obj [("y", Json.num 1), ("x", Json.null)])])
      = normalizeKeys (Json.obj [("a", Json.obj [("x", Json.null), ("y", Json.num 1)]),
        ("b", Json.num 2)]) ∧
    canonical_json_hash (Json.obj [("b", Json.num 2),
        ("a", Json.obj [("y", Json.num 1), ("x", Json.null)])])
      = canonical_json_hash (Json.obj [("a", Json.obj [("x", Json.null), ("y", Json.num 1)]),
        ("b", Json.num 2)]) :=
  ⟨rfl, canonical_json_hash_key_order.1 _ _ rfl⟩

/-! ## Raw-entity upsert (db/upsert.py) -/

/-- A `RawEntity` row.  Timestamps are abstract instants (`Nat`); the caller
passes the current instant `now` in place of `_utc_now()`. -/
structure RawEntity where
  id : Nat
  source_id : Nat
  entity_type : String
  source_key : String
  name : Option String
  srd : Option Bool
  url : Option String
  raw_json : Json
  raw_hash : String
  retrieved_at : Nat
  created_at : Nat
  updated_at : Nat

/-- The raw-entity table: rows plus the autoincrement counter. -/
structure RawStore where
  rows : List RawEntity
  nextId : Nat

/-- Scope predicate of the upsert `select` statement. -/
def rawScope (source_id : Nat) (entity_type source_key : String) (r : RawEntity) : Bool :=
  r.source_id == source_id && r.entity_type == entity_type && r.source_key == source_key

/-- `upsert_raw_entity` (db/upsert.py): insert or update a raw entity,
returning the new store plus `(entity, created, updated)`. -/
def upsert_raw_entity (st : RawStore) (source_id : Nat) (entity_type source_key : String)
    (payload : Json) (name : Option String) (srd : Option Bool) (url : Option String)
    (now : Nat) : RawStore × RawEntity × Bool × Bool :=
  let raw_hash := canonical_json_hash payload
  match st.rows.find? (rawScope source_id entity_type source_key) with
  | none =>
    let entity : RawEntity :=
      { id := st.nextId, source_id := source_id, entity_type := entity_type,
        source_key := source_key, name := name, srd := srd, url := url,
        raw_json := payload, raw_hash := raw_hash,
        retrieved_at := now, created_at := now, updated_at := now }
    ({ rows := st.rows ++ [entity], nextId := st.nextId + 1 }, entity, true, false)
  | some existing =>
    if existing.raw_hash == raw_hash then
      let entity := { existing with retrieved_at := now }
      ({ st with rows := st.rows.map (fun x => if x.id == existing.id then entity else x) },
       entity, false, false)
    else
      let entity : RawEntity :=
        { existing with
          raw_json := payload
          raw_hash := raw_hash
          name := name
          srd := srd
          url := url
          retrieved_at := now
          updated_at := now }
      ({ st with rows := st.rows.map (fun x => if x.id == existing.id then entity else x) },
       entity, false, true)

/-- The unchanged-branch mutation: only `retrieved_at` is touched. -/
def touchRow (r : RawEntity) (now : Nat) : RawEntity := { r with retrieved_at := now }

/-- The updated-branch mutation: payload, hash and scalar fields overwritten,
`updated_at` refreshed, `id`/`created_at` (and the scope columns) kept. -/
def overwriteRow (r : RawEntity) (payload : Json) (name : Option String)
    (srd : Option Bool) (url : Option String) (now : Nat) : RawEntity :=
  { r with
    raw_json := payload
    raw_hash := canonical_json_hash payload
    name := name
    srd := srd
    url := url
    retrieved_at := now
    updated_at := now }

/-- Replace the row with the same `id` (the in-place ORM mutation), leaving
every other row untouched and adding none. -/
def replaceById (rows : List RawEntity) (e : RawEntity) : List RawEntity :=
  rows.map (fun x => if x.id == e.id then e else x)

/-- C3: Content-addressed upsert contract.  For every scope and payload:
if no row matches the scope, the entity is inserted and reported created;
if a row matches with an equal content hash, only its `retrieved_at` changes
(payload, hash, name, srd, url, `created_at`, `updated_at` stay) and the call
reports unchanged; if a row matches with a different hash, payload, hash and
scalar fields are overwritten (with `updated_at := now`, `created_at` kept)
and the call reports updated.  In the two existing-row cases all other rows
are untouched and no row is added. -/
theorem upsert_raw_entity_contract
    (st : RawStore) (source_id : Nat) (entity_type source_key : String)
    (payload : Json) (name : Option String) (srd : Option Bool) (url : Option String)
    (now : Nat) :
    (st.rows.find? (rawScope source_id entity_type source_key) = none →
      (upsert_raw_entity st source_id entity_type source_key payload name srd url now).2.2.1
          = true ∧
      (upsert_raw_entity st source_id entity_type source_key payload name srd url now).2.2.2
          = false ∧
      (upsert_raw_entity st source_id entity_type source_key payload name srd url now).1.rows
          = st.rows ++
            [(upsert_raw_entity st source_id entity_type source_key payload name srd url now).2.1] ∧
      (upsert_raw_entity st source_id entity_type source_key payload name srd url now).2.1.raw_json
          = payload ∧
      (upsert_raw_entity st source_id entity_type source_key payload name srd url now).2.1.raw_hash
          = canonical_json_hash payload ∧
      (upsert_raw_entity st source_id entity_type source_key payload name srd url
          now).2.1.retrieved_at = now ∧
      (upsert_raw_entity st source_id entity_type source_key payload name srd url
          now).2.1.created_at = now) ∧
    (∀ r, st.rows.find? (rawScope source_id entity_type source_key) = some r →
      r.raw_hash = canonical_json_hash payload →
      (upsert_raw_entity st source_id entity_type source_key payload name srd url now)
        = ({ st with rows := replaceById st.rows (touchRow r now) },
           touchRow r now, false, false)) ∧
    (∀ r, st.rows.find? (rawScope source_id entity_type source_key) = some r →
      r.raw_hash ≠ canonical_json_hash payload →
      (upsert_raw_entity st source_id entity_type source_key payload name srd url now)
        = ({ st with rows := replaceById st.rows (overwriteRow r payload name srd url now) },
           overwriteRow r payload name srd url now, false, true)) := by
  refine ⟨?_, ?_, ?_⟩
  · intro h
    simp [upsert_raw_entity, h]
  · intro r h hh
    simp [upsert_raw_entity, h, hh, touchRow, replaceById]
  · intro r h hh
    simp [upsert_raw_entity, h, hh, overwriteRow, replaceById]

def c3row : RawEntity :=
  { id := 1, source_id := 1, entity_type := "spell", source_key := "acid-arrow",
    name := some "Acid Arrow", srd := none, url := none,
    raw_json := Json.obj [("level", Json.num 2)],
    raw_hash := canonical_json_hash (Json.obj [("level", Json.num 2)]),
    retrieved_at := 0, created_at := 0, updated_at := 0 }

set_option maxRecDepth 40000 in
theorem upsert_raw_entity_contract_witness :
    ([c3row].find? (rawScope 1 "spell" "acid-arrow") = some c3row ∧
     c3row.raw_hash = canonical_json_hash (Json.obj [("level", Json.num 2)]) ∧
     (upsert_raw_entity ⟨[c3row], 2⟩ 1 "spell" "acid-arrow"
        (Json.obj [("level", Json.num 2)]) (some "Acid Arrow") none none 7)
       = (⟨[touchRow c3row 7], 2⟩, touchRow c3row 7, false, false)) ∧
    (c3row.raw_hash ≠ canonical_json_hash (Json.obj [("level", Json.num 3)]) ∧
     (upsert_raw_entity ⟨[c3row], 2⟩ 1 "spell" "acid-arrow"
        (Json.obj [("level", Json.num 3)]) (some "Acid Arrow") none none 7).2.2.2 = true) ∧
    ((upsert_raw_entity ⟨[], 1⟩ 1 "spell" "acid-arrow"
        (Json.obj [("level", Json.num 2)]) (some "Acid Arrow") none none 7).2.2.1 = true) := by
  have hne : c3row.raw_hash ≠ canonical_json_hash (Json.obj [("level", Json.num 3)]) := by
    decide
  refine ⟨⟨rfl, rfl, ?_⟩, ⟨hne, ?_⟩, ?_⟩
  · have h := (upsert_raw_entity_contract ⟨[c3row], 2⟩ 1 "spell" "acid-arrow"
      (Json.obj [("level", Json.num 2)]) (some "Acid Arrow") none none 7).2.1 c3row rfl rfl
    simpa [replaceById] using h
  · exact ((upsert_raw_entity_contract ⟨[c3row], 2⟩ 1 "spell" "acid-arrow"
      (Json.obj [("level", Json.num 3)]) (some "Acid Arrow") none none 7).2.2 c3row rfl hne) ▸ rfl
  · exact ((upsert_raw_entity_contract ⟨[], 1⟩ 1 "spell" "acid-arrow"
      (Json.obj [("level", Json.num 2)]) (some "Acid Arrow") none none 7).1 rfl).1

/-! ## Choice extraction (ingest/load_choices.py) -/

/-- `key in node` (presence test on a dict, a stored `null` counts present). -/
def Json.hasKey : Json → String → Bool
  | .obj kvs, k => kvs.any (fun p => p.1 == k)
  | _, _ => false

/-- `node.get(key)` with Python's collapse of a stored `null` into `None`. -/
def pyGet (j : Json) (k : String) : Option Json :=
  match j.get k with
  | some .null => none
  | o => o

/-- Python truthiness of an optional string (`None` and `""` are falsy). -/
def strOptTruthy : Option String → Bool
  | some s => !strIsEmpty s
  | none => false

/-- `_is_choice_like`: at least one count key and one source key. -/
def _is_choice_like (node : Json) : Bool :=
  (node.hasKey "choose" || node.hasKey "choose_n" || node.hasKey "count") &&
  (node.hasKey "from" || node.hasKey "options" || node.hasKey "option_set")

mutual

/-- `_collect_choice_nodes`: visit every dict node (the node itself before its
values, values in field order), collecting the choice-like ones; lists are
visited element-wise. -/
def _collect_choice_nodes : Json → List Json
  | .obj kvs =>
    (if _is_choice_like (.obj kvs) then [Json.obj kvs] else []) ++ collectFromPairs kvs
  | .arr xs => collectFromList xs
  | _ => []

def collectFromList : List Json → List Json
  | [] => []
  | j :: t => _collect_choice_nodes j ++ collectFromList t

def collectFromPairs : List (String × Json) → List Json
  | [] => []
  | (_, v) :: t => _collect_choice_nodes v ++ collectFromPairs t

end

/-- `_extract_options`: unwrap the observed nesting dialects
(`from.options`, `from.from`, bare `from` list, `option_set.options`,
`options.options`) and return the option list, or `[]`. -/
def _extract_options (node : Json) : List Json :=
  let options_value := pyGet node "options"
  let from_value := pyGet node "from"
  let option_set_value := pyGet node "option_set"
  let options_value :=
    match from_value with
    | some (.obj fkvs) =>
      if (Json.obj fkvs).hasKey "options" then pyGet (.obj fkvs) "options"
      else if (Json.obj fkvs).hasKey "from" then pyGet (.obj fkvs) "from"
      else options_value
    | some (.arr fl) => if options_value.isNone then some (.arr fl) else options_value
    | _ => options_value
  let options_value :=
    match option_set_value with
    | some (.obj okvs) =>
      if (Json.obj okvs).hasKey "options" then pyGet (.obj okvs) "options" else options_value
    | _ => options_value
  let options_value :=
    match options_value with
    | some (.obj okvs) =>
      if (Json.obj okvs).hasKey "options" then pyGet (.obj okvs) "options"
      else some (.obj okvs)
    | _ => options_value
  match options_value with
  | some (.arr l) => l
  | _ => []

/-- `_normalize_option_type`. -/
def _normalize_option_type (value : String) : String :=
  if strIsEmpty value then "string"
  else
    let candidate := toLowerStr (trimStr value)
    if candidate == "feature" || candidate == "class_feature"
        || candidate == "subclass_feature" then "feature"
    else if candidate == "spell" || candidate == "spells" then "spell"
    else "string"

/-- `_extract_label`: name / string / label fields, then a nested item name. -/
def _extract_label (option : Json) : Option String :=
  match option.get "name" with
  | some (.str s) => some s
  | _ =>
    match option.get "string" with
    | some (.str s) => some s
    | _ =>
      match option.get "label" with
      | some (.str s) => some s
      | _ =>
        match pyGet option "item" with
        | some (.obj ikvs) =>
          (match (Json.obj ikvs).get "name" with
           | some (.str s) => some s
           | _ => none)
        | _ => none

/-- `_extract_source_key`: index / source_key fields, then a nested item index. -/
def _extract_source_key (option : Json) : Option String :=
  match option.get "index" with
  | some (.str s) => some s
  | _ =>
    match option.get "source_key" with
    | some (.str s) => some s
    | _ =>
      match pyGet option "item" with
      | some (.obj ikvs) =>
        (match (Json.obj ikvs).get "index" with
         | some (.str s) => some s
         | _ => none)
      | _ => none

/-- `_extract_reference_type`: a nested item type, or a spell API url. -/
def _extract_reference_type (option : Json) : Option String :=
  match pyGet option "item" with
  | some (.obj ikvs) =>
    (match (Json.obj ikvs).get "type" with
     | some (.str s) => some s
     | _ =>
       match (Json.obj ikvs).get "url" with
       | some (.str u) =>
         if strContains u "/api/spells/" then some "spell" else refTypeFromUrl option
       | _ => refTypeFromUrl option)
  | _ => refTypeFromUrl option
where
  refTypeFromUrl (option : Json) : Option String :=
    match option.get "url" with
    | some (.str u) => if strContains u "/api/spells/" then some "spell" else none
    | _ => none

/-- `_parse_option`: `(option_type, source_key, label)` for one raw option. -/
def _parse_option (option : Json) (default_type : String) : String × String × String :=
  match option with
  | .str s => (default_type, _slugify s, s)
  | .obj _ =>
    let ot0 := pyOrJson (option.get "option_type") (option.get "type")
    let otv : Json :=
      match ot0 with
      | some j => if j.truthy then j else Json.str default_type
      | none => Json.str default_type
    let ref_type := _extract_reference_type option
    let otv : Json :=
      match otv with
      | .str s =>
        if s == "reference" then
          (match ref_type with
           | some rt => if strIsEmpty rt then Json.str default_type else Json.str rt
           | none => Json.str default_type)
        else .str s
      | j => j
    let label0 := _extract_label option
    let skey0 := _extract_source_key option
    let label1 := if !strOptTruthy label0 && strOptTruthy skey0 then skey0 else label0
    let skey1 :=
      if !strOptTruthy skey0 && strOptTruthy label1 then some (_slugify (label1.getD ""))
      else skey0
    let label2 :=
      if !strOptTruthy label1 then
        some (match skey1 with
              | some k => if strIsEmpty k then "unknown" else k
              | none => "unknown")
      else label1
    let skey2 :=
      if !strOptTruthy skey1 then some (_slugify (label2.getD "")) else skey1
    (pyStr otv, skey2.getD "", label2.getD "")
  | j => (default_type, _slugify (pyStr j), pyStr j)

/-- Collect string entries of a list and join with spaces. -/
def joinStrEntries (xs : List Json) : String :=
  String.intercalate " " (xs.filterMap (fun j =>
    match j with
    | .str s => some s
    | _ => none))

def _choice_notes_aux (node : Json) : List String → Option String
  | [] => none
  | k :: rest =>
    match node.get k with
    | some (.str s) => some s
    | some (.arr xs) =>
      let text := joinStrEntries xs
      if strIsEmpty text then _choice_notes_aux node rest else some text
    | _ => _choice_notes_aux node rest

/-- `_choice_notes`: first of name / desc / notes. -/
def _choice_notes (node : Json) : Option String :=
  _choice_notes_aux node ["name", "desc", "notes"]

def _choice_label_aux (node : Json) : List String → Option String
  | [] => none
  | k :: rest =>
    match node.get k with
    | some (.str s) => some s
    | _ => _choice_label_aux node rest

/-- `_choice_label`: first string among name / label / title. -/
def _choice_label (node : Json) : Option String :=
  _choice_label_aux node ["name", "label", "title"]

/-- `str(x or "")`, lowercased by the callers. -/
def pyStrOrEmpty (o : Option Json) : String :=
  match o with
  | some j => if j.truthy then pyStr j else ""
  | none => ""

/-- `_owner_text`: join the truthy owner tokens, lowercased. -/
def _owner_text (owner_name owner_key : Option String) : String :=
  toLowerStr (String.intercalate " "
    (([owner_name.getD "", owner_key.getD ""]).filter (fun t => !strIsEmpty t)))

/-- `_infer_fighting_style`. -/
def _infer_fighting_style (node : Json) (options : List Json)
    (owner_name owner_key : Option String) : Bool :=
  let type_value := toLowerStr (pyStrOrEmpty (node.get "type"))
  let name_value := toLowerStr (pyStrOrEmpty (node.get "name"))
  if strContains type_value "fighting" && strContains type_value "style" then true
  else if strContains name_value "fighting" && strContains name_value "style" then true
  else if strContains (_owner_text owner_name owner_key) "fighting style"
      || strContains (_owner_text owner_name owner_key) "fighting-style" then true
  else options.any (fun option =>
    let lk : Option String × Option String :=
      match option with
      | .obj _ => (_extract_label option, _extract_source_key option)
      | j => (some (pyStr j), none)
    let option_text :=
      toLowerStr (String.intercalate " " [lk.1.getD "", lk.2.getD ""])
    strContains option_text "fighting style" || strContains option_text "fighting-style")

/-- `_choice_text`: the node's own text fields, joined and lowercased. -/
def _choice_text (node : Json) : String :=
  toLowerStr (String.intercalate " "
    ((["type", "name", "label", "title", "desc"]).flatMap (fun k =>
      match node.get k with
      | some (.str s) => [s]
      | some (.arr xs) => xs.filterMap (fun j =>
          match j with
          | .str s => some s
          | _ => none)
      | _ => [])))

/-- `_choice_keys_text`: the node's key names, joined and lowercased. -/
def _choice_keys_text (node : Json) : String :=
  match node with
  | .obj kvs => toLowerStr (String.intercalate " " (kvs.map (fun p => p.1)))
  | _ => ""

/-- `_options_have_spell_reference`. -/
def _options_have_spell_reference (options : List Json) : Bool :=
  options.any (fun option =>
    match option with
    | .obj _ =>
      (match pyOrJson (option.get "option_type") (option.get "type") with
       | some (.str s) => strContains (toLowerStr s) "spell"
       | _ => false)
      || (match _extract_reference_type option with
          | some rt => toLowerStr rt == "spell"
          | _ => false)
      || (match pyGet option "item" with
          | some (.obj ikvs) =>
            (match (Json.obj ikvs).get "url" with
             | some (.str u) => strContains u "/api/spells/"
             | _ => false)
          | _ => false)
    | .str s => strContains (toLowerStr s) "spell"
    | _ => false)

/-- `_infer_choice_type`: ordered heuristics — fighting style, invocation,
expertise, spell tokens, else generic. -/
def _infer_choice_type (node : Json) (options : List Json)
    (owner_name owner_key : Option String) : String :=
  if _infer_fighting_style node options owner_name owner_key then "fighting_style"
  else
    let choice_text := _choice_text node
    let key_text := _choice_keys_text node
    let owner_text := _owner_text owner_name owner_key
    if strContains choice_text "invocation" || strContains owner_text "invocation" then
      "invocation"
    else if strContains choice_text "expertise" || strContains owner_text "expertise" then
      "expertise"
    else if strContains choice_text "spell" || strContains choice_text "cantrip"
        || strContains key_text "spell" || strContains key_text "cantrip"
        || strContains owner_text "spell" || strContains owner_text "cantrip"
        || _options_have_spell_reference options then
      "spell"
    else "generic"

/-- `_build_choice_source_key`: the stable group key
`owner_type:owner_key:choice_type:level-or-na:slug(label)-or-choice`. -/
def _build_choice_source_key (owner_type owner_key choice_type : String)
    (level : Option Int) (label : Option String) : String :=
  let level_token := match level with | some v => toString v | none => "na"
  let label_token :=
    match label with
    | some l => if strIsEmpty l then "choice" else _slugify l
    | none => "choice"
  owner_type ++ ":" ++ owner_key ++ ":" ++ choice_type ++ ":" ++ level_token ++ ":" ++ label_token

/-- Normalized-entity projection used by the loaders' lookup maps
(`DndClass` / `Feature` / `Subclass` / `Spell` rows keyed by `source_key`;
`level` is `getattr(owner, "level", None)`, so `none` for classes). -/
structure Owner where
  id : Nat
  name : Option String
  source_key : String
  level : Option Int
deriving DecidableEq

structure ChoiceGroupRow where
  id : Nat
  source_id : Nat
  owner_type : String
  owner_id : Nat
  choice_type : String
  choose_n : Int
  level : Option Int
  label : Option String
  notes : Option String
  source_key : String
deriving DecidableEq

structure ChoiceOptionRow where
  choice_group_id : Nat
  option_type : String
  option_source_key : String
  label : String
  feature_id : Option Nat
deriving DecidableEq

/-- The in-memory `group_lookup` key. -/
abbrev GKey := Nat × String × Nat × String × Option Int × String

instance : DecidableEq GKey :=
  have h : DecidableEq (String × Nat × String × Option Int × String) := inferInstance
  fun a b => @instDecidableEqProd _ _ _ h a b

/-- The in-memory `option_keys` element. -/
abbrev OKey := Nat × String × String × String

def gkeyOf (g : ChoiceGroupRow) : GKey :=
  (g.source_id, g.owner_type, g.owner_id, g.choice_type, g.level, g.source_key)

def okeyOf (o : ChoiceOptionRow) : OKey :=
  (o.choice_group_id, o.option_type, o.option_source_key, o.label)

/-- The choice tables (`choice_groups`, `choice_options`) plus the
autoincrement counter assigned at `session.flush()`. -/
structure ChoiceState where
  groups : List ChoiceGroupRow
  options : List ChoiceOptionRow
  nextGroupId : Nat
deriving DecidableEq

/-- Read-only context of one `load_choices` pass: the source id, the
`classes_by_key` / `features_by_key` dictionaries (later bindings override
earlier ones), and the raw-entity table. -/
structure ChoicesCtx where
  source_id : Nat
  classes : List (String × Owner)
  features : List (String × Owner)
  raws : List RawEntity

/-- The summary dictionary returned by `load_choices`. -/
structure ChoicesSummary where
  choice_groups_created : Nat
  choice_options_created : Nat
  unresolved_feature_refs : Nat
deriving DecidableEq

/-- Loop state of one `load_choices` pass. -/
structure ChoicesAcc where
  lookup : List (GKey × ChoiceGroupRow)
  okeys : List OKey
  groups : List ChoiceGroupRow
  options : List ChoiceOptionRow
  nextId : Nat
  gCreated : Nat
  oCreated : Nat
  missing : Nat
deriving DecidableEq

/-- Owner resolution: `classes_by_key` for class documents, `features_by_key`
otherwise. -/
def ownerFor (ctx : ChoicesCtx) (r : RawEntity) : Option Owner :=
  if r.entity_type == "class" then dlookup ctx.classes r.source_key
  else dlookup ctx.features r.source_key

/-- `payload = raw_entity.raw_json or {}`. -/
def payloadOf (r : RawEntity) : Json :=
  if r.raw_json.truthy then r.raw_json else Json.obj []

/-- `choose_n`: the falsy-chained coercion of choose / choose_n / count. -/
def chooseNOf (node : Json) : Option Int :=
  pyOrInt (pyOrInt (_coerce_int (pyGet node "choose")) (_coerce_int (pyGet node "choose_n")))
    (_coerce_int (pyGet node "count"))

/-- `level`: node level, else payload level, else the owner's level column. -/
def levelOf (node payload : Json) (owner : Owner) : Option Int :=
  match pyOrInt (_coerce_int (pyGet node "level")) (_coerce_int (pyGet payload "level")) with
  | none => owner.level
  | some v => some v

/-- The per-type label defaults applied when the extracted label is falsy. -/
def labelFor (ctype : String) (label0 : Option String) : Option String :=
  if ctype == "fighting_style" && !strOptTruthy label0 then some "Fighting Style"
  else if ctype == "expertise" && !strOptTruthy label0 then some "Expertise"
  else if ctype == "invocation" && !strOptTruthy label0 then some "Invocations"
  else if ctype == "spell" && !strOptTruthy label0 then some "Spell Choice"
  else label0

/-- The option type implied by the owning choice type. -/
def defaultTypeFor (ctype : String) : String :=
  if ctype == "fighting_style" || ctype == "invocation" then "feature"
  else if ctype == "spell" then "spell"
  else "string"

/-- The group-independent part of an option's dedup key:
`(normalized type, option_source_key, label)`. -/
def optionIdentOf (ctype : String) (option : Json) : String × String × String :=
  let parsed := _parse_option option (defaultTypeFor ctype)
  (_normalize_option_type parsed.1, parsed.2.1, parsed.2.2)

/-- The dedup key `(group id, option_type, option_source_key, label)` the
option loop computes for one raw option. -/
def optionKeyFor (g : ChoiceGroupRow) (ctype : String) (option : Json) : OKey :=
  (g.id, optionIdentOf ctype option)

/-- Feature-reference resolution of one option: the resolved feature id and
the missing-reference increment. -/
def optionFidMiss (features : List (String × Owner)) (ctype : String) (option : Json) :
    Option Nat × Nat :=
  if (optionIdentOf ctype option).1 == "feature" then
    match dlookup features (optionIdentOf ctype option).2.1 with
    | some f => (some f.id, 0)
    | none => (none, 1)
  else (none, 0)

/-- The `ChoiceOption` row inserted for one new option. -/
def optionRowOf (features : List (String × Owner)) (gid : Nat) (ctype : String)
    (option : Json) : ChoiceOptionRow :=
  ⟨gid, (optionIdentOf ctype option).1, (optionIdentOf ctype option).2.1,
   (optionIdentOf ctype option).2.2, (optionFidMiss features ctype option).1⟩

/-- One iteration of the option loop: parse, normalize, dedupe on
`(group id, type, source key, label)`, resolve feature references. -/
def processOption (features : List (String × Owner)) (g : ChoiceGroupRow) (ctype : String)
    (acc : ChoicesAcc) (option : Json) : ChoicesAcc :=
  let okey : OKey := optionKeyFor g ctype option
  if okey ∈ acc.okeys then acc
  else
    { acc with
      okeys := acc.okeys ++ [okey]
      options := acc.options ++ [optionRowOf features g.id ctype option]
      oCreated := acc.oCreated + 1
      missing := acc.missing + (optionFidMiss features ctype option).2 }

/-- The inferred choice type of one node under its owner. -/
def choiceCtypeOf (node : Json) (owner : Owner) : String :=
  _infer_choice_type node (_extract_options node) owner.name (some owner.source_key)

/-- The recomputed stable source key of one choice node. -/
def choiceSkeyOf (owner_type : String) (owner : Owner) (payload node : Json) : String :=
  _build_choice_source_key owner_type owner.source_key (choiceCtypeOf node owner)
    (levelOf node payload owner)
    (labelFor (choiceCtypeOf node owner) (_choice_label node))

/-- The in-memory lookup key of one choice node. -/
def choiceGKeyOf (sid : Nat) (owner_type : String) (owner : Owner) (payload node : Json) :
    GKey :=
  (sid, owner_type, owner.id, choiceCtypeOf node owner, levelOf node payload owner,
   choiceSkeyOf owner_type owner payload node)

/-- The in-memory group row created for a node whose key is not yet present. -/
def newGroupOf (sid : Nat) (owner_type : String) (owner : Owner) (payload node : Json)
    (cn : Int) (nid : Nat) : ChoiceGroupRow :=
  ⟨nid, sid, owner_type, owner.id, choiceCtypeOf node owner, cn,
   levelOf node payload owner, labelFor (choiceCtypeOf node owner) (_choice_label node),
   _choice_notes node, choiceSkeyOf owner_type owner payload node⟩

/-- One iteration of the choice loop: compute the stable key, find or create
the group, then fold the options. -/
def processChoice (ctx : ChoicesCtx) (owner_type : String) (owner : Owner) (payload : Json)
    (acc : ChoicesAcc) (node : Json) : ChoicesAcc :=
  match chooseNOf node with
  | none => acc
  | some cn =>
    let ctype := choiceCtypeOf node owner
    let gkey := choiceGKeyOf ctx.source_id owner_type owner payload node
    match dlookup acc.lookup gkey with
    | some g => (_extract_options node).foldl (processOption ctx.features g ctype) acc
    | none =>
      let g := newGroupOf ctx.source_id owner_type owner payload node cn acc.nextId
      let acc' := { acc with
        groups := acc.groups ++ [g]
        lookup := acc.lookup ++ [(gkey, g)]
        nextId := acc.nextId + 1
        gCreated := acc.gCreated + 1 }
      (_extract_options node).foldl (processOption ctx.features g ctype) acc'

/-- One iteration of the raw-entity loop. -/
def processRaw (ctx : ChoicesCtx) (acc : ChoicesAcc) (r : RawEntity) : ChoicesAcc :=
  match ownerFor ctx r with
  | none => acc
  | some owner =>
    (_collect_choice_nodes (payloadOf r)).foldl
      (processChoice ctx r.entity_type owner (payloadOf r)) acc

/-- The raw entities a `load_choices` pass reads: this source, class and
feature documents. -/
def choicesRawsOf (ctx : ChoicesCtx) : List RawEntity :=
  ctx.raws.filter (fun r => r.source_id == ctx.source_id &&
    (r.entity_type == "class" || r.entity_type == "feature"))

/-- The `group_lookup` dictionary seeded from existing groups of this source. -/
def lookupOfGroups (source_id : Nat) (gs : List ChoiceGroupRow) :
    List (GKey × ChoiceGroupRow) :=
  (gs.filter (fun g => g.source_id == source_id)).map (fun g => (gkeyOf g, g))

/-- The `option_keys` set seeded from existing options joined to this
source's groups. -/
def okeysOfState (source_id : Nat) (options : List ChoiceOptionRow)
    (gs : List ChoiceGroupRow) : List OKey :=
  (options.filter (fun o =>
    gs.any (fun g => g.id == o.choice_group_id && g.source_id == source_id))).map okeyOf

/-- The loop state a `load_choices` pass starts from: the seeded `group_lookup`
and `option_keys`, the current tables, and zeroed counters. -/
def seedAcc (ctx : ChoicesCtx) (st : ChoiceState) : ChoicesAcc :=
  { lookup := lookupOfGroups ctx.source_id st.groups
    okeys := okeysOfState ctx.source_id st.options st.groups
    groups := st.groups
    options := st.options
    nextId := st.nextGroupId
    gCreated := 0
    oCreated := 0
    missing := 0 }

/-- `load_choices` (ingest/load_choices.py) as a pure state transformer:
returns the updated choice tables and the summary dictionary. -/
def load_choices (ctx : ChoicesCtx) (st : ChoiceState) : ChoiceState × ChoicesSummary :=
  let accF := (choicesRawsOf ctx).foldl (processRaw ctx) (seedAcc ctx st)
  (⟨accF.groups, accF.options, accF.nextId⟩, ⟨accF.gCreated, accF.oCreated, accF.missing⟩)

theorem strIsEmpty_false {s : String} (h : s ≠ "") : strIsEmpty s = false := by
  cases s with
  | mk l =>
    cases l with
    | nil => exact absurd rfl h
    | cons c cs => rfl

theorem if_data_empty_string (t : String) : (if t.data = [] then "" else t) = t := by
  cases t with
  | mk l =>
    cases l with
    | nil => simp
    | cons c cs => simp

theorem pyStrOrEmpty_str (t : String) : pyStrOrEmpty (some (Json.str t)) = t := by
  cases t with
  | mk l =>
    cases l with
    | nil => simp [pyStrOrEmpty, Json.truthy, strIsEmpty, pyStr]
    | cons c cs => simp [pyStrOrEmpty, Json.truthy, strIsEmpty, pyStr]

/-! ## C5: choice-type inference priority -/

/-- A choice node whose own text matches both the expertise and the invocation
heuristics. -/
def c5node : Json := Json.obj [("choose", Json.num 1),
  ("from", Json.arr [Json.str "Alpha"]), ("name", Json.str "Expertise Invocation")]

/-- C5 counterexample: the claim predicts that a node matching both the
expertise and invocation heuristics is classified `expertise` (expertise
checked first); on this concrete node the code returns `invocation` — the
source checks the invocation token before the expertise token. -/
theorem infer_choice_type_both_match_counterexample :
    strContains (_choice_text c5node) "expertise" = true ∧
    strContains (_choice_text c5node) "invocation" = true ∧
    _infer_choice_type c5node (_extract_options c5node) none (some "rogue") = "invocation" ∧
    _infer_choice_type c5node (_extract_options c5node) none (some "rogue") ≠ "expertise" := by
  refine ⟨by decide, by decide, by decide, by decide⟩

/-- C5 (amended): the ordered heuristics run fighting-style first, then
invocation, then expertise, then spell tokens, else generic; hence any
non-fighting-style node whose text matches the invocation heuristic is
classified `invocation`, even when it also matches the expertise heuristic. -/
theorem infer_choice_type_invocation_priority
    (node : Json) (options : List Json) (owner_name owner_key : Option String)
    (hfs : _infer_fighting_style node options owner_name owner_key = false)
    (hinv : strContains (_choice_text node) "invocation" = true ∨
      strContains (_owner_text owner_name owner_key) "invocation" = true) :
    _infer_choice_type node options owner_name owner_key = "invocation" := by
  rcases hinv with h | h <;> simp [_infer_choice_type, hfs, h]

theorem infer_choice_type_invocation_priority_witness :
    _infer_fighting_style c5node (_extract_options c5node) none (some "rogue") = false ∧
    strContains (_choice_text c5node) "invocation" = true ∧
    _infer_choice_type c5node (_extract_options c5node) none (some "rogue") = "invocation" :=
  ⟨by decide, by decide,
   infer_choice_type_invocation_priority c5node (_extract_options c5node) none (some "rogue")
     (by decide) (Or.inl (by decide))⟩

/-! ## Prerequisite parsing (ingest/load_prereqs.py) -/

/-- `_extract_key`: a dict's string index, a slug of its name, or a slug of a
bare string. -/
def _extract_key : Option Json → Option String
  | some (.obj kvs) =>
    (match (Json.obj kvs).get "index" with
     | some (.str s) => some s
     | _ =>
       match (Json.obj kvs).get "name" with
       | some (.str s) => some (_slugify s)
       | _ => none)
  | some (.str s) => some (_slugify s)
  | _ => none

def _extract_prereq_nodes_aux (node : Json) : List String → List Json
  | [] => []
  | k :: rest =>
    match pyGet node k with
    | some (.arr xs) => xs.filter (fun e =>
        match e with
        | .obj _ => true
        | _ => false)
    | some (.obj kvs) => [Json.obj kvs]
    | _ => _extract_prereq_nodes_aux node rest

/-- `_extract_prereq_nodes`: the first list- or dict-valued key among
prerequisites / prerequisite / requirements / requirement (a list stops the
search even when it contributes no dict entries). -/
def _extract_prereq_nodes (node : Json) : List Json :=
  _extract_prereq_nodes_aux node ["prerequisites", "prerequisite", "requirements", "requirement"]

/-- `_entry_notes`: first string among name / desc / note. -/
def _entry_notes (entry : Json) : Option String :=
  _choice_label_aux entry ["name", "desc", "note"]

/-- One normalized prerequisite tuple
`(prereq_type, key, operator, value, notes)`. -/
abbrev PrereqTuple := String × String × String × String × Option String

/-- `_parse_prereq_entry`: one prerequisite node may yield several normalized
rows (level, class, subclass, ability, feature — in this order). -/
def _parse_prereq_entry (entry : Json) : List PrereqTuple :=
  let entry_type := toLowerStr (pyStrOrEmpty (entry.get "type"))
  let operator :=
    let o := trimStr (pyStrOrEmpty (entry.get "operator"))
    if strIsEmpty o then none else some o
  let notes := _entry_notes entry
  let level_value :=
    match _coerce_int (pyGet entry "level") with
    | none => _coerce_int (pyGet entry "minimum_level")
    | some v => some v
  let has_level := level_value.isSome
  let class_key := _extract_key (pyGet entry "class")
  let lvlRows : List PrereqTuple :=
    match level_value with
    | some lv =>
      [("level", if strOptTruthy class_key then class_key.getD "" else "any",
        operator.getD ">=", toString lv, notes)]
    | none => []
  let clsRows : List PrereqTuple :=
    if strOptTruthy class_key &&
        (entry_type == "class" ||
          (Json.hasKey entry "class" && !has_level && entry_type != "level")) then
      [("class", class_key.getD "", operator.getD "==", "true", notes)]
    else []
  let subclass_key := _extract_key (pyGet entry "subclass")
  let subRows : List PrereqTuple :=
    if strOptTruthy subclass_key &&
        (entry_type == "subclass" || Json.hasKey entry "subclass") then
      [("subclass", subclass_key.getD "", operator.getD "==", "true", notes)]
    else []
  let ability_value := pyOrJson (entry.get "ability_score") (entry.get "ability")
  let ability_key :=
    let a1 := _extract_key ability_value
    if strOptTruthy a1 then a1 else _extract_key (pyGet entry "ability_score")
  let min_score :=
    match _coerce_int (pyGet entry "minimum_score") with
    | some v => some v
    | none =>
      match _coerce_int (pyGet entry "score") with
      | some v => some v
      | none => _coerce_int (pyGet entry "value")
  let abRows : List PrereqTuple :=
    match min_score with
    | some ms =>
      if strOptTruthy ability_key then
        [("ability", ability_key.getD "", operator.getD ">=", toString ms, notes)]
      else []
    | none => []
  let feature_key :=
    let f1 := _extract_key (pyGet entry "feature")
    if strOptTruthy f1 then f1 else _extract_key (pyGet entry "prerequisite_feature")
  let ftRows : List PrereqTuple :=
    if strOptTruthy feature_key &&
        (entry_type == "feature" || Json.hasKey entry "feature") then
      [("feature", feature_key.getD "", operator.getD "==", "true", notes)]
    else []
  lvlRows ++ clsRows ++ subRows ++ abRows ++ ftRows

/-- `_iter_prereqs`. -/
def _iter_prereqs (nodes : List Json) : List PrereqTuple :=
  nodes.flatMap _parse_prereq_entry

/-! ## C6: prerequisite multiplicity -/

/-- A prerequisite node declaring both a minimum level and a class, in the
shape the repository's own fixtures use
(`{"type": "level", "level": 2, "class": {"index": "fighter"}}`). -/
def c6entry : Json := Json.obj [("type", Json.str "level"), ("level", Json.num 2),
  ("class", Json.obj [("index", Json.str "fighter")])]

/-- C6 counterexample: the claim predicts exactly two rows (a `level` row and
a `class` row) for every node specifying both a class and a minimum level;
this node yields exactly ONE row — the class restriction is folded into the
`level` row's key and no separate `class` row is produced (the class branch
requires `type == "class"`, or a class with no level). -/
theorem parse_prereq_level_and_class_counterexample :
    _parse_prereq_entry c6entry = [("level", "fighter", ">=", "2", none)] := by
  decide

/-- The node family `{"type": t, "level": n, "class": cv}`. -/
def prereqEntryOf (t : String) (n : Int) (cv : Json) : Json :=
  Json.obj [("type", Json.str t), ("level", Json.num n), ("class", cv)]

/-- C6 (amended): a prerequisite node specifying both a class and a minimum
level yields two rows (`level` + `class`) exactly when its declared type is
`class`; otherwise it yields the single `level` row keyed by the class's
source key with operator `>=`. -/
theorem parse_prereq_level_and_class
    (t : String) (n : Int) (cv : Json) (k : String)
    (hk : _extract_key (pyGet (prereqEntryOf t n cv) "class") = some k)
    (hkt : k ≠ "") :
    _parse_prereq_entry (prereqEntryOf t n cv) =
      if toLowerStr t == "class" then
        [("level", k, ">=", toString n, none), ("class", k, "==", "true", none)]
      else
        [("level", k, ">=", toString n, none)] := by
  have hne := strIsEmpty_false hkt
  simp only [_parse_prereq_entry, prereqEntryOf] at *
  simp only [Json.get, pyGet, Json.hasKey, pyStrOrEmpty_str, _entry_notes,
    _choice_label_aux, _coerce_int, List.find?, List.any] at *
  by_cases ht : toLowerStr t == "class" <;>
    simp_all [strOptTruthy, hk, trimStr, strIsEmpty, pyStrOrEmpty, pyStrOrEmpty_str,
      Json.truthy, pyStr, List.dropWhile, _extract_key, if_data_empty_string]

theorem parse_prereq_level_and_class_witness :
    _extract_key (pyGet (prereqEntryOf "class" 2 (Json.obj [("index", Json.str "fighter")]))
        "class") = some "fighter" ∧
    _parse_prereq_entry (prereqEntryOf "class" 2 (Json.obj [("index", Json.str "fighter")]))
      = [("level", "fighter", ">=", "2", none), ("class", "fighter", "==", "true", none)] := by
  constructor
  · rfl
  · have h := parse_prereq_level_and_class "class" 2 (Json.obj [("index", Json.str "fighter")])
      "fighter" rfl (by decide)
    simpa using h

/-! ## The dedup-insert loop shared by the grant / prerequisite / relationship
loaders: seed a key set from existing rows, then for each candidate skip when
its key is present, else record key and row and bump the created counter. -/

structure DFold (κ ρ : Type) where
  keys : List κ
  rows : List ρ
  created : Nat
  missing : Nat

def dedupStep {γ κ ρ : Type} [DecidableEq κ] (keyOf : γ → κ) (rowOf : γ → ρ)
    (missOf : γ → Nat) (acc : DFold κ ρ) (c : γ) : DFold κ ρ :=
  if keyOf c ∈ acc.keys then acc
  else
    { keys := acc.keys ++ [keyOf c]
      rows := acc.rows ++ [rowOf c]
      created := acc.created + 1
      missing := acc.missing + missOf c }

def dedupFold {γ κ ρ : Type} [DecidableEq κ] (keyOf : γ → κ) (rowOf : γ → ρ)
    (missOf : γ → Nat) (acc : DFold κ ρ) (cands : List γ) : DFold κ ρ :=
  cands.foldl (dedupStep keyOf rowOf missOf) acc

theorem dedupStep_keys_mono {γ κ ρ : Type} [DecidableEq κ] (keyOf : γ → κ) (rowOf : γ → ρ)
    (missOf : γ → Nat) (acc : DFold κ ρ) (c : γ) {k : κ} (h : k ∈ acc.keys) :
    k ∈ (dedupStep keyOf rowOf missOf acc c).keys := by
  unfold dedupStep
  split
  · exact h
  · simp only [List.mem_append]
    exact Or.inl h

theorem dedupFold_keys_mono {γ κ ρ : Type} [DecidableEq κ] (keyOf : γ → κ) (rowOf : γ → ρ)
    (missOf : γ → Nat) (cands : List γ) (acc : DFold κ ρ) {k : κ} (h : k ∈ acc.keys) :
    k ∈ (dedupFold keyOf rowOf missOf acc cands).keys := by
  induction cands generalizing acc with
  | nil => exact h
  | cons c rest ih =>
    exact ih _ (dedupStep_keys_mono keyOf rowOf missOf acc c h)

/-- Every candidate's key is present in the final key set. -/
theorem dedupFold_captures {γ κ ρ : Type} [DecidableEq κ] (keyOf : γ → κ) (rowOf : γ → ρ)
    (missOf : γ → Nat) (cands : List γ) (acc : DFold κ ρ) :
    ∀ c ∈ cands, keyOf c ∈ (dedupFold keyOf rowOf missOf acc cands).keys := by
  induction cands generalizing acc with
  | nil => intro c hc; cases hc
  | cons c0 rest ih =>
    intro c hc
    rcases List.mem_cons.mp hc with rfl | hc
    · have hstep : keyOf c ∈ (dedupStep keyOf rowOf missOf acc c).keys := by
        by_cases hm : keyOf c ∈ acc.keys
        · exact dedupStep_keys_mono keyOf rowOf missOf acc c hm
        · simp [dedupStep, hm]
      have hrw : dedupFold keyOf rowOf missOf acc (c :: rest)
          = dedupFold keyOf rowOf missOf (dedupStep keyOf rowOf missOf acc c) rest := rfl
      rw [hrw]
      exact dedupFold_keys_mono keyOf rowOf missOf rest _ hstep
    · exact ih _ c hc

/-- When every candidate's key is already present, the fold is the identity. -/
theorem dedupFold_noop {γ κ ρ : Type} [DecidableEq κ] (keyOf : γ → κ) (rowOf : γ → ρ)
    (missOf : γ → Nat) (cands : List γ) (acc : DFold κ ρ)
    (h : ∀ c ∈ cands, keyOf c ∈ acc.keys) :
    dedupFold keyOf rowOf missOf acc cands = acc := by
  induction cands with
  | nil => rfl
  | cons c rest ih =>
    have hstep : dedupStep keyOf rowOf missOf acc c = acc := by
      unfold dedupStep
      rw [if_pos (h c (List.mem_cons_self c rest))]
    show dedupFold keyOf rowOf missOf (dedupStep keyOf rowOf missOf acc c) rest = acc
    rw [hstep]
    exact ih (fun c' hc' => h c' (List.mem_cons_of_mem c hc'))

/-- The key set stays the key projection of the rows passing `pred`, when
every inserted row carries its candidate's key and passes `pred`. -/
theorem dedupFold_keys_eq_proj {γ κ ρ : Type} [DecidableEq κ] (keyOf : γ → κ) (rowOf : γ → ρ)
    (missOf : γ → Nat) (keyProj : ρ → κ) (pred : ρ → Bool)
    (hkr : ∀ c, keyProj (rowOf c) = keyOf c) (hpr : ∀ c, pred (rowOf c) = true)
    (cands : List γ) (acc : DFold κ ρ)
    (hacc : acc.keys = (acc.rows.filter pred).map keyProj) :
    (dedupFold keyOf rowOf missOf acc cands).keys =
      (((dedupFold keyOf rowOf missOf acc cands).rows.filter pred).map keyProj) := by
  induction cands generalizing acc with
  | nil => exact hacc
  | cons c rest ih =>
    apply ih
    unfold dedupStep
    split
    · exact hacc
    · simp [List.filter_append, hacc, hpr c, hkr c]

/-- The fold only appends rows, and every appended row's key was absent from
the initial key set. -/
theorem dedupFold_rows_decomp {γ κ ρ : Type} [DecidableEq κ] (keyOf : γ → κ) (rowOf : γ → ρ)
    (missOf : γ → Nat) (cands : List γ) (acc : DFold κ ρ) :
    ∃ new, (dedupFold keyOf rowOf missOf acc cands).rows = acc.rows ++ new ∧
      ∀ r ∈ new, ∃ c ∈ cands, r = rowOf c ∧ keyOf c ∉ acc.keys := by
  induction cands generalizing acc with
  | nil => exact ⟨[], by simp [dedupFold], by intro r hr; cases hr⟩
  | cons c rest ih =>
    have hshow : dedupFold keyOf rowOf missOf acc (c :: rest)
        = dedupFold keyOf rowOf missOf (dedupStep keyOf rowOf missOf acc c) rest := rfl
    rw [hshow]
    by_cases hmem : keyOf c ∈ acc.keys
    · have hstep : dedupStep keyOf rowOf missOf acc c = acc := by
        unfold dedupStep
        rw [if_pos hmem]
      rw [hstep]
      obtain ⟨new, hrows, hprop⟩ := ih acc
      exact ⟨new, hrows, fun r hr => by
        obtain ⟨c', hc', he, hk⟩ := hprop r hr
        exact ⟨c', List.mem_cons_of_mem c hc', he, hk⟩⟩
    · have hstep : dedupStep keyOf rowOf missOf acc c =
          { keys := acc.keys ++ [keyOf c], rows := acc.rows ++ [rowOf c],
            created := acc.created + 1, missing := acc.missing + missOf c } := by
        unfold dedupStep
        rw [if_neg hmem]
      rw [hstep]
      obtain ⟨new, hrows, hprop⟩ :=
        ih { keys := acc.keys ++ [keyOf c], rows := acc.rows ++ [rowOf c],
             created := acc.created + 1, missing := acc.missing + missOf c }
      refine ⟨rowOf c :: new, ?_, ?_⟩
      · rw [hrows]
        simp
      · intro r hr
        rcases List.mem_cons.mp hr with rfl | hr
        · exact ⟨c, List.mem_cons_self c rest, rfl, hmem⟩
        · obtain ⟨c', hc', he, hk⟩ := hprop r hr
          refine ⟨c', List.mem_cons_of_mem c hc', he, fun hin => hk ?_⟩
          simp only [List.mem_append]
          exact Or.inl hin

/-- Running a dedup fold a second time, with the key set reseeded from the
rows the first run produced, inserts nothing. -/
theorem dedupFold_idempotent {γ κ ρ : Type} [DecidableEq κ] (keyOf : γ → κ) (rowOf : γ → ρ)
    (missOf : γ → Nat) (keyProj : ρ → κ) (pred : ρ → Bool)
    (hkr : ∀ c, keyProj (rowOf c) = keyOf c) (hpr : ∀ c, pred (rowOf c) = true)
    (cands : List γ) (rows0 : List ρ) :
    dedupFold keyOf rowOf missOf
      ⟨((dedupFold keyOf rowOf missOf
          ⟨(rows0.filter pred).map keyProj, rows0, 0, 0⟩ cands).rows.filter pred).map keyProj,
        (dedupFold keyOf rowOf missOf
          ⟨(rows0.filter pred).map keyProj, rows0, 0, 0⟩ cands).rows, 0, 0⟩ cands =
    ⟨((dedupFold keyOf rowOf missOf
        ⟨(rows0.filter pred).map keyProj, rows0, 0, 0⟩ cands).rows.filter pred).map keyProj,
      (dedupFold keyOf rowOf missOf
        ⟨(rows0.filter pred).map keyProj, rows0, 0, 0⟩ cands).rows, 0, 0⟩ := by
  apply dedupFold_noop
  intro c hc
  have hkeys := dedupFold_keys_eq_proj keyOf rowOf missOf keyProj pred hkr hpr cands
    ⟨(rows0.filter pred).map keyProj, rows0, 0, 0⟩ rfl
  rw [← hkeys]
  exact dedupFold_captures keyOf rowOf missOf cands _ c hc

/-! ## Grant extraction (ingest/load_grants.py) -/

/-- `_extract_ref`: `(key, label)` of one grant item. -/
def _extract_ref (item : Json) : String × String :=
  let dictResult : Option (String × String) :=
    match item with
    | .obj _ =>
      (match item.get "name", pyOrJson (item.get "index") (item.get "source_key") with
       | some (.str l), some (.str k) => some (k, l)
       | some (.str l), _ => some (_slugify l, l)
       | _, some (.str k) => some (k, k)
       | _, _ => none)
    | _ => none
  match dictResult with
  | some r => r
  | none =>
    match item with
    | .str s => (_slugify s, s)
    | j => (_slugify (pyStr j), pyStr j)

/-- `_extract_list`: the first key holding a list. -/
def _extract_list (payload : Json) : List String → List Json
  | [] => []
  | k :: rest =>
    match pyGet payload k with
    | some (.arr xs) => xs
    | _ => _extract_list payload rest

/-- `_extract_nested_list`. -/
def _extract_nested_list (payload : Json) (parent child : String) : List Json :=
  match pyGet payload parent with
  | some (.obj pkvs) =>
    (match pyGet (.obj pkvs) child with
     | some (.arr xs) => xs
     | _ => [])
  | _ => []

/-- `_collect_proficiency_grants`: `(proficiency_type, key, label)` triples. -/
def _collect_proficiency_grants (payload : Json) : List (String × String × String) :=
  (["proficiencies", "starting_proficiencies", "armor_proficiencies",
    "weapon_proficiencies", "tool_proficiencies", "skill_proficiencies"]).flatMap
    (fun key => (_extract_list payload [key]).map (fun item =>
      (key, (_extract_ref item).1, (_extract_ref item).2)))

/-- `_collect_spell_grants`. -/
def _collect_spell_grants (payload : Json) : List (String × String) :=
  (_extract_list payload ["spells"]).map _extract_ref
    ++ (_extract_nested_list payload "spellcasting" "spells").map _extract_ref

/-- `_collect_feature_grants`. -/
def _collect_feature_grants (payload : Json) : List (String × String) :=
  (_extract_list payload ["features", "granted_features"]).map _extract_ref

structure GrantProficiencyRow where
  source_id : Nat
  owner_type : String
  owner_id : Nat
  proficiency_type : String
  proficiency_key : String
  label : String
deriving DecidableEq

structure GrantSpellRow where
  source_id : Nat
  owner_type : String
  owner_id : Nat
  spell_source_key : String
  label : String
  spell_id : Option Nat
deriving DecidableEq

structure GrantFeatureRow where
  source_id : Nat
  owner_type : String
  owner_id : Nat
  feature_source_key : String
  label : String
  feature_id : Option Nat
deriving DecidableEq

/-- The three grant tables. -/
structure GrantsState where
  profs : List GrantProficiencyRow
  spells : List GrantSpellRow
  feats : List GrantFeatureRow
deriving DecidableEq

/-- Read-only context of one `load_grants` pass. -/
structure GrantsCtx where
  source_id : Nat
  classes : List (String × Owner)
  subclasses : List (String × Owner)
  features : List (String × Owner)
  spells : List (String × Owner)
  raws : List RawEntity

structure GrantsSummary where
  grant_proficiencies_created : Nat
  grant_spells_created : Nat
  grant_features_created : Nat
  missing_refs : Nat
deriving DecidableEq

def grantsRawsOf (ctx : GrantsCtx) : List RawEntity :=
  ctx.raws.filter (fun r => r.source_id == ctx.source_id &&
    (r.entity_type == "class" || r.entity_type == "feature" || r.entity_type == "subclass"))

def grantsOwnerFor (ctx : GrantsCtx) (r : RawEntity) : Option Owner :=
  if r.entity_type == "class" then dlookup ctx.classes r.source_key
  else if r.entity_type == "subclass" then dlookup ctx.subclasses r.source_key
  else dlookup ctx.features r.source_key

structure ProfCand where
  owner_type : String
  owner_id : Nat
  proficiency_type : String
  proficiency_key : String
  label : String
deriving DecidableEq

structure RefCand where
  owner_type : String
  owner_id : Nat
  key : String
  label : String
deriving DecidableEq

/-- Proficiency-grant candidates, in document order. -/
def profCandsOf (ctx : GrantsCtx) : List ProfCand :=
  (grantsRawsOf ctx).flatMap (fun r =>
    match grantsOwnerFor ctx r with
    | none => []
    | some owner => (_collect_proficiency_grants (payloadOf r)).map (fun t =>
        ⟨r.entity_type, owner.id, t.1, t.2.1, t.2.2⟩))

/-- Spell-grant candidates, in document order. -/
def spellCandsOf (ctx : GrantsCtx) : List RefCand :=
  (grantsRawsOf ctx).flatMap (fun r =>
    match grantsOwnerFor ctx r with
    | none => []
    | some owner => (_collect_spell_grants (payloadOf r)).map (fun t =>
        ⟨r.entity_type, owner.id, t.1, t.2⟩))

/-- Feature-grant candidates, in document order. -/
def featCandsOf (ctx : GrantsCtx) : List RefCand :=
  (grantsRawsOf ctx).flatMap (fun r =>
    match grantsOwnerFor ctx r with
    | none => []
    | some owner => (_collect_feature_grants (payloadOf r)).map (fun t =>
        ⟨r.entity_type, owner.id, t.1, t.2⟩))

abbrev ProfKey := Nat × String × Nat × String × String × String

instance : DecidableEq ProfKey :=
  have h : DecidableEq (String × Nat × String × String × String) := inferInstance
  fun a b => @instDecidableEqProd _ _ _ h a b

abbrev RefKey := Nat × String × Nat × String × String

def profKeyOfCand (sid : Nat) (c : ProfCand) : ProfKey :=
  (sid, c.owner_type, c.owner_id, c.proficiency_type, c.proficiency_key, c.label)

def profRowOfCand (sid : Nat) (c : ProfCand) : GrantProficiencyRow :=
  ⟨sid, c.owner_type, c.owner_id, c.proficiency_type, c.proficiency_key, c.label⟩

def profKeyOfRow (r : GrantProficiencyRow) : ProfKey :=
  (r.source_id, r.owner_type, r.owner_id, r.proficiency_type, r.proficiency_key, r.label)

def spellKeyOfCand (sid : Nat) (c : RefCand) : RefKey :=
  (sid, c.owner_type, c.owner_id, c.key, c.label)

def spellRowOfCand (ctx : GrantsCtx) (c : RefCand) : GrantSpellRow :=
  ⟨ctx.source_id, c.owner_type, c.owner_id, c.key, c.label,
   (dlookup ctx.spells c.key).map (fun s => s.id)⟩

def spellKeyOfRow (r : GrantSpellRow) : RefKey :=
  (r.source_id, r.owner_type, r.owner_id, r.spell_source_key, r.label)

def spellMissOf (ctx : GrantsCtx) (c : RefCand) : Nat :=
  if (dlookup ctx.spells c.key).isSome then 0 else 1

def featRowOfCand (ctx : GrantsCtx) (c : RefCand) : GrantFeatureRow :=
  ⟨ctx.source_id, c.owner_type, c.owner_id, c.key, c.label,
   (dlookup ctx.features c.key).map (fun f => f.id)⟩

def featKeyOfRow (r : GrantFeatureRow) : RefKey :=
  (r.source_id, r.owner_type, r.owner_id, r.feature_source_key, r.label)

def featMissOf (ctx : GrantsCtx) (c : RefCand) : Nat :=
  if (dlookup ctx.features c.key).isSome then 0 else 1

/-- `load_grants` (ingest/load_grants.py) as a pure state transformer.  The
three grant families live in disjoint tables with independent key sets, so the
per-entity interleaving of the source loop is modelled as one dedup fold per
family over the same candidates in document order — the resulting tables,
created counters and missing-reference count are identical. -/
def load_grants (ctx : GrantsCtx) (st : GrantsState) : GrantsState × GrantsSummary :=
  let pf := dedupFold (profKeyOfCand ctx.source_id) (profRowOfCand ctx.source_id) (fun _ => 0)
    ⟨((st.profs.filter (fun r => r.source_id == ctx.source_id)).map profKeyOfRow),
      st.profs, 0, 0⟩ (profCandsOf ctx)
  let sf := dedupFold (spellKeyOfCand ctx.source_id) (spellRowOfCand ctx) (spellMissOf ctx)
    ⟨((st.spells.filter (fun r => r.source_id == ctx.source_id)).map spellKeyOfRow),
      st.spells, 0, 0⟩ (spellCandsOf ctx)
  let ff := dedupFold (spellKeyOfCand ctx.source_id) (featRowOfCand ctx) (featMissOf ctx)
    ⟨((st.feats.filter (fun r => r.source_id == ctx.source_id)).map featKeyOfRow),
      st.feats, 0, 0⟩ (featCandsOf ctx)
  (⟨pf.rows, sf.rows, ff.rows⟩,
   ⟨pf.created, sf.created, ff.created, sf.missing + ff.missing⟩)

/-! ## Relationship extraction (ingest/load_relationships.py) -/

structure SpellClassLinkRow where
  source_id : Nat
  spell_id : Nat
  class_id : Nat
deriving DecidableEq

structure ClassFeatureLinkRow where
  source_id : Nat
  class_id : Nat
  feature_id : Nat
  level : Option Int
deriving DecidableEq

structure SubclassFeatureLinkRow where
  source_id : Nat
  subclass_id : Nat
  feature_id : Nat
  level : Option Int
deriving DecidableEq

structure RelState where
  classFeatures : List ClassFeatureLinkRow
  subclassFeatures : List SubclassFeatureLinkRow
  spellClasses : List SpellClassLinkRow
deriving DecidableEq

structure RelCtx where
  source_id : Nat
  classes : List (String × Owner)
  subclasses : List (String × Owner)
  features : List (String × Owner)
  spells : List (String × Owner)
  raws : List RawEntity

structure RelSummary where
  class_features_created : Nat
  subclass_features_created : Nat
  spell_classes_created : Nat
  missing_refs_count : Nat
deriving DecidableEq

/-- `_level_key`: `-1` stands for a missing level in the dedup key. -/
def _level_key (level : Option Int) : Int := level.getD (-1)

/-- `_extract_class_indices`: the raw `index` values found under
`classes` / `class`. -/
def _extract_class_indices (payload : Json) : List Json :=
  let classes :=
    match pyGet payload "classes" with
    | none => pyGet payload "class"
    | o => o
  match classes with
  | some (.obj kvs) =>
    (match pyGet (.obj kvs) "index" with
     | some j => if j.truthy then [j] else []
     | none => [])
  | some (.arr entries) =>
    entries.flatMap (fun e =>
      match e with
      | .obj _ =>
        (match pyGet e "index" with
         | some j => if j.truthy then [j] else []
         | none => [])
      | _ => [])
  | _ => []

/-- The `class` part of `_extract_feature_refs`. -/
def featureClassIndex (payload : Json) : Option Json :=
  match pyGet payload "class" with
  | some (.obj kvs) => pyGet (.obj kvs) "index"
  | _ => none

/-- The `subclass` part of `_extract_feature_refs`. -/
def featureSubclassIndex (payload : Json) : Option Json :=
  match pyGet payload "subclass" with
  | some (.obj kvs) => pyGet (.obj kvs) "index"
  | _ => none

/-- The `level` part of `_extract_feature_refs` (`int(level)` under
`try/except`). -/
def featureLevel (payload : Json) : Option Int :=
  match pyGet payload "level" with
  | none => none
  | some j => _coerce_int (some j)

/-- A dictionary lookup whose key is an arbitrary Python value: only string
keys can match the string-keyed entity maps. -/
def dlookupJson (m : List (String × Owner)) (j : Json) : Option Owner :=
  match j with
  | .str s => dlookup m s
  | _ => none

def relSpellRawsOf (ctx : RelCtx) : List RawEntity :=
  ctx.raws.filter (fun r => r.source_id == ctx.source_id && r.entity_type == "spell")

def relFeatureRawsOf (ctx : RelCtx) : List RawEntity :=
  ctx.raws.filter (fun r => r.source_id == ctx.source_id && r.entity_type == "feature")

/-- Resolved spell–class pairs `(spell_id, class_id)`, in document order. -/
def spellClassCandsOf (ctx : RelCtx) : List (Nat × Nat) :=
  (relSpellRawsOf ctx).flatMap (fun r =>
    match dlookup ctx.spells r.source_key with
    | none => []
    | some spell => (_extract_class_indices (payloadOf r)).flatMap (fun ci =>
        match dlookupJson ctx.classes ci with
        | none => []
        | some c => [(spell.id, c.id)]))

/-- Unresolved references seen by the spell loop. -/
def spellClassMissingOf (ctx : RelCtx) : Nat :=
  (relSpellRawsOf ctx).foldl (fun acc r =>
    match dlookup ctx.spells r.source_key with
    | none => acc + 1
    | some _ => acc + ((_extract_class_indices (payloadOf r)).filter
        (fun ci => (dlookupJson ctx.classes ci).isNone)).length) 0

/-- Resolved class–feature triples `(class_id, feature_id, level)`. -/
def classFeatureCandsOf (ctx : RelCtx) : List (Nat × Nat × Option Int) :=
  (relFeatureRawsOf ctx).flatMap (fun r =>
    match dlookup ctx.features r.source_key with
    | none => []
    | some feature =>
      match featureClassIndex (payloadOf r) with
      | some ci =>
        if ci.truthy then
          (match dlookupJson ctx.classes ci with
           | some c => [(c.id, feature.id, featureLevel (payloadOf r))]
           | none => [])
        else []
      | none => [])

/-- Resolved subclass–feature triples `(subclass_id, feature_id, level)`. -/
def subclassFeatureCandsOf (ctx : RelCtx) : List (Nat × Nat × Option Int) :=
  (relFeatureRawsOf ctx).flatMap (fun r =>
    match dlookup ctx.features r.source_key with
    | none => []
    | some feature =>
      match featureSubclassIndex (payloadOf r) with
      | some si =>
        if si.truthy then
          (match dlookupJson ctx.subclasses si with
           | some sc => [(sc.id, feature.id, featureLevel (payloadOf r))]
           | none => [])
        else []
      | none => [])

/-- Unresolved references seen by the feature loop. -/
def relFeatureMissingOf (ctx : RelCtx) : Nat :=
  (relFeatureRawsOf ctx).foldl (fun acc r =>
    match dlookup ctx.features r.source_key with
    | none => acc + 1
    | some _ =>
      let p := payloadOf r
      let cMiss :=
        match featureClassIndex p with
        | some ci => if ci.truthy && (dlookupJson ctx.classes ci).isNone then 1 else 0
        | none => 0
      let sMiss :=
        match featureSubclassIndex p with
        | some si => if si.truthy && (dlookupJson ctx.subclasses si).isNone then 1 else 0
        | none => 0
      acc + cMiss + sMiss) 0

def spellClassKeyOfCand (sid : Nat) (c : Nat × Nat) : Nat × Nat × Nat := (sid, c.1, c.2)

def spellClassRowOfCand (sid : Nat) (c : Nat × Nat) : SpellClassLinkRow := ⟨sid, c.1, c.2⟩

def spellClassKeyOfRow (r : SpellClassLinkRow) : Nat × Nat × Nat :=
  (r.source_id, r.spell_id, r.class_id)

def classFeatureKeyOfCand (sid : Nat) (c : Nat × Nat × Option Int) : Nat × Nat × Nat × Int :=
  (sid, c.1, c.2.1, _level_key c.2.2)

def classFeatureRowOfCand (sid : Nat) (c : Nat × Nat × Option Int) : ClassFeatureLinkRow :=
  ⟨sid, c.1, c.2.1, c.2.2⟩

def classFeatureKeyOfRow (r : ClassFeatureLinkRow) : Nat × Nat × Nat × Int :=
  (r.source_id, r.class_id, r.feature_id, _level_key r.level)

def subclassFeatureRowOfCand (sid : Nat) (c : Nat × Nat × Option Int) : SubclassFeatureLinkRow :=
  ⟨sid, c.1, c.2.1, c.2.2⟩

def subclassFeatureKeyOfRow (r : SubclassFeatureLinkRow) : Nat × Nat × Nat × Int :=
  (r.source_id, r.subclass_id, r.feature_id, _level_key r.level)

/-- `load_relationships` (ingest/load_relationships.py) as a pure state
transformer.  The three link families live in disjoint tables with
independent key sets; unresolved references are counted at candidate
generation, exactly as the source does. -/
def load_relationships (ctx : RelCtx) (st : RelState) : RelState × RelSummary :=
  let sc := dedupFold (spellClassKeyOfCand ctx.source_id) (spellClassRowOfCand ctx.source_id)
    (fun _ => 0)
    ⟨((st.spellClasses.filter (fun r => r.source_id == ctx.source_id)).map spellClassKeyOfRow),
      st.spellClasses, 0, 0⟩ (spellClassCandsOf ctx)
  let cf := dedupFold (classFeatureKeyOfCand ctx.source_id) (classFeatureRowOfCand ctx.source_id)
    (fun _ => 0)
    ⟨((st.classFeatures.filter (fun r => r.source_id == ctx.source_id)).map classFeatureKeyOfRow),
      st.classFeatures, 0, 0⟩ (classFeatureCandsOf ctx)
  let sf := dedupFold (classFeatureKeyOfCand ctx.source_id)
    (subclassFeatureRowOfCand ctx.source_id) (fun _ => 0)
    ⟨((st.subclassFeatures.filter (fun r => r.source_id == ctx.source_id)).map
        subclassFeatureKeyOfRow),
      st.subclassFeatures, 0, 0⟩ (subclassFeatureCandsOf ctx)
  (⟨cf.rows, sf.rows, sc.rows⟩,
   ⟨cf.created, sf.created, sc.created,
    spellClassMissingOf ctx + relFeatureMissingOf ctx⟩)

/-! ## Prerequisite loading (ingest/load_prereqs.py) -/

structure PrereqRow where
  applies_to_type : String
  applies_to_id : Nat
  prereq_type : String
  key : String
  operator : String
  value : String
  notes : Option String
deriving DecidableEq

abbrev PrereqKey := String × Nat × String × String × String × String

instance : DecidableEq PrereqKey :=
  have h : DecidableEq (Nat × String × String × String × String) := inferInstance
  fun a b => @instDecidableEqProd _ _ _ h a b

structure PrereqsCtx where
  source_id : Nat
  classes : List (String × Owner)
  features : List (String × Owner)
  choice_groups : List ChoiceGroupRow
  raws : List RawEntity

structure PrereqsSummary where
  prereqs_created : Nat
  missing_refs : Nat
deriving DecidableEq

/-- `choice_groups_by_source_key` (groups with a falsy key are skipped). -/
def choiceGroupsBySourceKey (source_id : Nat) (gs : List ChoiceGroupRow) :
    List (String × ChoiceGroupRow) :=
  (gs.filter (fun g => g.source_id == source_id && !strIsEmpty g.source_key)).map
    (fun g => (g.source_key, g))

structure PrereqCand where
  applies_to_type : String
  applies_to_id : Nat
  tuple : PrereqTuple
deriving DecidableEq

def prereqKeyOfCand (c : PrereqCand) : PrereqKey :=
  (c.applies_to_type, c.applies_to_id, c.tuple.1, c.tuple.2.1, c.tuple.2.2.1, c.tuple.2.2.2.1)

def prereqRowOfCand (c : PrereqCand) : PrereqRow :=
  ⟨c.applies_to_type, c.applies_to_id, c.tuple.1, c.tuple.2.1, c.tuple.2.2.1,
   c.tuple.2.2.2.1, c.tuple.2.2.2.2⟩

def prereqKeyOfRow (r : PrereqRow) : PrereqKey :=
  (r.applies_to_type, r.applies_to_id, r.prereq_type, r.key, r.operator, r.value)

def prereqsRawsOf (ctx : PrereqsCtx) : List RawEntity :=
  ctx.raws.filter (fun r => r.source_id == ctx.source_id &&
    (r.entity_type == "class" || r.entity_type == "feature"))

def prereqsOwnerFor (ctx : PrereqsCtx) (r : RawEntity) : Option Owner :=
  if r.entity_type == "class" then dlookup ctx.classes r.source_key
  else dlookup ctx.features r.source_key

/-- The stable key a choice node recomputes during `load_prereqs` (the same
computation `load_choices` performs, without persisting anything). -/
def prereqChoiceSourceKey (owner_type : String) (owner : Owner) (payload node : Json) : String :=
  choiceSkeyOf owner_type owner payload node

/-- Feature-level and group-level prerequisite candidates of one raw entity,
in document order. -/
def prereqCandsOfRaw (ctx : PrereqsCtx) (r : RawEntity) : List PrereqCand :=
  match prereqsOwnerFor ctx r with
  | none => []
  | some owner =>
    let payload := payloadOf r
    let featureRows : List PrereqCand :=
      if !(_extract_prereq_nodes payload).isEmpty && r.entity_type == "feature" then
        (_iter_prereqs (_extract_prereq_nodes payload)).map
          (fun t => ⟨"feature", owner.id, t⟩)
      else []
    let groupRows : List PrereqCand :=
      (_collect_choice_nodes payload).flatMap (fun node =>
        let choice_prereqs := _extract_prereq_nodes node
        if choice_prereqs.isEmpty then []
        else
          match dlookup (choiceGroupsBySourceKey ctx.source_id ctx.choice_groups)
              (prereqChoiceSourceKey r.entity_type owner payload node) with
          | none => []
          | some group => (_iter_prereqs choice_prereqs).map
              (fun t => ⟨"choice_group", group.id, t⟩))
    featureRows ++ groupRows

def prereqCandsOf (ctx : PrereqsCtx) : List PrereqCand :=
  (prereqsRawsOf ctx).flatMap (prereqCandsOfRaw ctx)

/-- Choice nodes with prerequisites whose recomputed stable key matches no
persisted group (counted, then dropped). -/
def prereqsMissingOf (ctx : PrereqsCtx) : Nat :=
  (prereqsRawsOf ctx).foldl (fun acc r =>
    match prereqsOwnerFor ctx r with
    | none => acc
    | some owner =>
      let payload := payloadOf r
      acc + ((_collect_choice_nodes payload).filter (fun node =>
        !(_extract_prereq_nodes node).isEmpty &&
          (dlookup (choiceGroupsBySourceKey ctx.source_id ctx.choice_groups)
            (prereqChoiceSourceKey r.entity_type owner payload node)).isNone)).length) 0

/-- `load_prereqs` (ingest/load_prereqs.py) as a pure state transformer.  One
key set spans feature-level and group-level rows (the source seeds it from
the whole `Prerequisite` table, unfiltered); the loader never writes choice
groups, so the group lookup is part of the read-only context. -/
def load_prereqs (ctx : PrereqsCtx) (st : List PrereqRow) :
    List PrereqRow × PrereqsSummary :=
  let pf := dedupFold prereqKeyOfCand prereqRowOfCand (fun _ => 0)
    ⟨st.map prereqKeyOfRow, st, 0, 0⟩ (prereqCandsOf ctx)
  (pf.rows, ⟨pf.created, prereqsMissingOf ctx⟩)

/-! ## Idempotence of `load_choices` -/

theorem dlookup_append {κ β : Type} [DecidableEq κ] (l1 l2 : List (κ × β)) (k : κ) :
    dlookup (l1 ++ l2) k =
      match dlookup l2 k with
      | some v => some v
      | none => dlookup l1 k := by
  induction l1 with
  | nil =>
    cases h : dlookup l2 k <;> simp [dlookup, h]
  | cons p t ih =>
    obtain ⟨k', v⟩ := p
    have hstep : dlookup (((k', v) :: t) ++ l2) k =
        match dlookup (t ++ l2) k with
        | some v' => some v'
        | none => if k = k' then some v else none := rfl
    rw [hstep, ih]
    cases h2 : dlookup l2 k with
    | some w => rfl
    | none => rfl

theorem dlookup_append_single {κ β : Type} [DecidableEq κ] (l : List (κ × β)) (k0 : κ)
    (v0 : β) (k : κ) :
    dlookup (l ++ [(k0, v0)]) k = if k = k0 then some v0 else dlookup l k := by
  rw [dlookup_append]
  by_cases hk : k = k0
  · simp [dlookup, hk]
  · simp [dlookup, hk]

theorem dlookup_map_mem {α κ : Type} [DecidableEq κ] (l : List α) (keyF : α → κ) (k : κ)
    (v : α) (h : dlookup (l.map (fun x => (keyF x, x))) k = some v) :
    v ∈ l ∧ keyF v = k := by
  induction l with
  | nil => cases h
  | cons a t ih =>
    simp only [List.map_cons] at h
    unfold dlookup at h
    cases ht : dlookup (t.map (fun x => (keyF x, x))) k with
    | some v' =>
      rw [ht] at h
      cases h
      obtain ⟨hm, hk⟩ := ih ht
      exact ⟨List.mem_cons_of_mem a hm, hk⟩
    | none =>
      rw [ht] at h
      by_cases hk : k = keyF a
      · rw [if_pos hk] at h
        cases h
        exact ⟨List.mem_cons_self v t, hk.symm⟩
      · rw [if_neg hk] at h
        cases h

theorem lookupOfGroups_mem {sid : Nat} {gs : List ChoiceGroupRow} {k : GKey}
    {g : ChoiceGroupRow} (h : dlookup (lookupOfGroups sid gs) k = some g) :
    g ∈ gs ∧ (g.source_id == sid) = true ∧ gkeyOf g = k := by
  obtain ⟨hm, hk⟩ := dlookup_map_mem _ gkeyOf k g h
  obtain ⟨hmem, hpred⟩ := List.mem_filter.mp hm
  exact ⟨hmem, hpred, hk⟩

theorem lookupOfGroups_append_new (sid : Nat) (gs : List ChoiceGroupRow)
    (g : ChoiceGroupRow) (hs : (g.source_id == sid) = true) :
    lookupOfGroups sid (gs ++ [g]) = lookupOfGroups sid gs ++ [(gkeyOf g, g)] := by
  simp [lookupOfGroups, List.filter_append, hs]

theorem okeysOfState_append_opt (sid : Nat) (opts : List ChoiceOptionRow)
    (gs : List ChoiceGroupRow) (row : ChoiceOptionRow)
    (h : gs.any (fun g => g.id == row.choice_group_id && g.source_id == sid) = true) :
    okeysOfState sid (opts ++ [row]) gs = okeysOfState sid opts gs ++ [okeyOf row] := by
  simp [okeysOfState, List.filter_append, h]

theorem okeysOfState_groups_grow (sid : Nat) (opts : List ChoiceOptionRow)
    (gs : List ChoiceGroupRow) (g : ChoiceGroupRow)
    (hfresh : ∀ o ∈ opts, ¬ (g.id == o.choice_group_id) = true) :
    okeysOfState sid opts (gs ++ [g]) = okeysOfState sid opts gs := by
  unfold okeysOfState
  congr 1
  apply List.filter_congr
  intro o ho
  simp only [List.any_append, List.any_cons, List.any_nil, Bool.or_false]
  have : (g.id == o.choice_group_id && g.source_id == sid) = false := by
    rw [Bool.and_eq_false_iff]
    left
    exact Bool.eq_false_iff.mpr (hfresh o ho)
  rw [this, Bool.or_false]

theorem processOption_frame (f : List (String × Owner)) (g : ChoiceGroupRow) (t : String)
    (acc : ChoicesAcc) (j : Json) :
    (processOption f g t acc j).lookup = acc.lookup ∧
    (processOption f g t acc j).groups = acc.groups ∧
    (processOption f g t acc j).nextId = acc.nextId ∧
    (processOption f g t acc j).gCreated = acc.gCreated := by
  unfold processOption
  dsimp only
  split <;> exact ⟨rfl, rfl, rfl, rfl⟩

theorem foldOptions_frame (f : List (String × Owner)) (g : ChoiceGroupRow) (t : String)
    (opts : List Json) (acc : ChoicesAcc) :
    (opts.foldl (processOption f g t) acc).lookup = acc.lookup ∧
    (opts.foldl (processOption f g t) acc).groups = acc.groups ∧
    (opts.foldl (processOption f g t) acc).nextId = acc.nextId ∧
    (opts.foldl (processOption f g t) acc).gCreated = acc.gCreated := by
  induction opts generalizing acc with
  | nil => exact ⟨rfl, rfl, rfl, rfl⟩
  | cons j rest ih =>
    obtain ⟨h1, h2, h3, h4⟩ := ih (processOption f g t acc j)
    obtain ⟨g1, g2, g3, g4⟩ := processOption_frame f g t acc j
    exact ⟨h1.trans g1, h2.trans g2, h3.trans g3, h4.trans g4⟩

theorem processOption_okeys_mono (f : List (String × Owner)) (g : ChoiceGroupRow) (t : String)
    (acc : ChoicesAcc) (j : Json) {o : OKey} (h : o ∈ acc.okeys) :
    o ∈ (processOption f g t acc j).okeys := by
  unfold processOption
  dsimp only
  split
  · exact h
  · simp only [List.mem_append]
    exact Or.inl h

theorem foldOptions_okeys_mono (f : List (String × Owner)) (g : ChoiceGroupRow) (t : String)
    (opts : List Json) (acc : ChoicesAcc) {o : OKey} (h : o ∈ acc.okeys) :
    o ∈ (opts.foldl (processOption f g t) acc).okeys := by
  induction opts generalizing acc with
  | nil => exact h
  | cons j rest ih => exact ih _ (processOption_okeys_mono f g t acc j h)

theorem foldOptions_captures (f : List (String × Owner)) (g : ChoiceGroupRow) (t : String)
    (opts : List Json) (acc : ChoicesAcc) :
    ∀ j ∈ opts, optionKeyFor g t j ∈ (opts.foldl (processOption f g t) acc).okeys := by
  induction opts generalizing acc with
  | nil => intro j hj; cases hj
  | cons j0 rest ih =>
    intro j hj
    rcases List.mem_cons.mp hj with rfl | hj
    · have hstep : optionKeyFor g t j ∈ (processOption f g t acc j).okeys := by
        unfold processOption
        dsimp only
        split
        · assumption
        · simp
      exact foldOptions_okeys_mono f g t rest _ hstep
    · exact ih _ j hj

theorem foldOptions_noop (f : List (String × Owner)) (g : ChoiceGroupRow) (t : String)
    (opts : List Json) (acc : ChoicesAcc)
    (h : ∀ j ∈ opts, optionKeyFor g t j ∈ acc.okeys) :
    opts.foldl (processOption f g t) acc = acc := by
  induction opts with
  | nil => rfl
  | cons j rest ih =>
    have hstep : processOption f g t acc j = acc := by
      unfold processOption
      dsimp only
      rw [if_pos (h j (List.mem_cons_self j rest))]
    show List.foldl (processOption f g t) (processOption f g t acc j) rest = acc
    rw [hstep]
    exact ih (fun j' hj' => h j' (List.mem_cons_of_mem j hj'))

/-- Growth order on loop states: every group binding and every option key of
the first state is visible in the second. -/
def LSub (a b : ChoicesAcc) : Prop :=
  (∀ k g, dlookup a.lookup k = some g → dlookup b.lookup k = some g) ∧
  ∀ o ∈ a.okeys, o ∈ b.okeys

theorem LSub.of_parts {a b : ChoicesAcc} (hl : a.lookup = b.lookup)
    (ho : a.okeys = b.okeys) : LSub a b :=
  ⟨fun k g h => hl ▸ h, fun o h => ho ▸ h⟩

theorem LSub.refl {a : ChoicesAcc} : LSub a a := LSub.of_parts (Eq.refl _) (Eq.refl _)

theorem LSub.trans {a b c : ChoicesAcc} (h1 : LSub a b) (h2 : LSub b c) : LSub a c :=
  ⟨fun k g h => h2.1 k g (h1.1 k g h), fun o h => h2.2 o (h1.2 o h)⟩

theorem processOption_lsub (f : List (String × Owner)) (g : ChoiceGroupRow) (t : String)
    (acc : ChoicesAcc) (j : Json) : LSub acc (processOption f g t acc j) :=
  ⟨fun k g' h => (processOption_frame f g t acc j).1 ▸ h,
   fun o h => processOption_okeys_mono f g t acc j h⟩

theorem foldOptions_lsub (f : List (String × Owner)) (g : ChoiceGroupRow) (t : String)
    (opts : List Json) (acc : ChoicesAcc) :
    LSub acc (opts.foldl (processOption f g t) acc) :=
  ⟨fun k g' h => (foldOptions_frame f g t opts acc).1 ▸ h,
   fun o h => foldOptions_okeys_mono f g t opts acc h⟩

theorem processChoice_lsub (ctx : ChoicesCtx) (ot : String) (owner : Owner) (payload : Json)
    (acc : ChoicesAcc) (node : Json) :
    LSub acc (processChoice ctx ot owner payload acc node) := by
  unfold processChoice
  cases hcn : chooseNOf node with
  | none => exact LSub.refl
  | some cn =>
    dsimp only
    cases hg : dlookup acc.lookup (choiceGKeyOf ctx.source_id ot owner payload node) with
    | some g => exact foldOptions_lsub _ _ _ _ _
    | none =>
      refine LSub.trans (b := { acc with
        groups := acc.groups ++ [newGroupOf ctx.source_id ot owner payload node cn acc.nextId]
        lookup := acc.lookup ++ [(choiceGKeyOf ctx.source_id ot owner payload node,
          newGroupOf ctx.source_id ot owner payload node cn acc.nextId)]
        nextId := acc.nextId + 1
        gCreated := acc.gCreated + 1 }) ?_ (foldOptions_lsub _ _ _ _ _)
      refine ⟨fun k g' h => ?_, fun o h => h⟩
      show dlookup (acc.lookup ++ [(choiceGKeyOf ctx.source_id ot owner payload node,
        newGroupOf ctx.source_id ot owner payload node cn acc.nextId)]) k = some g'
      rw [dlookup_append_single]
      split
      · rename_i hk
        rw [hk, hg] at h
        cases h
      · exact h

theorem foldNodes_lsub (ctx : ChoicesCtx) (ot : String) (owner : Owner) (payload : Json)
    (nodes : List Json) (acc : ChoicesAcc) :
    LSub acc (nodes.foldl (processChoice ctx ot owner payload) acc) := by
  induction nodes generalizing acc with
  | nil => exact LSub.refl
  | cons n rest ih =>
    exact LSub.trans (processChoice_lsub ctx ot owner payload acc n) (ih _)

theorem processRaw_lsub (ctx : ChoicesCtx) (acc : ChoicesAcc) (r : RawEntity) :
    LSub acc (processRaw ctx acc r) := by
  unfold processRaw
  cases ho : ownerFor ctx r with
  | none => exact LSub.refl
  | some owner => exact foldNodes_lsub ctx r.entity_type owner (payloadOf r) _ acc

theorem foldRaws_lsub (ctx : ChoicesCtx) (raws : List RawEntity) (acc : ChoicesAcc) :
    LSub acc (raws.foldl (processRaw ctx) acc) := by
  induction raws generalizing acc with
  | nil => exact LSub.refl
  | cons r rest ih => exact LSub.trans (processRaw_lsub ctx acc r) (ih _)

theorem processChoice_replay (ctx : ChoicesCtx) (ot : String) (owner : Owner) (payload : Json)
    (acc b : ChoicesAcc) (node : Json)
    (h : LSub (processChoice ctx ot owner payload acc node) b) :
    processChoice ctx ot owner payload b node = b := by
  unfold processChoice at h ⊢
  cases hcn : chooseNOf node with
  | none => rfl
  | some cn =>
    rw [hcn] at h
    dsimp only at h ⊢
    cases hga : dlookup acc.lookup (choiceGKeyOf ctx.source_id ot owner payload node) with
    | some g =>
      rw [hga] at h
      dsimp only at h
      have hfl : (List.foldl
          (processOption ctx.features g (choiceCtypeOf node owner)) acc
          (_extract_options node)).lookup = acc.lookup :=
        (foldOptions_frame _ _ _ _ _).1
      have h2 : dlookup (List.foldl
          (processOption ctx.features g (choiceCtypeOf node owner)) acc
          (_extract_options node)).lookup
          (choiceGKeyOf ctx.source_id ot owner payload node) = some g := by
        rw [hfl]; exact hga
      have hb := h.1 _ _ h2
      rw [hb]
      dsimp only
      refine foldOptions_noop _ _ _ _ _ ?_
      intro j hj
      exact h.2 _ (foldOptions_captures ctx.features g (choiceCtypeOf node owner)
        (_extract_options node) acc j hj)
    | none =>
      rw [hga] at h
      dsimp only at h
      have hacc : dlookup ({ acc with
          groups := acc.groups ++
            [newGroupOf ctx.source_id ot owner payload node cn acc.nextId]
          lookup := acc.lookup ++
            [(choiceGKeyOf ctx.source_id ot owner payload node,
              newGroupOf ctx.source_id ot owner payload node cn acc.nextId)]
          nextId := acc.nextId + 1
          gCreated := acc.gCreated + 1 } : ChoicesAcc).lookup
          (choiceGKeyOf ctx.source_id ot owner payload node) =
          some (newGroupOf ctx.source_id ot owner payload node cn acc.nextId) := by
        show dlookup (acc.lookup ++
          [(choiceGKeyOf ctx.source_id ot owner payload node,
            newGroupOf ctx.source_id ot owner payload node cn acc.nextId)])
          (choiceGKeyOf ctx.source_id ot owner payload node) = _
        rw [dlookup_append_single]
        simp
      have hfl := (foldOptions_frame ctx.features
        (newGroupOf ctx.source_id ot owner payload node cn acc.nextId)
        (choiceCtypeOf node owner) (_extract_options node)
        ({ acc with
          groups := acc.groups ++
            [newGroupOf ctx.source_id ot owner payload node cn acc.nextId]
          lookup := acc.lookup ++
            [(choiceGKeyOf ctx.source_id ot owner payload node,
              newGroupOf ctx.source_id ot owner payload node cn acc.nextId)]
          nextId := acc.nextId + 1
          gCreated := acc.gCreated + 1 })).1
      have h2 : dlookup (List.foldl
          (processOption ctx.features
            (newGroupOf ctx.source_id ot owner payload node cn acc.nextId)
            (choiceCtypeOf node owner))
          ({ acc with
            groups := acc.groups ++
              [newGroupOf ctx.source_id ot owner payload node cn acc.nextId]
            lookup := acc.lookup ++
              [(choiceGKeyOf ctx.source_id ot owner payload node,
                newGroupOf ctx.source_id ot owner payload node cn acc.nextId)]
            nextId := acc.nextId + 1
            gCreated := acc.gCreated + 1 })
          (_extract_options node)).lookup
          (choiceGKeyOf ctx.source_id ot owner payload node) =
          some (newGroupOf ctx.source_id ot owner payload node cn acc.nextId) := by
        rw [hfl]; exact hacc
      have hb := h.1 _ _ h2
      rw [hb]
      dsimp only
      refine foldOptions_noop _ _ _ _ _ ?_
      intro j hj
      exact h.2 _ (foldOptions_captures ctx.features
        (newGroupOf ctx.source_id ot owner payload node cn acc.nextId)
        (choiceCtypeOf node owner) (_extract_options node) _ j hj)

theorem foldNodes_replay (ctx : ChoicesCtx) (ot : String) (owner : Owner) (payload : Json)
    (nodes : List Json) (acc b : ChoicesAcc)
    (h : LSub (nodes.foldl (processChoice ctx ot owner payload) acc) b) :
    nodes.foldl (processChoice ctx ot owner payload) b = b := by
  induction nodes generalizing acc with
  | nil => rfl
  | cons n rest ih =>
    have h1 : LSub (processChoice ctx ot owner payload acc n) b :=
      LSub.trans (foldNodes_lsub ctx ot owner payload rest _) h
    have hstep := processChoice_replay ctx ot owner payload acc b n h1
    show List.foldl (processChoice ctx ot owner payload)
      (processChoice ctx ot owner payload b n) rest = b
    rw [hstep]
    exact ih _ h

theorem processRaw_replay (ctx : ChoicesCtx) (acc b : ChoicesAcc) (r : RawEntity)
    (h : LSub (processRaw ctx acc r) b) : processRaw ctx b r = b := by
  unfold processRaw at h ⊢
  cases ho : ownerFor ctx r with
  | none => rfl
  | some owner =>
    rw [ho] at h
    dsimp only at h ⊢
    exact foldNodes_replay ctx r.entity_type owner (payloadOf r) _ acc b h

theorem foldRaws_replay (ctx : ChoicesCtx) (raws : List RawEntity) (acc b : ChoicesAcc)
    (h : LSub (raws.foldl (processRaw ctx) acc) b) :
    raws.foldl (processRaw ctx) b = b := by
  induction raws generalizing acc with
  | nil => rfl
  | cons r rest ih =>
    have h1 : LSub (processRaw ctx acc r) b :=
      LSub.trans (foldRaws_lsub ctx rest _) h
    have hstep := processRaw_replay ctx acc b r h1
    show List.foldl (processRaw ctx) (processRaw ctx b r) rest = b
    rw [hstep]
    exact ih _ h

/-- The loop invariant of one `load_choices` pass: the in-memory `group_lookup`
and `option_keys` are exactly what reseeding from the current tables would
produce, and all row ids are below the autoincrement counter. -/
def ChoicesInv (sid : Nat) (acc : ChoicesAcc) : Prop :=
  acc.lookup = lookupOfGroups sid acc.groups ∧
  acc.okeys = okeysOfState sid acc.options acc.groups ∧
  (∀ g ∈ acc.groups, g.id < acc.nextId) ∧
  (∀ o ∈ acc.options, o.choice_group_id < acc.nextId)

theorem processOption_inv (sid : Nat) (f : List (String × Owner)) (g : ChoiceGroupRow)
    (t : String) (acc : ChoicesAcc) (j : Json)
    (hg : g ∈ acc.groups) (hs : g.source_id = sid) (hinv : ChoicesInv sid acc) :
    ChoicesInv sid (processOption f g t acc j) := by
  obtain ⟨h1, h2, h3, h4⟩ := hinv
  unfold processOption
  dsimp only
  split
  · exact ⟨h1, h2, h3, h4⟩
  · refine ⟨h1, ?_, h3, ?_⟩
    · rw [okeysOfState_append_opt, ← h2]
      · rfl
      · refine List.any_eq_true.mpr ⟨g, hg, ?_⟩
        show (g.id == g.id && g.source_id == sid) = true
        rw [hs]
        simp
    · intro o ho
      rcases List.mem_append.mp ho with ho | ho
      · exact h4 o ho
      · rw [List.mem_singleton.mp ho]
        exact h3 g hg

theorem foldOptions_inv (sid : Nat) (f : List (String × Owner)) (g : ChoiceGroupRow)
    (t : String) (opts : List Json) (acc : ChoicesAcc)
    (hg : g ∈ acc.groups) (hs : g.source_id = sid) (hinv : ChoicesInv sid acc) :
    ChoicesInv sid (opts.foldl (processOption f g t) acc) := by
  induction opts generalizing acc with
  | nil => exact hinv
  | cons j rest ih =>
    have hg2 : g ∈ (processOption f g t acc j).groups := by
      rw [(processOption_frame f g t acc j).2.1]; exact hg
    exact ih _ hg2 (processOption_inv sid f g t acc j hg hs hinv)

theorem processChoice_inv (ctx : ChoicesCtx) (ot : String) (owner : Owner) (payload : Json)
    (acc : ChoicesAcc) (node : Json) (hinv : ChoicesInv ctx.source_id acc) :
    ChoicesInv ctx.source_id (processChoice ctx ot owner payload acc node) := by
  unfold processChoice
  cases hcn : chooseNOf node with
  | none => exact hinv
  | some cn =>
    dsimp only
    cases hga : dlookup acc.lookup (choiceGKeyOf ctx.source_id ot owner payload node) with
    | some g =>
      have hga2 : dlookup (lookupOfGroups ctx.source_id acc.groups)
          (choiceGKeyOf ctx.source_id ot owner payload node) = some g := by
        rw [← hinv.1]; exact hga
      obtain ⟨hmem, hpred, _⟩ := lookupOfGroups_mem hga2
      exact foldOptions_inv _ _ _ _ _ _ hmem (eq_of_beq hpred) hinv
    | none =>
      obtain ⟨h1, h2, h3, h4⟩ := hinv
      have hinv2 : ChoicesInv ctx.source_id { acc with
          groups := acc.groups ++
            [newGroupOf ctx.source_id ot owner payload node cn acc.nextId]
          lookup := acc.lookup ++
            [(choiceGKeyOf ctx.source_id ot owner payload node,
              newGroupOf ctx.source_id ot owner payload node cn acc.nextId)]
          nextId := acc.nextId + 1
          gCreated := acc.gCreated + 1 } := by
        refine ⟨?_, ?_, ?_, ?_⟩
        · show acc.lookup ++ _ = lookupOfGroups ctx.source_id (acc.groups ++ _)
          rw [lookupOfGroups_append_new _ _ _ (by simp [newGroupOf]), ← h1]
          rfl
        · show acc.okeys = okeysOfState ctx.source_id acc.options (acc.groups ++ _)
          rw [okeysOfState_groups_grow _ _ _ _ ?_]
          · exact h2
          · intro o ho hbeq
            have heq : (newGroupOf ctx.source_id ot owner payload node cn acc.nextId).id
                = o.choice_group_id := eq_of_beq hbeq
            have hid : (newGroupOf ctx.source_id ot owner payload node cn acc.nextId).id
                = acc.nextId := rfl
            have hlt := h4 o ho
            rw [hid] at heq
            omega
        · intro g2 hg2
          rcases List.mem_append.mp hg2 with hg2 | hg2
          · exact Nat.lt_trans (h3 g2 hg2) (Nat.lt_succ_self _)
          · rw [List.mem_singleton.mp hg2]
            exact Nat.lt_succ_self _
        · intro o ho
          exact Nat.lt_trans (h4 o ho) (Nat.lt_succ_self _)
      refine foldOptions_inv _ _ _ _ _ _ ?_ rfl hinv2
      exact List.mem_append_right _ (List.mem_singleton.mpr rfl)

theorem foldNodes_inv (ctx : ChoicesCtx) (ot : String) (owner : Owner) (payload : Json)
    (nodes : List Json) (acc : ChoicesAcc) (hinv : ChoicesInv ctx.source_id acc) :
    ChoicesInv ctx.source_id (nodes.foldl (processChoice ctx ot owner payload) acc) := by
  induction nodes generalizing acc with
  | nil => exact hinv
  | cons n rest ih => exact ih _ (processChoice_inv ctx ot owner payload acc n hinv)

theorem processRaw_inv (ctx : ChoicesCtx) (acc : ChoicesAcc) (r : RawEntity)
    (hinv : ChoicesInv ctx.source_id acc) : ChoicesInv ctx.source_id (processRaw ctx acc r) := by
  unfold processRaw
  cases ho : ownerFor ctx r with
  | none => exact hinv
  | some owner => exact foldNodes_inv ctx r.entity_type owner (payloadOf r) _ acc hinv

theorem foldRaws_inv (ctx : ChoicesCtx) (raws : List RawEntity) (acc : ChoicesAcc)
    (hinv : ChoicesInv ctx.source_id acc) :
    ChoicesInv ctx.source_id (raws.foldl (processRaw ctx) acc) := by
  induction raws generalizing acc with
  | nil => exact hinv
  | cons r rest ih => exact ih _ (processRaw_inv ctx acc r hinv)

/-- Well-formedness of the stored choice tables: every persisted id is below
the autoincrement counter, as the database guarantees. -/
def ChoiceStateWF (st : ChoiceState) : Prop :=
  (∀ g ∈ st.groups, g.id < st.nextGroupId) ∧
  (∀ o ∈ st.options, o.choice_group_id < st.nextGroupId)

instance (st : ChoiceState) : Decidable (ChoiceStateWF st) :=
  inferInstanceAs (Decidable ((∀ g ∈ st.groups, g.id < st.nextGroupId) ∧
    (∀ o ∈ st.options, o.choice_group_id < st.nextGroupId)))

theorem seedAcc_inv (ctx : ChoicesCtx) (st : ChoiceState) (hwf : ChoiceStateWF st) :
    ChoicesInv ctx.source_id (seedAcc ctx st) :=
  ⟨rfl, rfl, hwf.1, hwf.2⟩

theorem load_choices_noop (ctx : ChoicesCtx) (st1 : ChoiceState)
    (hfix : (choicesRawsOf ctx).foldl (processRaw ctx) (seedAcc ctx st1) = seedAcc ctx st1) :
    load_choices ctx st1 = (st1, ⟨0, 0, 0⟩) := by
  unfold load_choices
  dsimp only
  rw [hfix]
  rfl

theorem load_choices_idempotent (ctx : ChoicesCtx) (st : ChoiceState)
    (hwf : ChoiceStateWF st) :
    load_choices ctx (load_choices ctx st).1 = ((load_choices ctx st).1, ⟨0, 0, 0⟩) := by
  apply load_choices_noop
  apply foldRaws_replay ctx (choicesRawsOf ctx) (seedAcc ctx st)
  have hinvF := foldRaws_inv ctx (choicesRawsOf ctx) (seedAcc ctx st) (seedAcc_inv ctx st hwf)
  exact LSub.of_parts hinvF.1 hinvF.2.1

/-! ## Idempotence of the other three loaders -/

theorem dedupFold_keys_eq_proj_all {γ κ ρ : Type} [DecidableEq κ] (keyOf : γ → κ)
    (rowOf : γ → ρ) (missOf : γ → Nat) (keyProj : ρ → κ)
    (hkr : ∀ c, keyProj (rowOf c) = keyOf c) (cands : List γ) (acc : DFold κ ρ)
    (hacc : acc.keys = acc.rows.map keyProj) :
    (dedupFold keyOf rowOf missOf acc cands).keys =
      (dedupFold keyOf rowOf missOf acc cands).rows.map keyProj := by
  induction cands generalizing acc with
  | nil => exact hacc
  | cons c rest ih =>
    apply ih
    unfold dedupStep
    split
    · exact hacc
    · simp [hacc, hkr c]

theorem load_grants_idempotent (ctx : GrantsCtx) (st : GrantsState) :
    load_grants ctx (load_grants ctx st).1 = ((load_grants ctx st).1, ⟨0, 0, 0, 0⟩) := by
  unfold load_grants
  dsimp only
  rw [dedupFold_idempotent (profKeyOfCand ctx.source_id) (profRowOfCand ctx.source_id)
        (fun _ => 0) profKeyOfRow (fun r => r.source_id == ctx.source_id)
        (fun c => rfl) (fun c => by simp [profRowOfCand]) (profCandsOf ctx) st.profs,
      dedupFold_idempotent (spellKeyOfCand ctx.source_id) (spellRowOfCand ctx)
        (spellMissOf ctx) spellKeyOfRow (fun r => r.source_id == ctx.source_id)
        (fun c => rfl) (fun c => by simp [spellRowOfCand]) (spellCandsOf ctx) st.spells,
      dedupFold_idempotent (spellKeyOfCand ctx.source_id) (featRowOfCand ctx)
        (featMissOf ctx) featKeyOfRow (fun r => r.source_id == ctx.source_id)
        (fun c => rfl) (fun c => by simp [featRowOfCand]) (featCandsOf ctx) st.feats]
  rfl

theorem load_relationships_idempotent (ctx : RelCtx) (st : RelState) :
    load_relationships ctx (load_relationships ctx st).1 =
      ((load_relationships ctx st).1,
       ⟨0, 0, 0, spellClassMissingOf ctx + relFeatureMissingOf ctx⟩) := by
  unfold load_relationships
  dsimp only
  rw [dedupFold_idempotent (spellClassKeyOfCand ctx.source_id)
        (spellClassRowOfCand ctx.source_id) (fun _ => 0) spellClassKeyOfRow
        (fun r => r.source_id == ctx.source_id)
        (fun c => rfl) (fun c => by simp [spellClassRowOfCand]) (spellClassCandsOf ctx)
        st.spellClasses,
      dedupFold_idempotent (classFeatureKeyOfCand ctx.source_id)
        (classFeatureRowOfCand ctx.source_id) (fun _ => 0) classFeatureKeyOfRow
        (fun r => r.source_id == ctx.source_id)
        (fun c => rfl) (fun c => by simp [classFeatureRowOfCand]) (classFeatureCandsOf ctx)
        st.classFeatures,
      dedupFold_idempotent (classFeatureKeyOfCand ctx.source_id)
        (subclassFeatureRowOfCand ctx.source_id) (fun _ => 0) subclassFeatureKeyOfRow
        (fun r => r.source_id == ctx.source_id)
        (fun c => rfl) (fun c => by simp [subclassFeatureRowOfCand])
        (subclassFeatureCandsOf ctx) st.subclassFeatures]

theorem load_prereqs_idempotent (ctx : PrereqsCtx) (st : List PrereqRow) :
    load_prereqs ctx (load_prereqs ctx st).1 =
      ((load_prereqs ctx st).1, ⟨0, prereqsMissingOf ctx⟩) := by
  unfold load_prereqs
  dsimp only
  have hfix : dedupFold prereqKeyOfCand prereqRowOfCand (fun _ => 0)
      ⟨(dedupFold prereqKeyOfCand prereqRowOfCand (fun _ => 0)
          ⟨st.map prereqKeyOfRow, st, 0, 0⟩ (prereqCandsOf ctx)).rows.map prereqKeyOfRow,
        (dedupFold prereqKeyOfCand prereqRowOfCand (fun _ => 0)
          ⟨st.map prereqKeyOfRow, st, 0, 0⟩ (prereqCandsOf ctx)).rows, 0, 0⟩
      (prereqCandsOf ctx) =
      ⟨(dedupFold prereqKeyOfCand prereqRowOfCand (fun _ => 0)
          ⟨st.map prereqKeyOfRow, st, 0, 0⟩ (prereqCandsOf ctx)).rows.map prereqKeyOfRow,
        (dedupFold prereqKeyOfCand prereqRowOfCand (fun _ => 0)
          ⟨st.map prereqKeyOfRow, st, 0, 0⟩ (prereqCandsOf ctx)).rows, 0, 0⟩ := by
    apply dedupFold_noop
    intro c hc
    have hkeys := dedupFold_keys_eq_proj_all prereqKeyOfCand prereqRowOfCand (fun _ => 0)
      prereqKeyOfRow (fun c => rfl) (prereqCandsOf ctx)
      ⟨st.map prereqKeyOfRow, st, 0, 0⟩ rfl
    show prereqKeyOfCand c ∈ (dedupFold prereqKeyOfCand prereqRowOfCand (fun _ => 0)
      ⟨st.map prereqKeyOfRow, st, 0, 0⟩ (prereqCandsOf ctx)).rows.map prereqKeyOfRow
    rw [← hkeys]
    exact dedupFold_captures prereqKeyOfCand prereqRowOfCand (fun _ => 0)
      (prereqCandsOf ctx) _ c hc
  rw [hfix]

/-- A concrete class document with one fighting-style choice (two options),
used to instantiate the idempotence theorem. -/
def c1payload : Json :=
  Json.obj [("index", Json.str "fighter"), ("name", Json.str "Fighter"),
    ("choices", Json.arr [Json.obj [
      ("choose", Json.num 1),
      ("type", Json.str "fighting-style"),
      ("from", Json.arr [
        Json.obj [("index", Json.str "archery"), ("name", Json.str "Archery")],
        Json.obj [("index", Json.str "defense"), ("name", Json.str "Defense")]])]])]

def c1raw : RawEntity :=
  ⟨1, 1, "class", "fighter", some "Fighter", none, none, c1payload, "", 0, 0, 0⟩

def c1fighter : Owner := ⟨1, some "Fighter", "fighter", none⟩

def c1cctx : ChoicesCtx := ⟨1, [("fighter", c1fighter)], [], [c1raw]⟩

def c1gctx : GrantsCtx := ⟨1, [("fighter", c1fighter)], [], [], [], [c1raw]⟩

def c1pctx : PrereqsCtx := ⟨1, [("fighter", c1fighter)], [], [], [c1raw]⟩

def c1rctx : RelCtx := ⟨1, [("fighter", c1fighter)], [], [], [], [c1raw]⟩

/-- C1: Idempotence of the extractors.  For every context (raw documents and
entity maps) and every well-formed starting state, running each loader a
second time on the state the first run produced returns that state unchanged
and a summary whose created counters are all zero.  (`load_prereqs` and
`load_relationships` recount unresolved references on every pass, so their
`missing` counters repeat the context-determined value; every `created`
counter is `0`.) -/
theorem extractors_idempotent
    (cctx : ChoicesCtx) (cst : ChoiceState) (hwf : ChoiceStateWF cst)
    (gctx : GrantsCtx) (gst : GrantsState)
    (pctx : PrereqsCtx) (pst : List PrereqRow)
    (rctx : RelCtx) (rst : RelState) :
    load_choices cctx (load_choices cctx cst).1 = ((load_choices cctx cst).1, ⟨0, 0, 0⟩) ∧
    load_grants gctx (load_grants gctx gst).1 = ((load_grants gctx gst).1, ⟨0, 0, 0, 0⟩) ∧
    load_prereqs pctx (load_prereqs pctx pst).1
      = ((load_prereqs pctx pst).1, ⟨0, prereqsMissingOf pctx⟩) ∧
    load_relationships rctx (load_relationships rctx rst).1
      = ((load_relationships rctx rst).1,
         ⟨0, 0, 0, spellClassMissingOf rctx + relFeatureMissingOf rctx⟩) :=
  ⟨load_choices_idempotent cctx cst hwf, load_grants_idempotent gctx gst,
   load_prereqs_idempotent pctx pst, load_relationships_idempotent rctx rst⟩

theorem extractors_idempotent_witness :
    ChoiceStateWF ⟨[], [], 1⟩ ∧
    (load_choices c1cctx (load_choices c1cctx ⟨[], [], 1⟩).1
        = ((load_choices c1cctx ⟨[], [], 1⟩).1, ⟨0, 0, 0⟩) ∧
     load_grants c1gctx (load_grants c1gctx ⟨[], [], []⟩).1
        = ((load_grants c1gctx ⟨[], [], []⟩).1, ⟨0, 0, 0, 0⟩) ∧
     load_prereqs c1pctx (load_prereqs c1pctx []).1
        = ((load_prereqs c1pctx []).1, ⟨0, prereqsMissingOf c1pctx⟩) ∧
     load_relationships c1rctx (load_relationships c1rctx ⟨[], [], []⟩).1
        = ((load_relationships c1rctx ⟨[], [], []⟩).1,
           ⟨0, 0, 0, spellClassMissingOf c1rctx + relFeatureMissingOf c1rctx⟩)) :=
  ⟨by decide, extractors_idempotent c1cctx ⟨[], [], 1⟩ (by decide) c1gctx ⟨[], [], []⟩
    c1pctx [] c1rctx ⟨[], [], []⟩⟩

/-! ## Choice key stability (C4) -/

theorem processRaw_eq_of_owner (ctx : ChoicesCtx) (acc : ChoicesAcc) (r : RawEntity)
    (owner : Owner) (ho : ownerFor ctx r = some owner) :
    processRaw ctx acc r = (_collect_choice_nodes (payloadOf r)).foldl
      (processChoice ctx r.entity_type owner (payloadOf r)) acc := by
  unfold processRaw
  cases h1 : ownerFor ctx r with
  | none => rw [h1] at ho; cases ho
  | some ow =>
    rw [h1] at ho
    injection ho with h2
    subst h2
    rfl

theorem processChoice_found (ctx : ChoicesCtx) (ot : String) (owner : Owner) (payload : Json)
    (acc : ChoicesAcc) (node : Json) (cn : Int) (g : ChoiceGroupRow)
    (hcn : chooseNOf node = some cn)
    (hg : dlookup acc.lookup (choiceGKeyOf ctx.source_id ot owner payload node) = some g) :
    processChoice ctx ot owner payload acc node
      = (_extract_options node).foldl
          (processOption ctx.features g (choiceCtypeOf node owner)) acc := by
  unfold processChoice
  cases h1 : chooseNOf node with
  | none => rw [h1] at hcn; cases hcn
  | some c =>
    rw [h1] at hcn
    injection hcn with h2
    subst h2
    dsimp only
    cases h3 : dlookup acc.lookup (choiceGKeyOf ctx.source_id ot owner payload node) with
    | none => rw [h3] at hg; cases hg
    | some g2 =>
      rw [h3] at hg
      injection hg with h4
      subst h4
      rfl

theorem processChoice_create (ctx : ChoicesCtx) (ot : String) (owner : Owner) (payload : Json)
    (acc : ChoicesAcc) (node : Json) (cn : Int)
    (hcn : chooseNOf node = some cn)
    (hg : dlookup acc.lookup (choiceGKeyOf ctx.source_id ot owner payload node) = none) :
    processChoice ctx ot owner payload acc node
      = (_extract_options node).foldl
          (processOption ctx.features
            (newGroupOf ctx.source_id ot owner payload node cn acc.nextId)
            (choiceCtypeOf node owner))
          { acc with
            groups := acc.groups ++
              [newGroupOf ctx.source_id ot owner payload node cn acc.nextId]
            lookup := acc.lookup ++
              [(choiceGKeyOf ctx.source_id ot owner payload node,
                newGroupOf ctx.source_id ot owner payload node cn acc.nextId)]
            nextId := acc.nextId + 1
            gCreated := acc.gCreated + 1 } := by
  unfold processChoice
  cases h1 : chooseNOf node with
  | none => rw [h1] at hcn; cases hcn
  | some c =>
    rw [h1] at hcn
    injection hcn with h2
    subst h2
    dsimp only
    cases h3 : dlookup acc.lookup (choiceGKeyOf ctx.source_id ot owner payload node) with
    | some g2 => rw [h3] at hg; cases hg
    | none => rfl

theorem load_choices_unfold (ctx : ChoicesCtx) (st : ChoiceState) :
    load_choices ctx st =
      (⟨((choicesRawsOf ctx).foldl (processRaw ctx) (seedAcc ctx st)).groups,
        ((choicesRawsOf ctx).foldl (processRaw ctx) (seedAcc ctx st)).options,
        ((choicesRawsOf ctx).foldl (processRaw ctx) (seedAcc ctx st)).nextId⟩,
       ⟨((choicesRawsOf ctx).foldl (processRaw ctx) (seedAcc ctx st)).gCreated,
        ((choicesRawsOf ctx).foldl (processRaw ctx) (seedAcc ctx st)).oCreated,
        ((choicesRawsOf ctx).foldl (processRaw ctx) (seedAcc ctx st)).missing⟩) := rfl

theorem processOption_creates (f : List (String × Owner)) (g : ChoiceGroupRow) (t : String)
    (acc : ChoicesAcc) (j : Json) (h : optionKeyFor g t j ∉ acc.okeys) :
    processOption f g t acc j = { acc with
      okeys := acc.okeys ++ [optionKeyFor g t j]
      options := acc.options ++ [optionRowOf f g.id t j]
      oCreated := acc.oCreated + 1
      missing := acc.missing + (optionFidMiss f t j).2 } := by
  unfold processOption
  dsimp only
  rw [if_neg h]

theorem foldOptions_okeys_subset (f : List (String × Owner)) (g : ChoiceGroupRow)
    (t : String) (opts : List Json) (acc : ChoicesAcc) {x : OKey}
    (h : x ∈ (opts.foldl (processOption f g t) acc).okeys) :
    x ∈ acc.okeys ∨ ∃ j ∈ opts, x = optionKeyFor g t j := by
  induction opts generalizing acc with
  | nil => exact Or.inl h
  | cons j rest ih =>
    rcases ih _ h with hx | ⟨j2, hj2, he⟩
    · unfold processOption at hx
      dsimp only at hx
      split at hx
      · exact Or.inl hx
      · rcases List.mem_append.mp hx with hx | hx
        · exact Or.inl hx
        · exact Or.inr ⟨j, List.mem_cons_self j rest, List.mem_singleton.mp hx⟩
    · exact Or.inr ⟨j2, List.mem_cons_of_mem j hj2, he⟩

/-- C4: Choice key stability under option growth.  One raw document holds a
single choice node; the re-extracted document `r2` holds the same node with
one option appended, its owner, inferred choice type, level and label
unchanged.  Starting from an empty choice state, the second `load_choices`
pass recomputes the same stable source key, creates no `ChoiceGroup`,
creates exactly one `ChoiceOption`, and appends it to the group the first
pass created. -/
theorem choice_key_stability
    (sid nid : Nat) (classes features : List (String × Owner))
    (r r2 : RawEntity) (owner : Owner) (n n2 o : Json) (cn cn2 : Int)
    (hraws : choicesRawsOf (⟨sid, classes, features, [r]⟩ : ChoicesCtx) = [r])
    (hraws2 : choicesRawsOf (⟨sid, classes, features, [r2]⟩ : ChoicesCtx) = [r2])
    (hown : ownerFor (⟨sid, classes, features, [r]⟩ : ChoicesCtx) r = some owner)
    (hown2 : ownerFor (⟨sid, classes, features, [r2]⟩ : ChoicesCtx) r2 = some owner)
    (het : r2.entity_type = r.entity_type)
    (hnodes : _collect_choice_nodes (payloadOf r) = [n])
    (hnodes2 : _collect_choice_nodes (payloadOf r2) = [n2])
    (hcn : chooseNOf n = some cn) (hcn2 : chooseNOf n2 = some cn2)
    (hopts : _extract_options n2 = _extract_options n ++ [o])
    (hct : choiceCtypeOf n2 owner = choiceCtypeOf n owner)
    (hlv : levelOf n2 (payloadOf r2) owner = levelOf n (payloadOf r) owner)
    (hlb : _choice_label n2 = _choice_label n)
    (hnew : optionIdentOf (choiceCtypeOf n owner) o
        ∉ (_extract_options n).map (optionIdentOf (choiceCtypeOf n owner))) :
    choiceSkeyOf r2.entity_type owner (payloadOf r2) n2
        = choiceSkeyOf r.entity_type owner (payloadOf r) n ∧
    (load_choices (⟨sid, classes, features, [r]⟩ : ChoicesCtx) (⟨[], [], nid⟩ : ChoiceState)).1.groups = [newGroupOf sid r.entity_type owner (payloadOf r) n cn nid] ∧
    (load_choices (⟨sid, classes, features, [r2]⟩ : ChoicesCtx) (load_choices (⟨sid, classes, features, [r]⟩ : ChoicesCtx) (⟨[], [], nid⟩ : ChoiceState)).1).2
      = ⟨0, 1, (optionFidMiss features (choiceCtypeOf n owner) o).2⟩ ∧
    (load_choices (⟨sid, classes, features, [r2]⟩ : ChoicesCtx) (load_choices (⟨sid, classes, features, [r]⟩ : ChoicesCtx) (⟨[], [], nid⟩ : ChoiceState)).1).1.groups = (load_choices (⟨sid, classes, features, [r]⟩ : ChoicesCtx) (⟨[], [], nid⟩ : ChoiceState)).1.groups ∧
    (load_choices (⟨sid, classes, features, [r2]⟩ : ChoicesCtx) (load_choices (⟨sid, classes, features, [r]⟩ : ChoicesCtx) (⟨[], [], nid⟩ : ChoiceState)).1).1.options
      = (load_choices (⟨sid, classes, features, [r]⟩ : ChoicesCtx) (⟨[], [], nid⟩ : ChoiceState)).1.options ++ [optionRowOf features nid (choiceCtypeOf n owner) o] := by
  have hskey : choiceSkeyOf r2.entity_type owner (payloadOf r2) n2
      = choiceSkeyOf r.entity_type owner (payloadOf r) n := by
    unfold choiceSkeyOf
    rw [het, hct, hlv, hlb]
  have hgkey : choiceGKeyOf sid r2.entity_type owner (payloadOf r2) n2 = choiceGKeyOf sid r.entity_type owner (payloadOf r) n := by
    unfold choiceGKeyOf
    rw [hskey, het, hct, hlv]
  have hacc1 : (choicesRawsOf (⟨sid, classes, features, [r]⟩ : ChoicesCtx)).foldl (processRaw (⟨sid, classes, features, [r]⟩ : ChoicesCtx))
      (seedAcc (⟨sid, classes, features, [r]⟩ : ChoicesCtx) (⟨[], [], nid⟩ : ChoiceState)) = ((_extract_options n).foldl (processOption features (newGroupOf sid r.entity_type owner (payloadOf r) n cn nid) (choiceCtypeOf n owner)) (⟨[(choiceGKeyOf sid r.entity_type owner (payloadOf r) n, newGroupOf sid r.entity_type owner (payloadOf r) n cn nid)], [], [newGroupOf sid r.entity_type owner (payloadOf r) n cn nid], [], nid + 1, 1, 0, 0⟩ : ChoicesAcc)) := by
    rw [hraws]
    show processRaw (⟨sid, classes, features, [r]⟩ : ChoicesCtx) (seedAcc (⟨sid, classes, features, [r]⟩ : ChoicesCtx) (⟨[], [], nid⟩ : ChoiceState)) r = ((_extract_options n).foldl (processOption features (newGroupOf sid r.entity_type owner (payloadOf r) n cn nid) (choiceCtypeOf n owner)) (⟨[(choiceGKeyOf sid r.entity_type owner (payloadOf r) n, newGroupOf sid r.entity_type owner (payloadOf r) n cn nid)], [], [newGroupOf sid r.entity_type owner (payloadOf r) n cn nid], [], nid + 1, 1, 0, 0⟩ : ChoicesAcc))
    rw [processRaw_eq_of_owner (⟨sid, classes, features, [r]⟩ : ChoicesCtx) _ r owner hown, hnodes]
    show processChoice (⟨sid, classes, features, [r]⟩ : ChoicesCtx) r.entity_type owner (payloadOf r)
      (seedAcc (⟨sid, classes, features, [r]⟩ : ChoicesCtx) (⟨[], [], nid⟩ : ChoiceState)) n = ((_extract_options n).foldl (processOption features (newGroupOf sid r.entity_type owner (payloadOf r) n cn nid) (choiceCtypeOf n owner)) (⟨[(choiceGKeyOf sid r.entity_type owner (payloadOf r) n, newGroupOf sid r.entity_type owner (payloadOf r) n cn nid)], [], [newGroupOf sid r.entity_type owner (payloadOf r) n cn nid], [], nid + 1, 1, 0, 0⟩ : ChoicesAcc))
    rw [processChoice_create (⟨sid, classes, features, [r]⟩ : ChoicesCtx) r.entity_type owner (payloadOf r) (seedAcc (⟨sid, classes, features, [r]⟩ : ChoicesCtx) (⟨[], [], nid⟩ : ChoiceState)) n cn hcn rfl]
    rfl
  have hframe := foldOptions_frame features (newGroupOf sid r.entity_type owner (payloadOf r) n cn nid) (choiceCtypeOf n owner) (_extract_options n) (⟨[(choiceGKeyOf sid r.entity_type owner (payloadOf r) n, newGroupOf sid r.entity_type owner (payloadOf r) n cn nid)], [], [newGroupOf sid r.entity_type owner (payloadOf r) n cn nid], [], nid + 1, 1, 0, 0⟩ : ChoicesAcc)
  have hgroupsF : ((_extract_options n).foldl (processOption features (newGroupOf sid r.entity_type owner (payloadOf r) n cn nid) (choiceCtypeOf n owner)) (⟨[(choiceGKeyOf sid r.entity_type owner (payloadOf r) n, newGroupOf sid r.entity_type owner (payloadOf r) n cn nid)], [], [newGroupOf sid r.entity_type owner (payloadOf r) n cn nid], [], nid + 1, 1, 0, 0⟩ : ChoicesAcc)).groups = [newGroupOf sid r.entity_type owner (payloadOf r) n cn nid] := hframe.2.1
  have hlookF : ((_extract_options n).foldl (processOption features (newGroupOf sid r.entity_type owner (payloadOf r) n cn nid) (choiceCtypeOf n owner)) (⟨[(choiceGKeyOf sid r.entity_type owner (payloadOf r) n, newGroupOf sid r.entity_type owner (payloadOf r) n cn nid)], [], [newGroupOf sid r.entity_type owner (payloadOf r) n cn nid], [], nid + 1, 1, 0, 0⟩ : ChoicesAcc)).lookup = [(choiceGKeyOf sid r.entity_type owner (payloadOf r) n, newGroupOf sid r.entity_type owner (payloadOf r) n cn nid)] := hframe.1
  have hinv1 : ChoicesInv sid ((_extract_options n).foldl (processOption features (newGroupOf sid r.entity_type owner (payloadOf r) n cn nid) (choiceCtypeOf n owner)) (⟨[(choiceGKeyOf sid r.entity_type owner (payloadOf r) n, newGroupOf sid r.entity_type owner (payloadOf r) n cn nid)], [], [newGroupOf sid r.entity_type owner (payloadOf r) n cn nid], [], nid + 1, 1, 0, 0⟩ : ChoicesAcc)) := by
    rw [← hacc1]
    exact foldRaws_inv (⟨sid, classes, features, [r]⟩ : ChoicesCtx) _ _ (seedAcc_inv (⟨sid, classes, features, [r]⟩ : ChoicesCtx) (⟨[], [], nid⟩ : ChoiceState)
      ⟨fun x hx => absurd hx (List.not_mem_nil x), fun x hx => absurd hx (List.not_mem_nil x)⟩)
  have hst1 : (load_choices (⟨sid, classes, features, [r]⟩ : ChoicesCtx) (⟨[], [], nid⟩ : ChoiceState)).1 = ⟨((_extract_options n).foldl (processOption features (newGroupOf sid r.entity_type owner (payloadOf r) n cn nid) (choiceCtypeOf n owner)) (⟨[(choiceGKeyOf sid r.entity_type owner (payloadOf r) n, newGroupOf sid r.entity_type owner (payloadOf r) n cn nid)], [], [newGroupOf sid r.entity_type owner (payloadOf r) n cn nid], [], nid + 1, 1, 0, 0⟩ : ChoicesAcc)).groups, ((_extract_options n).foldl (processOption features (newGroupOf sid r.entity_type owner (payloadOf r) n cn nid) (choiceCtypeOf n owner)) (⟨[(choiceGKeyOf sid r.entity_type owner (payloadOf r) n, newGroupOf sid r.entity_type owner (payloadOf r) n cn nid)], [], [newGroupOf sid r.entity_type owner (payloadOf r) n cn nid], [], nid + 1, 1, 0, 0⟩ : ChoicesAcc)).options, ((_extract_options n).foldl (processOption features (newGroupOf sid r.entity_type owner (payloadOf r) n cn nid) (choiceCtypeOf n owner)) (⟨[(choiceGKeyOf sid r.entity_type owner (payloadOf r) n, newGroupOf sid r.entity_type owner (payloadOf r) n cn nid)], [], [newGroupOf sid r.entity_type owner (payloadOf r) n cn nid], [], nid + 1, 1, 0, 0⟩ : ChoicesAcc)).nextId⟩ := by
    rw [load_choices_unfold (⟨sid, classes, features, [r]⟩ : ChoicesCtx) (⟨[], [], nid⟩ : ChoiceState), hacc1]
  have hseed2look : (seedAcc (⟨sid, classes, features, [r2]⟩ : ChoicesCtx) (load_choices (⟨sid, classes, features, [r]⟩ : ChoicesCtx) (⟨[], [], nid⟩ : ChoiceState)).1).lookup = [(choiceGKeyOf sid r.entity_type owner (payloadOf r) n, newGroupOf sid r.entity_type owner (payloadOf r) n cn nid)] := by
    show lookupOfGroups sid (load_choices (⟨sid, classes, features, [r]⟩ : ChoicesCtx) (⟨[], [], nid⟩ : ChoiceState)).1.groups = [(choiceGKeyOf sid r.entity_type owner (payloadOf r) n, newGroupOf sid r.entity_type owner (payloadOf r) n cn nid)]
    rw [hst1]
    show lookupOfGroups sid ((_extract_options n).foldl (processOption features (newGroupOf sid r.entity_type owner (payloadOf r) n cn nid) (choiceCtypeOf n owner)) (⟨[(choiceGKeyOf sid r.entity_type owner (payloadOf r) n, newGroupOf sid r.entity_type owner (payloadOf r) n cn nid)], [], [newGroupOf sid r.entity_type owner (payloadOf r) n cn nid], [], nid + 1, 1, 0, 0⟩ : ChoicesAcc)).groups = [(choiceGKeyOf sid r.entity_type owner (payloadOf r) n, newGroupOf sid r.entity_type owner (payloadOf r) n cn nid)]
    rw [← hinv1.1]
    exact hlookF
  have hseed2okeys : (seedAcc (⟨sid, classes, features, [r2]⟩ : ChoicesCtx) (load_choices (⟨sid, classes, features, [r]⟩ : ChoicesCtx) (⟨[], [], nid⟩ : ChoiceState)).1).okeys = ((_extract_options n).foldl (processOption features (newGroupOf sid r.entity_type owner (payloadOf r) n cn nid) (choiceCtypeOf n owner)) (⟨[(choiceGKeyOf sid r.entity_type owner (payloadOf r) n, newGroupOf sid r.entity_type owner (payloadOf r) n cn nid)], [], [newGroupOf sid r.entity_type owner (payloadOf r) n cn nid], [], nid + 1, 1, 0, 0⟩ : ChoicesAcc)).okeys := by
    show okeysOfState sid (load_choices (⟨sid, classes, features, [r]⟩ : ChoicesCtx) (⟨[], [], nid⟩ : ChoiceState)).1.options (load_choices (⟨sid, classes, features, [r]⟩ : ChoicesCtx) (⟨[], [], nid⟩ : ChoiceState)).1.groups = ((_extract_options n).foldl (processOption features (newGroupOf sid r.entity_type owner (payloadOf r) n cn nid) (choiceCtypeOf n owner)) (⟨[(choiceGKeyOf sid r.entity_type owner (payloadOf r) n, newGroupOf sid r.entity_type owner (payloadOf r) n cn nid)], [], [newGroupOf sid r.entity_type owner (payloadOf r) n cn nid], [], nid + 1, 1, 0, 0⟩ : ChoicesAcc)).okeys
    rw [hst1]
    show okeysOfState sid ((_extract_options n).foldl (processOption features (newGroupOf sid r.entity_type owner (payloadOf r) n cn nid) (choiceCtypeOf n owner)) (⟨[(choiceGKeyOf sid r.entity_type owner (payloadOf r) n, newGroupOf sid r.entity_type owner (payloadOf r) n cn nid)], [], [newGroupOf sid r.entity_type owner (payloadOf r) n cn nid], [], nid + 1, 1, 0, 0⟩ : ChoicesAcc)).options ((_extract_options n).foldl (processOption features (newGroupOf sid r.entity_type owner (payloadOf r) n cn nid) (choiceCtypeOf n owner)) (⟨[(choiceGKeyOf sid r.entity_type owner (payloadOf r) n, newGroupOf sid r.entity_type owner (payloadOf r) n cn nid)], [], [newGroupOf sid r.entity_type owner (payloadOf r) n cn nid], [], nid + 1, 1, 0, 0⟩ : ChoicesAcc)).groups = ((_extract_options n).foldl (processOption features (newGroupOf sid r.entity_type owner (payloadOf r) n cn nid) (choiceCtypeOf n owner)) (⟨[(choiceGKeyOf sid r.entity_type owner (payloadOf r) n, newGroupOf sid r.entity_type owner (payloadOf r) n cn nid)], [], [newGroupOf sid r.entity_type owner (payloadOf r) n cn nid], [], nid + 1, 1, 0, 0⟩ : ChoicesAcc)).okeys
    exact hinv1.2.1.symm
  have hfound : dlookup (seedAcc (⟨sid, classes, features, [r2]⟩ : ChoicesCtx) (load_choices (⟨sid, classes, features, [r]⟩ : ChoicesCtx) (⟨[], [], nid⟩ : ChoiceState)).1).lookup
      (choiceGKeyOf (⟨sid, classes, features, [r2]⟩ : ChoicesCtx).source_id r2.entity_type owner (payloadOf r2) n2)
      = some (newGroupOf sid r.entity_type owner (payloadOf r) n cn nid) := by
    rw [hseed2look]
    show dlookup [(choiceGKeyOf sid r.entity_type owner (payloadOf r) n, newGroupOf sid r.entity_type owner (payloadOf r) n cn nid)] (choiceGKeyOf sid r2.entity_type owner (payloadOf r2) n2)
      = some (newGroupOf sid r.entity_type owner (payloadOf r) n cn nid)
    rw [hgkey]
    simp [dlookup]
  have hnoop : (_extract_options n).foldl (processOption features (newGroupOf sid r.entity_type owner (payloadOf r) n cn nid) (choiceCtypeOf n owner))
      (seedAcc (⟨sid, classes, features, [r2]⟩ : ChoicesCtx) (load_choices (⟨sid, classes, features, [r]⟩ : ChoicesCtx) (⟨[], [], nid⟩ : ChoiceState)).1) = (seedAcc (⟨sid, classes, features, [r2]⟩ : ChoicesCtx) (load_choices (⟨sid, classes, features, [r]⟩ : ChoicesCtx) (⟨[], [], nid⟩ : ChoiceState)).1) := by
    apply foldOptions_noop
    intro j hj
    rw [hseed2okeys]
    exact foldOptions_captures features (newGroupOf sid r.entity_type owner (payloadOf r) n cn nid) (choiceCtypeOf n owner) (_extract_options n) (⟨[(choiceGKeyOf sid r.entity_type owner (payloadOf r) n, newGroupOf sid r.entity_type owner (payloadOf r) n cn nid)], [], [newGroupOf sid r.entity_type owner (payloadOf r) n cn nid], [], nid + 1, 1, 0, 0⟩ : ChoicesAcc) j hj
  have hacc2 : (choicesRawsOf (⟨sid, classes, features, [r2]⟩ : ChoicesCtx)).foldl (processRaw (⟨sid, classes, features, [r2]⟩ : ChoicesCtx)) (seedAcc (⟨sid, classes, features, [r2]⟩ : ChoicesCtx) (load_choices (⟨sid, classes, features, [r]⟩ : ChoicesCtx) (⟨[], [], nid⟩ : ChoiceState)).1)
      = processOption features (newGroupOf sid r.entity_type owner (payloadOf r) n cn nid) (choiceCtypeOf n owner) (seedAcc (⟨sid, classes, features, [r2]⟩ : ChoicesCtx) (load_choices (⟨sid, classes, features, [r]⟩ : ChoicesCtx) (⟨[], [], nid⟩ : ChoiceState)).1) o := by
    rw [hraws2]
    show processRaw (⟨sid, classes, features, [r2]⟩ : ChoicesCtx) (seedAcc (⟨sid, classes, features, [r2]⟩ : ChoicesCtx) (load_choices (⟨sid, classes, features, [r]⟩ : ChoicesCtx) (⟨[], [], nid⟩ : ChoiceState)).1) r2 = _
    rw [processRaw_eq_of_owner (⟨sid, classes, features, [r2]⟩ : ChoicesCtx) _ r2 owner hown2, hnodes2]
    show processChoice (⟨sid, classes, features, [r2]⟩ : ChoicesCtx) r2.entity_type owner (payloadOf r2) (seedAcc (⟨sid, classes, features, [r2]⟩ : ChoicesCtx) (load_choices (⟨sid, classes, features, [r]⟩ : ChoicesCtx) (⟨[], [], nid⟩ : ChoiceState)).1) n2 = _
    rw [processChoice_found (⟨sid, classes, features, [r2]⟩ : ChoicesCtx) r2.entity_type owner (payloadOf r2) _ n2 cn2 (newGroupOf sid r.entity_type owner (payloadOf r) n cn nid)
      hcn2 hfound]
    rw [hopts, hct]
    show (_extract_options n ++ [o]).foldl (processOption features (newGroupOf sid r.entity_type owner (payloadOf r) n cn nid) (choiceCtypeOf n owner))
      (seedAcc (⟨sid, classes, features, [r2]⟩ : ChoicesCtx) (load_choices (⟨sid, classes, features, [r]⟩ : ChoicesCtx) (⟨[], [], nid⟩ : ChoiceState)).1) = processOption features (newGroupOf sid r.entity_type owner (payloadOf r) n cn nid) (choiceCtypeOf n owner) (seedAcc (⟨sid, classes, features, [r2]⟩ : ChoicesCtx) (load_choices (⟨sid, classes, features, [r]⟩ : ChoicesCtx) (⟨[], [], nid⟩ : ChoiceState)).1) o
    rw [List.foldl_append, hnoop]
    rfl
  have hnotin : optionKeyFor (newGroupOf sid r.entity_type owner (payloadOf r) n cn nid) (choiceCtypeOf n owner) o ∉ (seedAcc (⟨sid, classes, features, [r2]⟩ : ChoicesCtx) (load_choices (⟨sid, classes, features, [r]⟩ : ChoicesCtx) (⟨[], [], nid⟩ : ChoiceState)).1).okeys := by
    rw [hseed2okeys]
    intro hmem
    rcases foldOptions_okeys_subset features (newGroupOf sid r.entity_type owner (payloadOf r) n cn nid) (choiceCtypeOf n owner) (_extract_options n)
      (⟨[(choiceGKeyOf sid r.entity_type owner (payloadOf r) n, newGroupOf sid r.entity_type owner (payloadOf r) n cn nid)], [], [newGroupOf sid r.entity_type owner (payloadOf r) n cn nid], [], nid + 1, 1, 0, 0⟩ : ChoicesAcc) hmem with hx | ⟨j, hj, he⟩
    · exact absurd hx (List.not_mem_nil _)
    · have hident : optionIdentOf (choiceCtypeOf n owner) o = optionIdentOf (choiceCtypeOf n owner) j :=
        congrArg Prod.snd he
      exact hnew (by rw [hident]; exact List.mem_map_of_mem (optionIdentOf (choiceCtypeOf n owner)) hj)
  have hrun2 : (choicesRawsOf (⟨sid, classes, features, [r2]⟩ : ChoicesCtx)).foldl (processRaw (⟨sid, classes, features, [r2]⟩ : ChoicesCtx)) (seedAcc (⟨sid, classes, features, [r2]⟩ : ChoicesCtx) (load_choices (⟨sid, classes, features, [r]⟩ : ChoicesCtx) (⟨[], [], nid⟩ : ChoiceState)).1)
      = { (seedAcc (⟨sid, classes, features, [r2]⟩ : ChoicesCtx) (load_choices (⟨sid, classes, features, [r]⟩ : ChoicesCtx) (⟨[], [], nid⟩ : ChoiceState)).1) with
          okeys := (seedAcc (⟨sid, classes, features, [r2]⟩ : ChoicesCtx) (load_choices (⟨sid, classes, features, [r]⟩ : ChoicesCtx) (⟨[], [], nid⟩ : ChoiceState)).1).okeys ++ [optionKeyFor (newGroupOf sid r.entity_type owner (payloadOf r) n cn nid) (choiceCtypeOf n owner) o]
          options := (seedAcc (⟨sid, classes, features, [r2]⟩ : ChoicesCtx) (load_choices (⟨sid, classes, features, [r]⟩ : ChoicesCtx) (⟨[], [], nid⟩ : ChoiceState)).1).options ++ [optionRowOf features (newGroupOf sid r.entity_type owner (payloadOf r) n cn nid).id (choiceCtypeOf n owner) o]
          oCreated := (seedAcc (⟨sid, classes, features, [r2]⟩ : ChoicesCtx) (load_choices (⟨sid, classes, features, [r]⟩ : ChoicesCtx) (⟨[], [], nid⟩ : ChoiceState)).1).oCreated + 1
          missing := (seedAcc (⟨sid, classes, features, [r2]⟩ : ChoicesCtx) (load_choices (⟨sid, classes, features, [r]⟩ : ChoicesCtx) (⟨[], [], nid⟩ : ChoiceState)).1).missing + (optionFidMiss features (choiceCtypeOf n owner) o).2 } := by
    rw [hacc2]
    exact processOption_creates features (newGroupOf sid r.entity_type owner (payloadOf r) n cn nid) (choiceCtypeOf n owner) (seedAcc (⟨sid, classes, features, [r2]⟩ : ChoicesCtx) (load_choices (⟨sid, classes, features, [r]⟩ : ChoicesCtx) (⟨[], [], nid⟩ : ChoiceState)).1) o hnotin
  refine ⟨hskey, ?_, ?_, ?_, ?_⟩
  · rw [hst1]
    exact hgroupsF
  · rw [load_choices_unfold (⟨sid, classes, features, [r2]⟩ : ChoicesCtx) (load_choices (⟨sid, classes, features, [r]⟩ : ChoicesCtx) (⟨[], [], nid⟩ : ChoiceState)).1, hrun2]
    show (⟨0, 0 + 1, 0 + (optionFidMiss features (choiceCtypeOf n owner) o).2⟩ : ChoicesSummary)
      = ⟨0, 1, (optionFidMiss features (choiceCtypeOf n owner) o).2⟩
    rw [Nat.zero_add, Nat.zero_add]
  · rw [load_choices_unfold (⟨sid, classes, features, [r2]⟩ : ChoicesCtx) (load_choices (⟨sid, classes, features, [r]⟩ : ChoicesCtx) (⟨[], [], nid⟩ : ChoiceState)).1, hrun2]
    rfl
  · rw [load_choices_unfold (⟨sid, classes, features, [r2]⟩ : ChoicesCtx) (load_choices (⟨sid, classes, features, [r]⟩ : ChoicesCtx) (⟨[], [], nid⟩ : ChoiceState)).1, hrun2]
    rfl

/-- Concrete fighting-style option documents for instantiating C4. -/
def c4archery : Json := Json.obj [("index", Json.str "archery"), ("name", Json.str "Archery")]

def c4defense : Json := Json.obj [("index", Json.str "defense"), ("name", Json.str "Defense")]

def c4dueling : Json := Json.obj [("index", Json.str "dueling"), ("name", Json.str "Dueling")]

def c4node : Json :=
  Json.obj [("choose", Json.num 1), ("type", Json.str "fighting-style"),
    ("from", Json.arr [c4archery, c4defense])]

def c4node2 : Json :=
  Json.obj [("choose", Json.num 1), ("type", Json.str "fighting-style"),
    ("from", Json.arr [c4archery, c4defense, c4dueling])]

def c4payload : Json :=
  Json.obj [("index", Json.str "fighter"), ("name", Json.str "Fighter"),
    ("choices", Json.arr [c4node])]

def c4payload2 : Json :=
  Json.obj [("index", Json.str "fighter"), ("name", Json.str "Fighter"),
    ("choices", Json.arr [c4node2])]

def c4owner : Owner := ⟨1, some "Fighter", "fighter", none⟩

def c4classes : List (String × Owner) := [("fighter", c4owner)]

def c4raw : RawEntity :=
  ⟨1, 1, "class", "fighter", some "Fighter", none, none, c4payload, "", 0, 0, 0⟩

def c4raw2 : RawEntity :=
  ⟨2, 1, "class", "fighter", some "Fighter", none, none, c4payload2, "", 0, 0, 0⟩

theorem choice_key_stability_witness :
    _extract_options c4node2 = _extract_options c4node ++ [c4dueling] ∧
    optionIdentOf (choiceCtypeOf c4node c4owner) c4dueling
        ∉ (_extract_options c4node).map (optionIdentOf (choiceCtypeOf c4node c4owner)) ∧
    (choiceSkeyOf c4raw2.entity_type c4owner (payloadOf c4raw2) c4node2
        = choiceSkeyOf c4raw.entity_type c4owner (payloadOf c4raw) c4node ∧
     (load_choices (⟨1, c4classes, [], [c4raw]⟩ : ChoicesCtx)
         (⟨[], [], 1⟩ : ChoiceState)).1.groups
        = [newGroupOf 1 c4raw.entity_type c4owner (payloadOf c4raw) c4node 1 1] ∧
     (load_choices (⟨1, c4classes, [], [c4raw2]⟩ : ChoicesCtx)
         (load_choices (⟨1, c4classes, [], [c4raw]⟩ : ChoicesCtx)
           (⟨[], [], 1⟩ : ChoiceState)).1).2
        = ⟨0, 1, (optionFidMiss [] (choiceCtypeOf c4node c4owner) c4dueling).2⟩ ∧
     (load_choices (⟨1, c4classes, [], [c4raw2]⟩ : ChoicesCtx)
         (load_choices (⟨1, c4classes, [], [c4raw]⟩ : ChoicesCtx)
           (⟨[], [], 1⟩ : ChoiceState)).1).1.groups
        = (load_choices (⟨1, c4classes, [], [c4raw]⟩ : ChoicesCtx)
           (⟨[], [], 1⟩ : ChoiceState)).1.groups ∧
     (load_choices (⟨1, c4classes, [], [c4raw2]⟩ : ChoicesCtx)
         (load_choices (⟨1, c4classes, [], [c4raw]⟩ : ChoicesCtx)
           (⟨[], [], 1⟩ : ChoiceState)).1).1.options
        = (load_choices (⟨1, c4classes, [], [c4raw]⟩ : ChoicesCtx)
           (⟨[], [], 1⟩ : ChoiceState)).1.options
          ++ [optionRowOf [] 1 (choiceCtypeOf c4node c4owner) c4dueling]) :=
  ⟨rfl, by decide,
   choice_key_stability 1 1 c4classes [] c4raw c4raw2 c4owner c4node c4node2 c4dueling 1 1
     rfl rfl rfl rfl rfl rfl rfl rfl rfl rfl rfl rfl rfl (by decide)⟩

/-! ## Snapshots (snapshots.py) -/

/-- A normalized entity row as the snapshot queries see it. -/
structure EntityRow where
  source_id : Nat
  source_key : String
  raw_entity_id : Option Nat
deriving DecidableEq

/-- A `Spell` row: the snapshot query selects only `(source_key,
raw_entity_id)`, but the table also stores the level. -/
structure SpellRow where
  source_id : Nat
  source_key : String
  raw_entity_id : Option Nat
  level : Option Int
deriving DecidableEq

/-- The tables `create_snapshot` reads. -/
structure SnapDB where
  raws : List RawEntity
  spells : List SpellRow
  classes : List EntityRow
  subclasses : List EntityRow
  features : List EntityRow
  items : List EntityRow
  conditions : List EntityRow
  monsters : List EntityRow
  class_features : List ClassFeatureLinkRow
  subclass_features : List SubclassFeatureLinkRow
  spell_classes : List SpellClassLinkRow
  choice_groups : List ChoiceGroupRow
  choice_options : List ChoiceOptionRow
  prereqs : List PrereqRow
  grant_profs : List GrantProficiencyRow
  grant_spells : List GrantSpellRow
  grant_feats : List GrantFeatureRow

/-- An `ImportSnapshot`'s decoded `counts_json` / `hashes_json` dictionaries. -/
structure Snapshot where
  counts : List (String × Nat)
  hashes : List (String × String)
deriving DecidableEq

def strLeB (a b : String) : Bool := lexLeChars a.data b.data

/-- Insertion sort by a boolean comparison; models `ORDER BY` (deterministic
and stable on ties, which `ORDER BY` leaves unspecified). -/
def insertLe {α : Type} (le : α → α → Bool) (x : α) : List α → List α
  | [] => [x]
  | y :: ys => if le x y then x :: y :: ys else y :: insertLe le x ys

def sortLe {α : Type} (le : α → α → Bool) : List α → List α
  | [] => []
  | x :: xs => insertLe le x (sortLe le xs)

def jsonOfOptNat : Option Nat → Json
  | none => Json.null
  | some k => Json.num k

def jsonOfOptInt : Option Int → Json
  | none => Json.null
  | some i => Json.num i

/-- `json.dumps(row, default=str)` of one selected row (scalars only). -/
def dumpsRow (row : List Json) : String :=
  "[" ++ String.intercalate ", " (row.map canonicalSerialize) ++ "]"

/-- `json.dumps(normalized, sort_keys=True, default=str)` of the row list
(`sort_keys` is inert: the value holds no dict). -/
def dumpsRows (rows : List (List Json)) : String :=
  "[" ++ String.intercalate ", " (rows.map dumpsRow) ++ "]"

/-- `_hash_rows`. -/
def _hash_rows (rows : List (List Json)) : String := sha256hex (dumpsRows rows)

/-- `select(RawEntity.source_key, RawEntity.raw_hash) ... order_by(source_key)`. -/
def rawSnapRows (rows : List RawEntity) (sid : Nat) : List (List Json) :=
  (sortLe (fun a b => strLeB a.1 b.1)
    ((rows.filter (fun r => r.source_id == sid)).map (fun r => (r.source_key, r.raw_hash)))).map
    (fun t => [Json.str t.1, Json.str t.2])

/-- `_raw_hashes`' query: the same projection restricted to one entity type. -/
def rawTypeSnapRows (rows : List RawEntity) (sid : Nat) (et : String) : List (List Json) :=
  (sortLe (fun a b => strLeB a.1 b.1)
    ((rows.filter (fun r => r.source_id == sid && r.entity_type == et)).map
      (fun r => (r.source_key, r.raw_hash)))).map
    (fun t => [Json.str t.1, Json.str t.2])

/-- `select(source_key, raw_entity_id) ... order_by(source_key)`. -/
def entitySnapRows (rows : List EntityRow) (sid : Nat) : List (List Json) :=
  (sortLe (fun a b => strLeB a.1 b.1)
    ((rows.filter (fun r => r.source_id == sid)).map
      (fun r => (r.source_key, r.raw_entity_id)))).map
    (fun t => [Json.str t.1, jsonOfOptNat t.2])

/-- The spells hash selects `(source_key, raw_entity_id)` only — the level
column is not part of the hashed projection. -/
def spellSnapRows (rows : List SpellRow) (sid : Nat) : List (List Json) :=
  (sortLe (fun a b => strLeB a.1 b.1)
    ((rows.filter (fun r => r.source_id == sid)).map
      (fun r => (r.source_key, r.raw_entity_id)))).map
    (fun t => [Json.str t.1, jsonOfOptNat t.2])

def classFeatureSnapRows (rows : List ClassFeatureLinkRow) (sid : Nat) : List (List Json) :=
  (sortLe (fun a b => if a.1 == b.1 then Nat.ble a.2.1 b.2.1 else Nat.ble a.1 b.1)
    ((rows.filter (fun r => r.source_id == sid)).map
      (fun r => (r.class_id, r.feature_id, r.level)))).map
    (fun t => [Json.num t.1, Json.num t.2.1, jsonOfOptInt t.2.2])

def subclassFeatureSnapRows (rows : List SubclassFeatureLinkRow) (sid : Nat) :
    List (List Json) :=
  (sortLe (fun a b => if a.1 == b.1 then Nat.ble a.2.1 b.2.1 else Nat.ble a.1 b.1)
    ((rows.filter (fun r => r.source_id == sid)).map
      (fun r => (r.subclass_id, r.feature_id, r.level)))).map
    (fun t => [Json.num t.1, Json.num t.2.1, jsonOfOptInt t.2.2])

def spellClassSnapRows (rows : List SpellClassLinkRow) (sid : Nat) : List (List Json) :=
  (sortLe (fun a b => if a.1 == b.1 then Nat.ble a.2 b.2 else Nat.ble a.1 b.1)
    ((rows.filter (fun r => r.source_id == sid)).map
      (fun r => (r.class_id, r.spell_id)))).map
    (fun t => [Json.num t.1, Json.num t.2])

def choiceGroupSnapRows (rows : List ChoiceGroupRow) (sid : Nat) : List (List Json) :=
  (sortLe (fun a b => strLeB a.1 b.1)
    ((rows.filter (fun r => r.source_id == sid)).map
      (fun r => (r.source_key, r.choice_type, r.level)))).map
    (fun t => [Json.str t.1, Json.str t.2.1, jsonOfOptInt t.2.2])

def choiceOptionSnapRows (opts : List ChoiceOptionRow) (gs : List ChoiceGroupRow)
    (sid : Nat) : List (List Json) :=
  (sortLe (fun a b => if a.1 == b.1 then strLeB a.2.2.2 b.2.2.2 else Nat.ble a.1 b.1)
    ((opts.filter (fun o =>
        gs.any (fun g => g.id == o.choice_group_id && g.source_id == sid))).map
      (fun o => (o.choice_group_id, o.option_type, o.option_source_key, o.label)))).map
    (fun t => [Json.num t.1, Json.str t.2.1, Json.str t.2.2.1, Json.str t.2.2.2])

def prereqSnapRows (rows : List PrereqRow) : List (List Json) :=
  (sortLe (fun a b =>
      if a.1 == b.1 then
        if a.2.1 == b.2.1 then strLeB a.2.2.1 b.2.2.1 else Nat.ble a.2.1 b.2.1
      else strLeB a.1 b.1)
    (rows.map (fun r =>
      (r.applies_to_type, r.applies_to_id, r.prereq_type, r.key, r.operator, r.value)))).map
    (fun t => [Json.str t.1, Json.num t.2.1, Json.str t.2.2.1, Json.str t.2.2.2.1,
      Json.str t.2.2.2.2.1, Json.str t.2.2.2.2.2])

def grantProfSnapRows (rows : List GrantProficiencyRow) (sid : Nat) : List (List Json) :=
  (sortLe (fun a b => if a.1 == b.1 then strLeB a.2.2.2.1 b.2.2.2.1 else strLeB a.1 b.1)
    ((rows.filter (fun r => r.source_id == sid)).map
      (fun r => (r.owner_type, r.owner_id, r.proficiency_type, r.proficiency_key, r.label)))).map
    (fun t => [Json.str t.1, Json.num t.2.1, Json.str t.2.2.1, Json.str t.2.2.2.1,
      Json.str t.2.2.2.2])

def grantSpellSnapRows (rows : List GrantSpellRow) (sid : Nat) : List (List Json) :=
  (sortLe (fun a b => if a.1 == b.1 then strLeB a.2.2.1 b.2.2.1 else strLeB a.1 b.1)
    ((rows.filter (fun r => r.source_id == sid)).map
      (fun r => (r.owner_type, r.owner_id, r.spell_source_key, r.label)))).map
    (fun t => [Json.str t.1, Json.num t.2.1, Json.str t.2.2.1, Json.str t.2.2.2])

def grantFeatureSnapRows (rows : List GrantFeatureRow) (sid : Nat) : List (List Json) :=
  (sortLe (fun a b => if a.1 == b.1 then strLeB a.2.2.1 b.2.2.1 else strLeB a.1 b.1)
    ((rows.filter (fun r => r.source_id == sid)).map
      (fun r => (r.owner_type, r.owner_id, r.feature_source_key, r.label)))).map
    (fun t => [Json.str t.1, Json.num t.2.1, Json.str t.2.2.1, Json.str t.2.2.2])

/-- `create_snapshot` (snapshots.py): the decoded counts and hashes
dictionaries, entries in the source's insertion order. -/
def create_snapshot (d : SnapDB) (sid : Nat) : Snapshot :=
  { counts := [
      ("raw_entities", (d.raws.filter (fun r => r.source_id == sid)).length),
      ("spells", (d.spells.filter (fun r => r.source_id == sid)).length),
      ("classes", (d.classes.filter (fun r => r.source_id == sid)).length),
      ("subclasses", (d.subclasses.filter (fun r => r.source_id == sid)).length),
      ("features", (d.features.filter (fun r => r.source_id == sid)).length),
      ("class_features", (d.class_features.filter (fun r => r.source_id == sid)).length),
      ("subclass_features",
        (d.subclass_features.filter (fun r => r.source_id == sid)).length),
      ("spell_classes", (d.spell_classes.filter (fun r => r.source_id == sid)).length),
      ("choice_groups", (d.choice_groups.filter (fun r => r.source_id == sid)).length),
      ("choice_options", (d.choice_options.filter (fun o =>
        d.choice_groups.any (fun g => g.id == o.choice_group_id && g.source_id == sid))).length),
      ("prerequisites", d.prereqs.length),
      ("grant_proficiencies", (d.grant_profs.filter (fun r => r.source_id == sid)).length),
      ("grant_spells", (d.grant_spells.filter (fun r => r.source_id == sid)).length),
      ("grant_features", (d.grant_feats.filter (fun r => r.source_id == sid)).length),
      ("items", (d.items.filter (fun r => r.source_id == sid)).length),
      ("conditions", (d.conditions.filter (fun r => r.source_id == sid)).length),
      ("monsters", (d.monsters.filter (fun r => r.source_id == sid)).length)]
    hashes := [
      ("raw_entities", _hash_rows (rawSnapRows d.raws sid)),
      ("raw_entities_spell", _hash_rows (rawTypeSnapRows d.raws sid "spell")),
      ("raw_entities_class", _hash_rows (rawTypeSnapRows d.raws sid "class")),
      ("raw_entities_subclass", _hash_rows (rawTypeSnapRows d.raws sid "subclass")),
      ("raw_entities_feature", _hash_rows (rawTypeSnapRows d.raws sid "feature")),
      ("raw_entities_equipment", _hash_rows (rawTypeSnapRows d.raws sid "equipment")),
      ("raw_entities_condition", _hash_rows (rawTypeSnapRows d.raws sid "condition")),
      ("raw_entities_monster", _hash_rows (rawTypeSnapRows d.raws sid "monster")),
      ("spells", _hash_rows (spellSnapRows d.spells sid)),
      ("classes", _hash_rows (entitySnapRows d.classes sid)),
      ("subclasses", _hash_rows (entitySnapRows d.subclasses sid)),
      ("features", _hash_rows (entitySnapRows d.features sid)),
      ("items", _hash_rows (entitySnapRows d.items sid)),
      ("conditions", _hash_rows (entitySnapRows d.conditions sid)),
      ("monsters", _hash_rows (entitySnapRows d.monsters sid)),
      ("class_features", _hash_rows (classFeatureSnapRows d.class_features sid)),
      ("subclass_features", _hash_rows (subclassFeatureSnapRows d.subclass_features sid)),
      ("spell_classes", _hash_rows (spellClassSnapRows d.spell_classes sid)),
      ("choice_groups", _hash_rows (choiceGroupSnapRows d.choice_groups sid)),
      ("choice_options",
        _hash_rows (choiceOptionSnapRows d.choice_options d.choice_groups sid)),
      ("prerequisites", _hash_rows (prereqSnapRows d.prereqs)),
      ("grant_proficiencies", _hash_rows (grantProfSnapRows d.grant_profs sid)),
      ("grant_spells", _hash_rows (grantSpellSnapRows d.grant_spells sid)),
      ("grant_features", _hash_rows (grantFeatureSnapRows d.grant_feats sid))] }

/-- `sorted(set(keys))`: insert into a sorted, duplicate-free list. -/
def insertKeyUnique (x : String) : List String → List String
  | [] => [x]
  | y :: ys => if x = y then y :: ys else if strLeB x y then x :: y :: ys
    else y :: insertKeyUnique x ys

def sortedKeyUnion (ks : List String) : List String := ks.foldr insertKeyUnique []

/-- `diff_snapshots` (snapshots.py): count changes over the sorted key union,
then hash changes over the sorted key union, else a fixed sentinel. -/
def diff_snapshots (older : Option Snapshot) (newer : Snapshot) : List String :=
  match older with
  | none => ["No previous snapshot found."]
  | some old =>
    let countChanges :=
      (sortedKeyUnion (old.counts.map Prod.fst ++ newer.counts.map Prod.fst)).filterMap
        (fun k =>
          if (dlookup old.counts k).getD 0 = (dlookup newer.counts k).getD 0 then none
          else some ("Count " ++ k ++ ": " ++ toString ((dlookup old.counts k).getD 0)
            ++ " -> " ++ toString ((dlookup newer.counts k).getD 0)))
    let hashChanges :=
      (sortedKeyUnion (old.hashes.map Prod.fst ++ newer.hashes.map Prod.fst)).filterMap
        (fun k =>
          if dlookup old.hashes k = dlookup newer.hashes k then none
          else some ("Hash " ++ k ++ " changed"))
    if (countChanges ++ hashChanges).isEmpty then ["No changes detected."]
    else countChanges ++ hashChanges

theorem filterMap_const_none {α β : Type} (f : α → Option β) (h : ∀ a, f a = none)
    (l : List α) : l.filterMap f = [] := by
  induction l with
  | nil => rfl
  | cons a t ih => simp [List.filterMap_cons, h a, ih]

/-- Diffing a snapshot against itself reports no changes. -/
theorem diff_snapshots_self (s : Snapshot) :
    diff_snapshots (some s) s = ["No changes detected."] := by
  unfold diff_snapshots
  dsimp only
  rw [filterMap_const_none _ (fun k => by simp),
      filterMap_const_none _ (fun k => by simp)]
  rfl

/-- C7 (amended): snapshot insensitivity to a spell's level.  The spells
hash covers only `(source_key, raw_entity_id)`, so two database states that
differ only in one `Spell` row's level produce identical snapshots, and
`diff_snapshots` reports no change at all — in particular neither a count
change nor `"Hash spells changed"`.  (The repository's scenario that does
report a change — updating the raw spell payload — alters the raw-entity
hashes instead; see the counterexample.) -/
theorem snapshot_spell_level_insensitive (d : SnapDB) (sid : Nat)
    (pre post : List SpellRow) (s : SpellRow) (lv : Option Int)
    (hs : d.spells = pre ++ s :: post) :
    create_snapshot { d with spells := pre ++ { s with level := lv } :: post } sid
        = create_snapshot d sid ∧
    diff_snapshots (some (create_snapshot d sid))
        (create_snapshot { d with spells := pre ++ { s with level := lv } :: post } sid)
      = ["No changes detected."] := by
  have hlen : ((pre ++ { s with level := lv } :: post).filter
        (fun r => r.source_id == sid)).length
      = ((pre ++ s :: post).filter (fun r => r.source_id == sid)).length := by
    by_cases hc : (s.source_id == sid) = true <;>
      simp [List.filter_append, List.filter_cons, hc]
  have hrows : ((pre ++ { s with level := lv } :: post).filter
        (fun r => r.source_id == sid)).map (fun r => (r.source_key, r.raw_entity_id))
      = ((pre ++ s :: post).filter (fun r => r.source_id == sid)).map
        (fun r => (r.source_key, r.raw_entity_id)) := by
    by_cases hc : (s.source_id == sid) = true <;>
      simp [List.filter_append, List.filter_cons, hc]
  have heq : create_snapshot { d with spells := pre ++ { s with level := lv } :: post } sid
      = create_snapshot d sid := by
    unfold create_snapshot
    dsimp only
    rw [hs]
    unfold spellSnapRows
    rw [hlen, hrows]
  exact ⟨heq, by rw [heq]; exact diff_snapshots_self _⟩

def c7payload (lvl : Int) : Json :=
  Json.obj [("index", Json.str "acid-arrow"), ("name", Json.str "Acid Arrow"),
    ("level", Json.num lvl)]

def c7raw (lvl : Int) (h : String) : RawEntity :=
  ⟨1, 1, "spell", "acid-arrow", some "Acid Arrow", none, none, c7payload lvl, h, 0, 0, 0⟩

def c7emptyDB : SnapDB :=
  ⟨[], [], [], [], [], [], [], [], [], [], [], [], [], [], [], [], []⟩

/-- One normalized spell of level 2, raw document at level 2. -/
def c7dbA : SnapDB :=
  { c7emptyDB with raws := [c7raw 2 "h2"], spells := [⟨1, "acid-arrow", some 1, some 2⟩] }

/-- The same state with only the normalized spell's level changed to 3. -/
def c7dbB : SnapDB := { c7dbA with spells := [⟨1, "acid-arrow", some 1, some 3⟩] }

/-- C7 counterexample: the claim predicts `"Hash spells changed"` when only
a spell's level changed and row counts are identical.  In fact the spells
hash covers only `(source_key, raw_entity_id)`, so the two snapshots are
equal and the diff reports nothing at all: no count change, no hash change,
and in particular no `"Hash spells changed"`.  (The repository's test
triggers its report by changing the raw spell document instead, which moves
the `raw_entities` / `raw_entities_spell` hashes, not `spells`.) -/
theorem snapshot_diff_spell_level_counterexample :
    c7dbB.spells = [⟨1, "acid-arrow", some 1, some 3⟩] ∧
    c7dbA.spells = [⟨1, "acid-arrow", some 1, some 2⟩] ∧
    create_snapshot c7dbB 1 = create_snapshot c7dbA 1 ∧
    diff_snapshots (some (create_snapshot c7dbA 1)) (create_snapshot c7dbB 1)
      = ["No changes detected."] ∧
    "Hash spells changed" ∉
      diff_snapshots (some (create_snapshot c7dbA 1)) (create_snapshot c7dbB 1) := by
  have heq : create_snapshot c7dbB 1 = create_snapshot c7dbA 1 := rfl
  refine ⟨rfl, rfl, heq, ?_, ?_⟩
  · rw [heq]
    exact diff_snapshots_self _
  · rw [heq, diff_snapshots_self]
    simp

theorem snapshot_spell_level_insensitive_witness :
    c7dbA.spells = [] ++ (⟨1, "acid-arrow", some 1, some 2⟩ : SpellRow) :: [] ∧
    (create_snapshot { c7dbA with spells :=
        [] ++ ({ (⟨1, "acid-arrow", some 1, some 2⟩ : SpellRow) with
          level := some 3 } : SpellRow) :: [] } 1 = create_snapshot c7dbA 1 ∧
     diff_snapshots (some (create_snapshot c7dbA 1))
        (create_snapshot { c7dbA with spells :=
          [] ++ ({ (⟨1, "acid-arrow", some 1, some 2⟩ : SpellRow) with
            level := some 3 } : SpellRow) :: [] } 1)
       = ["No changes detected."]) :=
  ⟨rfl, snapshot_spell_level_insensitive c7dbA 1 [] []
    ⟨1, "acid-arrow", some 1, some 2⟩ (some 3) rfl⟩

/-! ## C8: grant identity -/

def c8payload : Json :=
  Json.obj [("index", Json.str "fighter"), ("name", Json.str "Fighter"),
    ("spellcasting", Json.obj [("spells", Json.arr
      [Json.obj [("index", Json.str "magic-missile"), ("name", Json.str "Magic Missile")]])])]

def c8raw : RawEntity :=
  ⟨1, 1, "class", "fighter", some "Fighter", none, none, c8payload, "", 0, 0, 0⟩

def c8owner : Owner := ⟨1, some "Fighter", "fighter", none⟩

def c8spell : Owner := ⟨7, some "Magic Missile", "magic-missile", none⟩

/-- Context in which `magic-missile` is now resolvable. -/
def c8ctx : GrantsCtx :=
  ⟨1, [("fighter", c8owner)], [], [], [("magic-missile", c8spell)], [c8raw]⟩

/-- The grant row a previous pass created while the spell was unresolved. -/
def c8row : GrantSpellRow := ⟨1, "class", 1, "magic-missile", "Magic Missile", none⟩

def c8st : GrantsState := ⟨[], [c8row], []⟩

/-- C8 counterexample: the claim predicts that a later pass updates an
existing grant's null reference once the spell exists.  Here the spell is
resolvable, the stored grant's `spell_id` is null, and re-running
`load_grants` leaves the state bit-for-bit unchanged — the loader `continue`s
on the existing dedup key and never re-resolves.  Resolution happens only at
insertion time: from an empty state the same context inserts the row with
`spell_id = some 7`. -/
theorem load_grants_no_reresolution_counterexample :
    (dlookup c8ctx.spells "magic-missile").isSome = true ∧
    c8row.spell_id = none ∧
    (load_grants c8ctx c8st).1 = c8st ∧
    (load_grants c8ctx c8st).2.grant_spells_created = 0 ∧
    (load_grants c8ctx ⟨[], [], []⟩).1.spells
      = [⟨1, "class", 1, "magic-missile", "Magic Missile", some 7⟩] := by
  refine ⟨by decide, rfl, by decide, by decide, by decide⟩

/-- C8 (amended): a grant's identity is `(source, owner_type, owner_id,
key, label)` — the key projection of every inserted row equals its
candidate's dedup key, which excludes the resolved reference id.  Each
`load_grants` pass leaves all existing rows untouched (so a null reference
id stays null; no pass updates it) and only appends rows whose identity is
absent from the existing same-source rows, so no duplicate identity is ever
created. -/
theorem grant_identity_invariant (ctx : GrantsCtx) (st : GrantsState) :
    (∀ c : ProfCand,
      profKeyOfRow (profRowOfCand ctx.source_id c) = profKeyOfCand ctx.source_id c) ∧
    (∀ c : RefCand, spellKeyOfRow (spellRowOfCand ctx c) = spellKeyOfCand ctx.source_id c) ∧
    (∀ c : RefCand, featKeyOfRow (featRowOfCand ctx c) = spellKeyOfCand ctx.source_id c) ∧
    (∃ newP, (load_grants ctx st).1.profs = st.profs ++ newP ∧
      ∀ row ∈ newP, profKeyOfRow row ∉
        (st.profs.filter (fun r => r.source_id == ctx.source_id)).map profKeyOfRow) ∧
    (∃ newS, (load_grants ctx st).1.spells = st.spells ++ newS ∧
      ∀ row ∈ newS, spellKeyOfRow row ∉
        (st.spells.filter (fun r => r.source_id == ctx.source_id)).map spellKeyOfRow) ∧
    (∃ newF, (load_grants ctx st).1.feats = st.feats ++ newF ∧
      ∀ row ∈ newF, featKeyOfRow row ∉
        (st.feats.filter (fun r => r.source_id == ctx.source_id)).map featKeyOfRow) := by
  refine ⟨fun c => rfl, fun c => rfl, fun c => rfl, ?_, ?_, ?_⟩
  · obtain ⟨new, hrows, hprop⟩ := dedupFold_rows_decomp (profKeyOfCand ctx.source_id)
      (profRowOfCand ctx.source_id) (fun _ => 0) (profCandsOf ctx)
      ⟨((st.profs.filter (fun r => r.source_id == ctx.source_id)).map profKeyOfRow),
        st.profs, 0, 0⟩
    refine ⟨new, hrows, fun row hrow => ?_⟩
    obtain ⟨c, hc, he, hk⟩ := hprop row hrow
    rw [he]
    exact hk
  · obtain ⟨new, hrows, hprop⟩ := dedupFold_rows_decomp (spellKeyOfCand ctx.source_id)
      (spellRowOfCand ctx) (spellMissOf ctx) (spellCandsOf ctx)
      ⟨((st.spells.filter (fun r => r.source_id == ctx.source_id)).map spellKeyOfRow),
        st.spells, 0, 0⟩
    refine ⟨new, hrows, fun row hrow => ?_⟩
    obtain ⟨c, hc, he, hk⟩ := hprop row hrow
    rw [he]
    exact hk
  · obtain ⟨new, hrows, hprop⟩ := dedupFold_rows_decomp (spellKeyOfCand ctx.source_id)
      (featRowOfCand ctx) (featMissOf ctx) (featCandsOf ctx)
      ⟨((st.feats.filter (fun r => r.source_id == ctx.source_id)).map featKeyOfRow),
        st.feats, 0, 0⟩
    refine ⟨new, hrows, fun row hrow => ?_⟩
    obtain ⟨c, hc, he, hk⟩ := hprop row hrow
    rw [he]
    exact hk

/-! ## Character progression (character_progression.py) -/

/-- `_compare_int`. -/
def _compare_int (op : String) (left right : Int) : Bool :=
  if op == ">=" then decide (left ≥ right)
  else if op == ">" then decide (left > right)
  else if op == "<=" then decide (left ≤ right)
  else if op == "<" then decide (left < right)
  else if op == "==" then left == right
  else false

/-- The candidate state `_validate_prereqs` evaluates against: the class's
source key, the optional subclass key, the new level, the optional ability
scores, and the character's feature ids. -/
structure ValCandidate where
  class_key : String
  subclass_key : Option String
  level : Int
  ability_scores : Option (List (String × Int))
  feature_ids : List Nat
deriving DecidableEq

/-- One dispatch step of `_validate_prereqs`: `Except.error` models the
raised `ValueError` (including the `int()` parse failure inside the level
and ability branches). -/
def checkPrereq (featureTable : List (String × Nat)) (cand : ValCandidate)
    (p : PrereqRow) : Except String Unit :=
  if p.prereq_type == "class" then
    if p.key != cand.class_key then
      Except.error ("Prerequisite failed: class " ++ p.key)
    else Except.ok ()
  else if p.prereq_type == "subclass" then
    match cand.subclass_key with
    | none => Except.error ("Prerequisite failed: subclass " ++ p.key)
    | some sk =>
      if p.key != sk then Except.error ("Prerequisite failed: subclass " ++ p.key)
      else Except.ok ()
  else if p.prereq_type == "feature" then
    match dlookup featureTable p.key with
    | none => Except.error ("Prerequisite failed: feature " ++ p.key)
    | some fid =>
      if fid ∈ cand.feature_ids then Except.ok ()
      else Except.error ("Prerequisite failed: feature " ++ p.key)
  else if p.prereq_type == "level" then
    if !(p.key == "any" || p.key == cand.class_key) then
      Except.error ("Prerequisite failed: level class " ++ p.key)
    else
      match pyParseInt p.value with
      | none => Except.error ("invalid literal for int() with base 10: "
          ++ pyRepr (Json.str p.value))
      | some v =>
        if _compare_int p.operator cand.level v then Except.ok ()
        else Except.error ("Prerequisite failed: level " ++ p.operator ++ " " ++ p.value)
  else if p.prereq_type == "ability" then
    match cand.ability_scores with
    | none => Except.error ("Prerequisite failed: ability " ++ p.key)
    | some scores =>
      match dlookup scores p.key with
      | none => Except.error ("Prerequisite failed: ability " ++ p.key)
      | some score =>
        match pyParseInt p.value with
        | none => Except.error ("invalid literal for int() with base 10: "
            ++ pyRepr (Json.str p.value))
        | some v =>
          if _compare_int p.operator score v then Except.ok ()
          else Except.error ("Prerequisite failed: ability " ++ p.key)
  else Except.error ("Unsupported prerequisite type: " ++ p.prereq_type)

/-- `_validate_prereqs`: sequential dispatch, first failure aborts. -/
def _validate_prereqs (featureTable : List (String × Nat)) (cand : ValCandidate) :
    List PrereqRow → Except String Unit
  | [] => Except.ok ()
  | p :: rest =>
    match checkPrereq featureTable cand p with
    | Except.error e => Except.error e
    | Except.ok _ => _validate_prereqs featureTable cand rest

structure CharacterLevelRow where
  character_id : Nat
  class_id : Nat
  subclass_id : Option Nat
  level : Int
deriving DecidableEq

structure CharacterChoiceRow where
  character_id : Nat
  choice_group_id : Nat
  choice_option_id : Option Nat
  option_label : Option String
deriving DecidableEq

/-- One entry of `apply_level_up`'s `choices` argument. -/
structure LevelChoice where
  choice_group_id : Option Nat
  choice_option_id : Option Nat
  option_label : Option String
deriving DecidableEq

/-- Read-only reference tables `apply_level_up` consults. -/
structure ProgCtx where
  classes : List (Nat × String)
  subclasses : List (Nat × String)
  featureTable : List (String × Nat)
  charFeatures : List (Nat × Nat)
  groups : List ChoiceGroupRow
  options : List (Nat × ChoiceOptionRow)
  prereqs : List PrereqRow

/-- The tables `apply_level_up` writes. -/
structure ProgDB where
  levels : List CharacterLevelRow
  charChoices : List CharacterChoiceRow
deriving DecidableEq

/-- One iteration of the `choices` loop: resolve the group, validate its
prerequisites, resolve the optional option, and build the `CharacterChoice`
row.  `.one()` lookups that find no row surface SQLAlchemy's
`NoResultFound`. -/
def processLevelChoice (ctx : ProgCtx) (character_id class_id : Nat) (level : Int)
    (subclass_id : Option Nat) (ability_scores : Option (List (String × Int)))
    (c : LevelChoice) : Except String CharacterChoiceRow :=
  match c.choice_group_id with
  | none => Except.error "Choice missing choice_group_id."
  | some gid =>
    match ctx.groups.find? (fun g => g.id == gid) with
    | none => Except.error "No row was found when one was required"
    | some group =>
      match ctx.classes.find? (fun t => t.1 == class_id) with
      | none => Except.error "No row was found when one was required"
      | some kc =>
        let subclass_key : Option String :=
          match subclass_id with
          | none => none
          | some sid2 => (ctx.subclasses.find? (fun t => t.1 == sid2)).map (fun t => t.2)
        let feature_ids :=
          (ctx.charFeatures.filter (fun t => t.1 == character_id)).map (fun t => t.2)
        let cand : ValCandidate := ⟨kc.2, subclass_key, level, ability_scores, feature_ids⟩
        let prereqs := ctx.prereqs.filter (fun p =>
          p.applies_to_type == "choice_group" && p.applies_to_id == group.id)
        match _validate_prereqs ctx.featureTable cand prereqs with
        | Except.error e => Except.error e
        | Except.ok _ =>
          match c.choice_option_id with
          | some oid =>
            (match ctx.options.find? (fun t => t.1 == oid) with
             | none => Except.error ("Choice option not found: " ++ toString oid)
             | some t =>
               Except.ok ⟨character_id, group.id, some oid,
                 if t.2.label == "" then none else some t.2.label⟩)
          | none =>
            Except.ok ⟨character_id, group.id, none,
              match c.option_label with
              | none => none
              | some l => if l == "" then none else some l⟩

def processLevelChoices (ctx : ProgCtx) (character_id class_id : Nat) (level : Int)
    (subclass_id : Option Nat) (ability_scores : Option (List (String × Int))) :
    List LevelChoice → Except String (List CharacterChoiceRow)
  | [] => Except.ok []
  | c :: rest =>
    match processLevelChoice ctx character_id class_id level subclass_id ability_scores c with
    | Except.error e => Except.error e
    | Except.ok row =>
      match processLevelChoices ctx character_id class_id level subclass_id
          ability_scores rest with
      | Except.error e => Except.error e
      | Except.ok rows => Except.ok (row :: rows)

/-- `apply_level_up` (character_progression.py) as a pure state transformer.
An `Except.error` models the raised `ValueError` / `NoResultFound`: the
session never commits on that path, so the stored tables are unchanged —
the error constructor carries no state. -/
def apply_level_up (ctx : ProgCtx) (db : ProgDB) (character_id class_id : Nat)
    (level : Int) (subclass_id : Option Nat) (choices : List LevelChoice)
    (ability_scores : Option (List (String × Int))) :
    Except String (ProgDB × CharacterLevelRow) :=
  match db.levels.find? (fun r => r.character_id == character_id && r.level == level) with
  | some _ => Except.error ("Character already has level " ++ toString level ++ ".")
  | none =>
    let level_row : CharacterLevelRow := ⟨character_id, class_id, subclass_id, level⟩
    match processLevelChoices ctx character_id class_id level subclass_id
        ability_scores choices with
    | Except.error e => Except.error e
    | Except.ok rows =>
      Except.ok ({ levels := db.levels ++ [level_row]
                   charChoices := db.charChoices ++ rows }, level_row)

/-- C9: Prerequisite evaluation contract.  Validation succeeds exactly when
every row passes its dispatch rule; a `level` row passes exactly when its key
is `any` or the candidate class's source key, its value parses as an int, and
the numeric comparison against the candidate's level holds; the first failing
row aborts evaluation with that row's message; an unsupported `prereq_type`
is itself a failure. -/
theorem prereq_validation_contract (ft : List (String × Nat)) (cand : ValCandidate) :
    (∀ ps : List PrereqRow, _validate_prereqs ft cand ps = Except.ok () ↔
        ∀ p ∈ ps, checkPrereq ft cand p = Except.ok ()) ∧
    (∀ p : PrereqRow, p.prereq_type = "level" →
      (checkPrereq ft cand p = Except.ok () ↔
        ((p.key = "any" ∨ p.key = cand.class_key) ∧
         ∃ v, pyParseInt p.value = some v ∧ _compare_int p.operator cand.level v = true))) ∧
    (∀ pre (p : PrereqRow) post e, (∀ q ∈ pre, checkPrereq ft cand q = Except.ok ()) →
      checkPrereq ft cand p = Except.error e →
      _validate_prereqs ft cand (pre ++ p :: post) = Except.error e) ∧
    (∀ p : PrereqRow, p.prereq_type ∉ ["class", "subclass", "feature", "level", "ability"] →
      checkPrereq ft cand p = Except.error ("Unsupported prerequisite type: "
        ++ p.prereq_type)) := by
  refine ⟨?_, ?_, ?_, ?_⟩
  · intro ps
    induction ps with
    | nil => simp [_validate_prereqs]
    | cons p rest ih =>
      unfold _validate_prereqs
      cases hc : checkPrereq ft cand p with
      | error e =>
        simp only [List.mem_cons]
        constructor
        · intro h
          cases h
        · intro h
          rw [h p (Or.inl rfl)] at hc
          cases hc
      | ok u =>
        cases u
        simp only [List.mem_cons]
        constructor
        · intro h q hq
          rcases hq with rfl | hq
          · exact hc
          · exact (ih.mp h) q hq
        · intro h
          exact ih.mpr (fun q hq => h q (Or.inr hq))
  · intro p hp
    unfold checkPrereq
    rw [hp]
    simp only [show (("level" : String) == "class") = false from rfl,
      show (("level" : String) == "subclass") = false from rfl,
      show (("level" : String) == "feature") = false from rfl,
      show (("level" : String) == "level") = true from rfl,
      Bool.false_eq_true, if_false, if_true]
    by_cases hk : (p.key == "any" || p.key == cand.class_key) = true
    · have hk2 : p.key = "any" ∨ p.key = cand.class_key := by simpa using hk
      rw [hk]
      simp only [Bool.not_true, Bool.false_eq_true, if_false]
      cases hv : pyParseInt p.value with
      | none =>
        dsimp only
        constructor
        · intro h
          cases h
        · rintro ⟨-, v, hv2, -⟩
          cases hv2
      | some v =>
        dsimp only
        by_cases hcmp : _compare_int p.operator cand.level v = true
        · rw [if_pos hcmp]
          exact ⟨fun h => ⟨hk2, v, rfl, hcmp⟩, fun h => rfl⟩
        · rw [if_neg hcmp]
          constructor
          · intro h
            cases h
          · rintro ⟨-, v2, hv2, hcmp2⟩
            injection hv2 with hv3
            subst hv3
            exact absurd hcmp2 hcmp
    · rw [Bool.eq_false_iff.mpr hk]
      rw [if_pos (show ((!false) = true) from rfl)]
      constructor
      · intro h
        cases h
      · rintro ⟨hor, -⟩
        refine absurd ?_ hk
        rcases hor with h1 | h1 <;> simp [h1]
  · intro pre p post e hok hfail
    induction pre with
    | nil =>
      show _validate_prereqs ft cand (p :: post) = Except.error e
      unfold _validate_prereqs
      rw [hfail]
    | cons q pre2 ih =>
      show _validate_prereqs ft cand (q :: (pre2 ++ p :: post)) = Except.error e
      unfold _validate_prereqs
      rw [hok q (List.mem_cons_self q pre2)]
      exact ih (fun q2 hq2 => hok q2 (List.mem_cons_of_mem q hq2))
  · intro p hp
    simp at hp
    obtain ⟨h1, h2, h3, h4, h5⟩ := hp
    have e1 : (p.prereq_type == "class") = false := by simp [h1]
    have e2 : (p.prereq_type == "subclass") = false := by simp [h2]
    have e3 : (p.prereq_type == "feature") = false := by simp [h3]
    have e4 : (p.prereq_type == "level") = false := by simp [h4]
    have e5 : (p.prereq_type == "ability") = false := by simp [h5]
    unfold checkPrereq
    rw [e1, e2, e3, e4, e5]
    rfl

def c9cand : ValCandidate := ⟨"fighter", none, 2, none, []⟩

def c9levelRow : PrereqRow := ⟨"choice_group", 1, "level", "fighter", ">=", "2", none⟩

def c9failRow : PrereqRow := ⟨"choice_group", 1, "level", "fighter", ">=", "3", none⟩

def c9badRow : PrereqRow := ⟨"choice_group", 1, "alignment", "lawful", "==", "true", none⟩

theorem prereq_validation_contract_witness :
    (c9levelRow.prereq_type = "level" ∧
     (checkPrereq [] c9cand c9levelRow = Except.ok () ↔
       ((c9levelRow.key = "any" ∨ c9levelRow.key = c9cand.class_key) ∧
        ∃ v, pyParseInt c9levelRow.value = some v ∧
          _compare_int c9levelRow.operator c9cand.level v = true))) ∧
    ((∀ q ∈ [c9levelRow], checkPrereq [] c9cand q = Except.ok ()) ∧
     checkPrereq [] c9cand c9failRow
       = Except.error "Prerequisite failed: level >= 3" ∧
     _validate_prereqs [] c9cand ([c9levelRow] ++ c9failRow :: [c9badRow])
       = Except.error "Prerequisite failed: level >= 3") ∧
    (c9badRow.prereq_type ∉ ["class", "subclass", "feature", "level", "ability"] ∧
     checkPrereq [] c9cand c9badRow
       = Except.error ("Unsupported prerequisite type: " ++ c9badRow.prereq_type)) :=
  ⟨⟨rfl, (prereq_validation_contract [] c9cand).2.1 c9levelRow rfl⟩,
   ⟨fun q hq => by rw [List.mem_singleton.mp hq]; rfl, rfl,
    (prereq_validation_contract [] c9cand).2.2.1 [c9levelRow] c9failRow [c9badRow]
      "Prerequisite failed: level >= 3"
      (fun q hq => by rw [List.mem_singleton.mp hq]; rfl) rfl⟩,
   ⟨by decide,
    (prereq_validation_contract [] c9cand).2.2.2 c9badRow (by decide)⟩⟩

/-- C10: the implicit duplicate level-up guard.  If a `CharacterLevel` row
already exists for `(character_id, level)`, `apply_level_up` fails with
`Character already has level {level}.` before anything is written: the
result is the error alone, so no `CharacterLevel` and no `CharacterChoice`
row is created. -/
theorem apply_level_up_duplicate_guard (ctx : ProgCtx) (db : ProgDB)
    (character_id class_id : Nat) (level : Int) (subclass_id : Option Nat)
    (choices : List LevelChoice) (ability_scores : Option (List (String × Int)))
    (row : CharacterLevelRow) (hrow : row ∈ db.levels)
    (hcid : row.character_id = character_id) (hlv : row.level = level) :
    apply_level_up ctx db character_id class_id level subclass_id choices ability_scores
      = Except.error ("Character already has level " ++ toString level ++ ".") := by
  subst hcid
  subst hlv
  unfold apply_level_up
  cases hf : db.levels.find?
      (fun r => r.character_id == row.character_id && r.level == row.level) with
  | some r => rfl
  | none =>
    have := List.find?_eq_none.mp hf row hrow
    simp at this

def c10row : CharacterLevelRow := ⟨1, 1, none, 2⟩

def c10db : ProgDB := ⟨[c10row], []⟩

def c10ctx : ProgCtx := ⟨[(1, "fighter")], [], [], [], [], [], []⟩

theorem apply_level_up_duplicate_guard_witness :
    c10row ∈ c10db.levels ∧ c10row.character_id = 1 ∧ c10row.level = 2 ∧
    apply_level_up c10ctx c10db 1 1 2 none [] none
      = Except.error ("Character already has level " ++ toString (2 : Int) ++ ".") :=
  ⟨by decide, rfl, rfl,
   apply_level_up_duplicate_guard c10ctx c10db 1 1 2 none [] none c10row
     (by decide) rfl rfl⟩

end DndDb
